import Mathlib

/-! # robotis_manipulator: minimum-jerk trajectories and the kinematic tree

A shallow embedding of `src/RMTrajectory.cpp` and
`src/robotis_manipulator_manager.cpp`.

Conventions of the embedding.

* Scalars are rationals (`ℚ`).  The trajectory code is embedded twice: once
  with every operation exact (the reading of the statements made "in exact
  arithmetic"), and once in machine arithmetic, where each `double` operation
  and each conversion to `float` rounds to nearest, ties to even (`to_double`,
  `to_float`; definitions named `..._double` and `..._float`).  Infinities and
  NaN have no counterpart: the machine definitions describe runs whose values
  stay finite.
* Machine integers are `ℤ`/`ℕ` with an explicit reduction modulo `2^w`
  wherever the source stores a value into a `w`-bit variable.
* A C++ member function that mutates its object becomes a function from the
  old object to the new one; a call that can throw or abort returns an
  `Outcome` carrying the object as it was when control left the function.
-/

set_option autoImplicit false

/-! ## Outcomes of a call -/

/-- Result of running a member function on an object of type `σ`:
normal return, a thrown `std::out_of_range` (from `std::vector::at` or
`std::map::at`), a failed Eigen index assertion (the process aborts, no object
is left to observe), or a loop that never exits.  The object carried is the
object at the moment control left the function. -/
inductive Outcome (σ : Type) where
  | returned (self : σ)
  | out_of_range (self : σ)
  | index_assert
  | diverged
  deriving DecidableEq, Repr

/-- Transport of an outcome along a map of objects. -/
def Outcome.map {σ τ : Type} (f : σ → τ) : Outcome σ → Outcome τ
  | Outcome.returned s => Outcome.returned (f s)
  | Outcome.out_of_range s => Outcome.out_of_range (f s)
  | Outcome.index_assert => Outcome.index_assert
  | Outcome.diverged => Outcome.diverged

namespace Eigen

/-! ## Small fixed-size vectors and matrices -/

/-- Modelled from the spec: Eigen `Vector3f`, a vector of three scalars. -/
structure Vector3f where
  x : ℚ
  y : ℚ
  z : ℚ
  deriving DecidableEq, Repr

/-- Modelled from the spec: Eigen `Matrix3f`, given by its three rows. -/
structure Matrix3f where
  r0 : Vector3f
  r1 : Vector3f
  r2 : Vector3f
  deriving DecidableEq, Repr

/-- `Vector3f::Zero()`. -/
def Vector3f.Zero : Vector3f := ⟨0, 0, 0⟩

/-- `Matrix3f::Identity(3, 3)`. -/
def Matrix3f.Identity : Matrix3f := ⟨⟨1, 0, 0⟩, ⟨0, 1, 0⟩, ⟨0, 0, 1⟩⟩

/-- The zero 3x3 matrix. -/
def Matrix3f.Zero : Matrix3f := ⟨Vector3f.Zero, Vector3f.Zero, Vector3f.Zero⟩

/-- Dot product of two 3-vectors. -/
def Vector3f.dot (u v : Vector3f) : ℚ := u.x * v.x + u.y * v.y + u.z * v.z

/-- Matrix-vector product `A * x`. -/
def Matrix3f.mulVec (A : Matrix3f) (v : Vector3f) : Vector3f :=
  ⟨A.r0.dot v, A.r1.dot v, A.r2.dot v⟩

/-- Determinant of a 3x3 matrix (expansion along the first row). -/
def Matrix3f.determinant (A : Matrix3f) : ℚ :=
  A.r0.x * (A.r1.y * A.r2.z - A.r1.z * A.r2.y)
    - A.r0.y * (A.r1.x * A.r2.z - A.r1.z * A.r2.x)
    + A.r0.z * (A.r1.x * A.r2.y - A.r1.y * A.r2.x)

/-- The type of the vector `solve` returns on a singular system, as a function
of the matrix and the right-hand side. -/
abbrev SingularSolve : Type := Matrix3f → Vector3f → Vector3f

/-- Modelled from the spec: `ColPivHouseholderQR<Matrix3f>(A).solve(b)`, the
Eigen library routine called by `calcCoefficient`, in exact arithmetic.  For an
invertible `A` the decomposition has full rank and `solve` returns the unique
solution of `A x = b` (written here with Cramer's rule).  For a singular `A`
the equations do not determine the result (the floating-point routine may
return non-finite values); the vector returned there is left unspecified and
is the parameter `solve_singular` of the development. -/
def ColPivHouseholderQR_solve (solve_singular : SingularSolve) (A : Matrix3f)
    (b : Vector3f) : Vector3f :=
  if A.determinant = 0 then solve_singular A b
  else
    let d := A.determinant
    ⟨Matrix3f.determinant
        ⟨⟨b.x, A.r0.y, A.r0.z⟩, ⟨b.y, A.r1.y, A.r1.z⟩, ⟨b.z, A.r2.y, A.r2.z⟩⟩ / d,
     Matrix3f.determinant
        ⟨⟨A.r0.x, b.x, A.r0.z⟩, ⟨A.r1.x, b.y, A.r1.z⟩, ⟨A.r2.x, b.z, A.r2.z⟩⟩ / d,
     Matrix3f.determinant
        ⟨⟨A.r0.x, A.r0.y, b.x⟩, ⟨A.r1.x, A.r1.y, b.y⟩, ⟨A.r2.x, A.r2.y, b.z⟩⟩ / d⟩

/-- One possible behaviour of `solve` on singular matrices, used in the
examples: the zero vector. -/
def solve_singular_zero : SingularSolve := fun _ _ => Vector3f.Zero

/-- A coefficient vector of size 6 (`VectorXf::Zero(6)`, one column of the
`6 x DOF` coefficient matrix), entries of degree 0 to 5. -/
structure Vector6f where
  c0 : ℚ
  c1 : ℚ
  c2 : ℚ
  c3 : ℚ
  c4 : ℚ
  c5 : ℚ
  deriving DecidableEq, Repr

/-- `VectorXf::Zero(6)`. -/
def Vector6f.Zero : Vector6f := ⟨0, 0, 0, 0, 0, 0⟩

/-- Column `j` of `MatrixXf::Identity(6, n)`: entry `(i, j)` is `1` when
`i = j` and `0` otherwise. -/
def identityColumn (j : ℕ) : Vector6f :=
  ⟨if j = 0 then 1 else 0, if j = 1 then 1 else 0, if j = 2 then 1 else 0,
   if j = 3 then 1 else 0, if j = 4 then 1 else 0, if j = 5 then 1 else 0⟩

/-- `MatrixXf::Identity(6, n)` as the list of its `n` columns. -/
def MatrixXf_Identity6 (n : ℕ) : List Vector6f := (List.range n).map identityColumn

end Eigen

namespace IEEE754

/-! ## Binary floating-point rounding -/

/-- Rounding of a rational to the nearest integer, ties to the even one. -/
def round_half_even (x : ℚ) : ℤ :=
  if x - ⌊x⌋ < 1 / 2 then ⌊x⌋
  else if 1 / 2 < x - ⌊x⌋ then ⌊x⌋ + 1
  else if ⌊x⌋ % 2 = 0 then ⌊x⌋ else ⌊x⌋ + 1

/-- Rounding of a rational to the binary floating-point format with `p`
significand bits and least normal exponent `emin`: round to nearest, ties to
even, with gradual underflow.  The value is a multiple of the unit in the last
place `2 ^ (e - (p - 1))`, `e` being the binary exponent of `x` (at least
`emin`).  Overflow is not modelled: a result beyond the largest finite number
of the format, an infinity in the machine, is outside the model. -/
def round_binary (p : ℕ) (emin : ℤ) (x : ℚ) : ℚ :=
  if x = 0 then 0
  else
    (round_half_even (x / 2 ^ (max (Int.log 2 |x|) emin - (p - 1))) : ℚ)
      * 2 ^ (max (Int.log 2 |x|) emin - (p - 1))

/-- Rounding to `double` (binary64): the result of a double-precision
operation whose exact result is `x`. -/
def to_double (x : ℚ) : ℚ := round_binary 53 (-1022) x

/-- Rounding to `float` (binary32): the conversion of a value to the element
type of `VectorXf`, `MatrixXf`, `Matrix3f` and `Vector3f`. -/
def to_float (x : ℚ) : ℚ := round_binary 24 (-126) x

/-- The double-precision number nearest to the decimal `0.1`. -/
def double_one_tenth : ℚ := 3602879701896397 / 36028797018963968

/-- The double-precision number nearest to the decimal `0.3`. -/
def double_three_tenths : ℚ := 5404319552844595 / 18014398509481984

end IEEE754

namespace RM_TRAJECTORY

open Eigen IEEE754

/-! ## MinimumJerk -/

/-- Modelled from the spec: the `Trajectory` struct of `RMTrajectory.h`
(a boundary point: position, velocity, acceleration of one degree of freedom). -/
structure Trajectory where
  position : ℚ
  velocity : ℚ
  acceleration : ℚ
  deriving DecidableEq, Repr

/-- Modelled from the spec: the data member of class `MinimumJerk`
(`coefficient_`, a `VectorXf` of size 6). -/
structure MinimumJerk where
  coefficient_ : Vector6f
  deriving DecidableEq, Repr

/-- `MinimumJerk::MinimumJerk()`. -/
def MinimumJerk.new : MinimumJerk := ⟨Vector6f.Zero⟩

/-- The local `uint16_t step_time = uint16_t(floor(move_time / control_time) + 1.0)`
of `calcCoefficient` in exact arithmetic: the tick count stored in 16 bits, the
floor being taken of the exact quotient and a value out of range reduced
modulo `2^16`.  The machine computation is `step_time_double`. -/
def step_time (move_time control_time : ℚ) : ℤ :=
  (⌊move_time / control_time⌋ + 1) % 65536

/-- The reassigned `move_time = double(step_time - 1) * control_time` of
`calcCoefficient` in exact arithmetic (`step_time - 1` is computed in `int`). -/
def quantized_move_time (move_time control_time : ℚ) : ℚ :=
  ((step_time move_time control_time - 1 : ℤ) : ℚ) * control_time

/-- The matrix `A` filled in by `calcCoefficient` for the time `T`. -/
def calcCoefficient_A (T : ℚ) : Matrix3f :=
  ⟨⟨T ^ 3, T ^ 4, T ^ 5⟩,
   ⟨3 * T ^ 2, 4 * T ^ 3, 5 * T ^ 4⟩,
   ⟨6 * T ^ 1, 12 * T ^ 2, 20 * T ^ 3⟩⟩

/-- The right-hand side `b` filled in by `calcCoefficient` for the time `T`. -/
def calcCoefficient_b (start goal : Trajectory) (T : ℚ) : Vector3f :=
  ⟨goal.position - start.position - (start.velocity * T + 0.5 * start.acceleration * T ^ 2),
   goal.velocity - start.velocity - (start.acceleration * T),
   goal.acceleration - start.acceleration⟩

/-- `MinimumJerk::calcCoefficient` in exact arithmetic: no operation and no
store rounds.  The machine computation, with its single-precision stores, is
`MinimumJerk.calcCoefficient_float`. -/
def MinimumJerk.calcCoefficient (solve_singular : SingularSolve)
    (self : MinimumJerk) (start goal : Trajectory) (move_time control_time : ℚ) : MinimumJerk :=
  let move_time := quantized_move_time move_time control_time
  let A := calcCoefficient_A move_time
  let c := self.coefficient_
  let c := { c with c0 := start.position }
  let c := { c with c1 := start.velocity }
  let c := { c with c2 := 0.5 * start.acceleration }
  let b := calcCoefficient_b start goal move_time
  let x := ColPivHouseholderQR_solve solve_singular A b
  let c := { c with c3 := x.x }
  let c := { c with c4 := x.y }
  let c := { c with c5 := x.z }
  { self with coefficient_ := c }

/-- `MinimumJerk::getCoefficient`. -/
def MinimumJerk.getCoefficient (self : MinimumJerk) : Vector6f := self.coefficient_

/-- The six coefficients `calcCoefficient` produces when run in isolation: on a
freshly constructed solver, followed by `getCoefficient`. -/
def isolated_solve (solve_singular : SingularSolve) (start goal : Trajectory)
    (move_time control_time : ℚ) : Vector6f :=
  (MinimumJerk.new.calcCoefficient solve_singular start goal move_time control_time).getCoefficient

/-! ## Evaluation polynomials -/

/-- The expression assigned to `result` in `getPosition` for the column `c`. -/
def position_result (c : Vector6f) (tick : ℚ) : ℚ :=
  c.c0 + c.c1 * tick ^ 1 + c.c2 * tick ^ 2 + c.c3 * tick ^ 3 + c.c4 * tick ^ 4 + c.c5 * tick ^ 5

/-- The expression assigned to `result` in `getVelocity` for the column `c`. -/
def velocity_result (c : Vector6f) (tick : ℚ) : ℚ :=
  c.c1 + 2 * c.c2 * tick ^ 1 + 3 * c.c3 * tick ^ 2 + 4 * c.c4 * tick ^ 3 + 5 * c.c5 * tick ^ 4

/-- The expression assigned to `result` in `getAcceleration` for the column `c`. -/
def acceleration_result (c : Vector6f) (tick : ℚ) : ℚ :=
  2 * c.c2 + 6 * c.c3 * tick ^ 1 + 12 * c.c4 * tick ^ 2 + 20 * c.c5 * tick ^ 3

/-- The loop shared in shape by the three evaluators of both trajectory
classes: `for (uint8_t index = 0; index < n; index++)` reading column `index`
of `coefficient` and pushing `result c tick` onto the output vector `out`.
The first argument is fuel: the 8-bit index takes at most 256 values, so a loop
that has not exited after 256 tests of its condition never exits.  The result
is the output vector, or an Eigen index assertion when the column is absent. -/
def evaluate_loop (result : Vector6f → ℚ → ℚ) (coefficient : List Vector6f) (n : ℕ) (tick : ℚ) :
    ℕ → ℕ → List ℚ → Outcome (List ℚ)
  | 0, _, _ => Outcome.diverged
  | fuel + 1, index, out =>
    if index < n then
      match coefficient[index]? with
      | some c => evaluate_loop result coefficient n tick fuel ((index + 1) % 256)
          (out ++ [result c tick])
      | none => Outcome.index_assert
    else Outcome.returned out

/-! ## JointTrajectory -/

/-- Modelled from the spec: the data members of class `JointTrajectory`
(`RMTrajectory.h`): the shared solver object, the 8-bit joint count, the
`6 x joint_num` coefficient matrix (list of columns) and the three output
vectors. -/
structure JointTrajectory where
  trajectory_generator_ : MinimumJerk
  joint_num_ : ℕ
  coefficient_ : List Vector6f
  position_ : List ℚ
  velocity_ : List ℚ
  acceleration_ : List ℚ
  deriving DecidableEq, Repr

/-- `JointTrajectory::JointTrajectory(uint8_t joint_num)`; the argument is
converted to 8 bits at the call. -/
def JointTrajectory.new (joint_num : ℕ) : JointTrajectory :=
  { trajectory_generator_ := MinimumJerk.new
    joint_num_ := joint_num % 256
    coefficient_ := MatrixXf_Identity6 (joint_num % 256)
    position_ := []
    velocity_ := []
    acceleration_ := [] }

/-- The loop of `JointTrajectory::init`, from the value `index` of the 8-bit
loop variable.  The first argument is fuel, as in `evaluate_loop`. -/
def JointTrajectory.init_loop (solve_singular : SingularSolve)
    (start goal : List Trajectory) (move_time control_time : ℚ) :
    ℕ → ℕ → JointTrajectory → Outcome JointTrajectory
  | 0, _, _ => Outcome.diverged
  | fuel + 1, index, self =>
    if index < start.length then
      match start[index]?, goal[index]? with
      | some s, some g =>
        let self := { self with
          trajectory_generator_ := self.trajectory_generator_.calcCoefficient solve_singular s g
              move_time control_time }
        if index < self.coefficient_.length then
          let self := { self with
            coefficient_ := self.coefficient_.set index self.trajectory_generator_.getCoefficient }
          JointTrajectory.init_loop solve_singular start goal move_time control_time fuel
              ((index + 1) % 256) self
        else Outcome.index_assert
      | _, _ => Outcome.out_of_range self
    else Outcome.returned self

/-- `JointTrajectory::init`. -/
def JointTrajectory.init (solve_singular : SingularSolve) (self : JointTrajectory)
    (start goal : List Trajectory) (move_time control_time : ℚ) : Outcome JointTrajectory :=
  JointTrajectory.init_loop solve_singular start goal move_time control_time 256 0 self

/-- `JointTrajectory::getPosition`: the object after the call; the value
returned is its `position_`. -/
def JointTrajectory.getPosition (self : JointTrajectory) (tick : ℚ) : Outcome JointTrajectory :=
  match evaluate_loop position_result self.coefficient_ self.joint_num_ tick 256 0 [] with
  | Outcome.returned out => Outcome.returned { self with position_ := out }
  | Outcome.out_of_range _ => Outcome.out_of_range self
  | Outcome.index_assert => Outcome.index_assert
  | Outcome.diverged => Outcome.diverged

/-- `JointTrajectory::getVelocity`: the object after the call; the value
returned is its `velocity_`. -/
def JointTrajectory.getVelocity (self : JointTrajectory) (tick : ℚ) : Outcome JointTrajectory :=
  match evaluate_loop velocity_result self.coefficient_ self.joint_num_ tick 256 0 [] with
  | Outcome.returned out => Outcome.returned { self with velocity_ := out }
  | Outcome.out_of_range _ => Outcome.out_of_range self
  | Outcome.index_assert => Outcome.index_assert
  | Outcome.diverged => Outcome.diverged

/-- `JointTrajectory::getAcceleration`: the object after the call; the value
returned is its `acceleration_`. -/
def JointTrajectory.getAcceleration (self : JointTrajectory) (tick : ℚ) : Outcome JointTrajectory :=
  match evaluate_loop acceleration_result self.coefficient_ self.joint_num_ tick 256 0 [] with
  | Outcome.returned out => Outcome.returned { self with acceleration_ := out }
  | Outcome.out_of_range _ => Outcome.out_of_range self
  | Outcome.index_assert => Outcome.index_assert
  | Outcome.diverged => Outcome.diverged

/-- `JointTrajectory::getCoefficient`. -/
def JointTrajectory.getCoefficient (self : JointTrajectory) : List Vector6f := self.coefficient_

/-- The trajectory object of the example scenario after `init`: start at rest
at 0, goal at rest at 10, `move_time = 2.0`, `control_time = 0.1`, one degree
of freedom. -/
def example_scenario : JointTrajectory :=
  { trajectory_generator_ := ⟨⟨0, 0, 0, 25 / 2, -75 / 8, 15 / 8⟩⟩
    joint_num_ := 1
    coefficient_ := [⟨0, 0, 0, 25 / 2, -75 / 8, 15 / 8⟩]
    position_ := []
    velocity_ := []
    acceleration_ := [] }

/-- A two-column trajectory object holding earlier coefficients: the object
left by `JointTrajectory(2)` followed by an `init` that keeps both degrees of
freedom at rest at position 7. -/
def earlier_trajectory : JointTrajectory :=
  { trajectory_generator_ := ⟨⟨7, 0, 0, 0, 0, 0⟩⟩
    joint_num_ := 2
    coefficient_ := [⟨7, 0, 0, 0, 0, 0⟩, ⟨7, 0, 0, 0, 0, 0⟩]
    position_ := []
    velocity_ := []
    acceleration_ := [] }

/-- The class invariant of `JointTrajectory` set up by its constructor: the
coefficient matrix has `joint_num_` columns and `joint_num_` fits in 8 bits. -/
def JointTrajectory.well_formed (self : JointTrajectory) : Prop :=
  self.coefficient_.length = self.joint_num_ ∧ self.joint_num_ < 256

/-! ## TaskTrajectory -/

/-- Modelled from the spec: the data members of class `TaskTrajectory`
(`RMTrajectory.h`): the shared solver object, the 8-bit axis count, the
`6 x 3` coefficient matrix (list of columns) and the three output vectors. -/
structure TaskTrajectory where
  trajectory_generator_ : MinimumJerk
  num_of_axis_ : ℕ
  coefficient_ : List Vector6f
  position_ : List ℚ
  velocity_ : List ℚ
  acceleration_ : List ℚ
  deriving DecidableEq, Repr

/-- `TaskTrajectory::TaskTrajectory()`. -/
def TaskTrajectory.new : TaskTrajectory :=
  { trajectory_generator_ := MinimumJerk.new
    num_of_axis_ := 3
    coefficient_ := MatrixXf_Identity6 3
    position_ := []
    velocity_ := []
    acceleration_ := [] }

/-- The loop of `TaskTrajectory::init`, from the value `index` of the 8-bit
loop variable.  The first argument is fuel, as in `evaluate_loop`. -/
def TaskTrajectory.init_loop (solve_singular : SingularSolve)
    (start goal : List Trajectory) (move_time control_time : ℚ) :
    ℕ → ℕ → TaskTrajectory → Outcome TaskTrajectory
  | 0, _, _ => Outcome.diverged
  | fuel + 1, index, self =>
    if index < start.length then
      match start[index]?, goal[index]? with
      | some s, some g =>
        let self := { self with
          trajectory_generator_ := self.trajectory_generator_.calcCoefficient solve_singular s g
              move_time control_time }
        if index < self.coefficient_.length then
          let self := { self with
            coefficient_ := self.coefficient_.set index self.trajectory_generator_.getCoefficient }
          TaskTrajectory.init_loop solve_singular start goal move_time control_time fuel
              ((index + 1) % 256) self
        else Outcome.index_assert
      | _, _ => Outcome.out_of_range self
    else Outcome.returned self

/-- `TaskTrajectory::init`. -/
def TaskTrajectory.init (solve_singular : SingularSolve) (self : TaskTrajectory)
    (start goal : List Trajectory) (move_time control_time : ℚ) : Outcome TaskTrajectory :=
  TaskTrajectory.init_loop solve_singular start goal move_time control_time 256 0 self

/-- `TaskTrajectory::getPosition`: the object after the call; the value
returned is its `position_`. -/
def TaskTrajectory.getPosition (self : TaskTrajectory) (tick : ℚ) : Outcome TaskTrajectory :=
  match evaluate_loop position_result self.coefficient_ self.num_of_axis_ tick 256 0 [] with
  | Outcome.returned out => Outcome.returned { self with position_ := out }
  | Outcome.out_of_range _ => Outcome.out_of_range self
  | Outcome.index_assert => Outcome.index_assert
  | Outcome.diverged => Outcome.diverged

/-- `TaskTrajectory::getVelocity`: the object after the call; the value
returned is its `velocity_`. -/
def TaskTrajectory.getVelocity (self : TaskTrajectory) (tick : ℚ) : Outcome TaskTrajectory :=
  match evaluate_loop velocity_result self.coefficient_ self.num_of_axis_ tick 256 0 [] with
  | Outcome.returned out => Outcome.returned { self with velocity_ := out }
  | Outcome.out_of_range _ => Outcome.out_of_range self
  | Outcome.index_assert => Outcome.index_assert
  | Outcome.diverged => Outcome.diverged

/-- `TaskTrajectory::getAcceleration`: the object after the call; the value
returned is its `acceleration_`. -/
def TaskTrajectory.getAcceleration (self : TaskTrajectory) (tick : ℚ) : Outcome TaskTrajectory :=
  match evaluate_loop acceleration_result self.coefficient_ self.num_of_axis_ tick 256 0 [] with
  | Outcome.returned out => Outcome.returned { self with acceleration_ := out }
  | Outcome.out_of_range _ => Outcome.out_of_range self
  | Outcome.index_assert => Outcome.index_assert
  | Outcome.diverged => Outcome.diverged

/-- `TaskTrajectory::getCoefficient`. -/
def TaskTrajectory.getCoefficient (self : TaskTrajectory) : List Vector6f := self.coefficient_

/-- The `JointTrajectory` with the same members as a `TaskTrajectory`
(`num_of_axis_` in the place of `joint_num_`). -/
def TaskTrajectory.toJoint (self : TaskTrajectory) : JointTrajectory :=
  { trajectory_generator_ := self.trajectory_generator_
    joint_num_ := self.num_of_axis_
    coefficient_ := self.coefficient_
    position_ := self.position_
    velocity_ := self.velocity_
    acceleration_ := self.acceleration_ }

/-- The class invariant of `TaskTrajectory` set up by its constructor: three
axes and a coefficient matrix of three columns. -/
def TaskTrajectory.well_formed (self : TaskTrajectory) : Prop :=
  self.coefficient_.length = 3 ∧ self.num_of_axis_ = 3

/-- The position of the rest-to-rest motion from `p0` to `p1` at the time
`tick`: the expression of `getPosition` on the coefficients `calcCoefficient`
produces for `start = (p0, 0, 0)` and `goal = (p1, 0, 0)`. -/
def rest_to_rest_position (solve_singular : SingularSolve) (p0 p1 move_time control_time : ℚ)
    (tick : ℚ) : ℚ :=
  position_result (isolated_solve solve_singular ⟨p0, 0, 0⟩ ⟨p1, 0, 0⟩ move_time control_time) tick

/-! ## The same code in machine arithmetic

The definitions above read every scalar operation as exact.  The definitions
below follow the types of the source: the scalars of the interface are
`double`, the coefficient vector and the matrices are single precision, and
every operation rounds its result (one operation at a time, no fused
multiply-add).  Values are finite: infinities and NaN are outside the model. -/

/-- What the source takes from the platform and the libraries, left
unspecified: `pow` of the C library on a `double` and an integer exponent, the
single-precision `ColPivHouseholderQR<Matrix3f>(A).solve(b)` of Eigen, and the
value a conversion of an out-of-range `double` to `uint16_t` leaves (the
language does not define it). -/
structure Platform where
  pow : ℚ → ℕ → ℚ
  solve : Matrix3f → Vector3f → Vector3f
  uint16_out_of_range : ℚ → ℤ

/-- A platform for the examples: correctly rounded `pow`, a solve that returns
zero, and an out-of-range conversion that returns zero. -/
def example_platform : Platform :=
  { pow := fun x k => to_double (x ^ k)
    solve := fun _ _ => Vector3f.Zero
    uint16_out_of_range := fun _ => 0 }

/-- The local `uint16_t step_time = uint16_t(floor(move_time / control_time) + 1.0)`
of `calcCoefficient` in machine arithmetic: the quotient and the sum are
rounded to `double`; the conversion keeps a value of the range of `uint16_t`
and otherwise leaves some 16-bit value. -/
def step_time_double (P : Platform) (move_time control_time : ℚ) : ℤ :=
  if 0 ≤ to_double ((⌊to_double (move_time / control_time)⌋ : ℚ) + 1) ∧
      to_double ((⌊to_double (move_time / control_time)⌋ : ℚ) + 1) < 65536 then
    ⌊to_double ((⌊to_double (move_time / control_time)⌋ : ℚ) + 1)⌋
  else
    P.uint16_out_of_range (to_double ((⌊to_double (move_time / control_time)⌋ : ℚ) + 1)) % 65536

/-- The reassigned `move_time = double(step_time - 1) * control_time` of
`calcCoefficient` in machine arithmetic (`step_time - 1` is computed in `int`,
its conversion to `double` is exact, the product is rounded). -/
def quantized_move_time_double (P : Platform) (move_time control_time : ℚ) : ℚ :=
  to_double (((step_time_double P move_time control_time - 1 : ℤ) : ℚ) * control_time)

/-- The matrix `A` filled in by `calcCoefficient` for the time `T`, in machine
arithmetic: each entry is computed in `double` and converted to `float`. -/
def calcCoefficient_A_float (P : Platform) (T : ℚ) : Matrix3f :=
  ⟨⟨to_float (P.pow T 3), to_float (P.pow T 4), to_float (P.pow T 5)⟩,
   ⟨to_float (to_double (3 * P.pow T 2)), to_float (to_double (4 * P.pow T 3)),
    to_float (to_double (5 * P.pow T 4))⟩,
   ⟨to_float (to_double (6 * P.pow T 1)), to_float (to_double (12 * P.pow T 2)),
    to_float (to_double (20 * P.pow T 3))⟩⟩

/-- The right-hand side `b` filled in by `calcCoefficient` for the time `T`, in
machine arithmetic: each entry is computed in `double`, operation by
operation, and converted to `float`. -/
def calcCoefficient_b_float (P : Platform) (start goal : Trajectory) (T : ℚ) : Vector3f :=
  ⟨to_float (to_double (to_double (goal.position - start.position)
      - to_double (to_double (start.velocity * T)
          + to_double (to_double (0.5 * start.acceleration) * P.pow T 2)))),
   to_float (to_double (to_double (goal.velocity - start.velocity)
      - to_double (start.acceleration * T))),
   to_float (to_double (goal.acceleration - start.acceleration))⟩

/-- `MinimumJerk::calcCoefficient` in machine arithmetic: the six entries of
the single-precision `coefficient_` after the call. -/
def MinimumJerk.calcCoefficient_float (P : Platform) (self : MinimumJerk)
    (start goal : Trajectory) (move_time control_time : ℚ) : MinimumJerk :=
  let move_time := quantized_move_time_double P move_time control_time
  let A := calcCoefficient_A_float P move_time
  let c := self.coefficient_
  let c := { c with c0 := to_float start.position }
  let c := { c with c1 := to_float start.velocity }
  let c := { c with c2 := to_float (to_double (0.5 * start.acceleration)) }
  let b := calcCoefficient_b_float P start goal move_time
  let x := P.solve A b
  let c := { c with c3 := x.x }
  let c := { c with c4 := x.y }
  let c := { c with c5 := x.z }
  { self with coefficient_ := c }

end RM_TRAJECTORY

namespace ROBOTIS_MANIPULATOR

open Eigen

/-! ## Machine integers and the ordered map -/

/-- Conversion of an integer to `int8_t` (two's complement, 8 bits). -/
def wrap8 (x : ℤ) : ℤ := (x + 128) % 256 - 128

section map

variable {Name : Type} [LinearOrder Name] {V : Type}

/-- `std::map::find` on a map kept as the list of its entries in key order:
the value stored under `name`, if any. -/
def map_find : List (Name × V) → Name → Option V
  | [], _ => none
  | (k, v) :: rest, name => if k = name then some v else map_find rest name

/-- Placement of a new entry at its position in key order. -/
def map_place : List (Name × V) → Name → V → List (Name × V)
  | [], name, v => [(name, v)]
  | (k, w) :: rest, name, v =>
    if name < k then (name, v) :: (k, w) :: rest
    else (k, w) :: map_place rest name v

/-- `std::map::insert(std::make_pair(name, v))`: when the key is already
present the map is left as it is (the stored value is kept); otherwise the new
entry is placed at its position in key order. -/
def map_insert (m : List (Name × V)) (name : Name) (v : V) : List (Name × V) :=
  if (map_find m name).isSome then m else map_place m name v

/-- An assignment through the reference `m.at(name)`, for a key that is
present: the stored value `w` becomes `f w`. -/
def map_modify : List (Name × V) → Name → (V → V) → List (Name × V)
  | [], _, _ => []
  | (k, w) :: rest, name, f =>
    if k = name then (k, f w) :: rest else (k, w) :: map_modify rest name f

end map

/-! ## The data model -/

/-- Modelled from the spec: `Pose`, a position and an orientation matrix. -/
structure Pose where
  position : Vector3f
  orientation : Matrix3f
  deriving DecidableEq, Repr

/-- Modelled from the spec: `State`, a velocity and an acceleration, both
dynamically sized `VectorXf` (lists of scalars). -/
structure State where
  velocity : List ℚ
  acceleration : List ℚ
  deriving DecidableEq, Repr

/-- Modelled from the spec: `Joint`; `id` is an `int8_t`, `-1` meaning no actuator. -/
structure Joint where
  id : ℤ
  coefficient : ℚ
  axis : Vector3f
  angle : ℚ
  velocity : ℚ
  acceleration : ℚ
  deriving DecidableEq, Repr

/-- Modelled from the spec: `Tool`; `id` is an `int8_t`, `-1` meaning no tool. -/
structure Tool where
  id : ℤ
  coefficient : ℚ
  on_off : Bool
  value : ℚ
  deriving DecidableEq, Repr

/-- Modelled from the spec: `Inertia`. -/
structure Inertia where
  mass : ℚ
  inertia_tensor : Matrix3f
  center_of_mass : Vector3f
  deriving DecidableEq, Repr

/-- Modelled from the spec: `Component`, one node of the kinematic tree.  The
key type `Name` is a parameter of the development. -/
structure Component (Name : Type) where
  parent : Name
  child : List Name
  relative_to_parent : Pose
  pose_to_world : Pose
  origin : State
  joint : Joint
  tool : Tool
  inertia : Inertia
  deriving DecidableEq, Repr

/-- Modelled from the spec: `World`. -/
structure World (Name : Type) where
  name : Name
  child : Name
  pose : Pose
  origin : State
  deriving DecidableEq, Repr

/-- Modelled from the spec: the data members of class `Manipulator`: the
`int8_t` counter `dof_`, the world record and the map of components (the list
of its entries in key order). -/
structure Manipulator (Name : Type) where
  dof_ : ℤ
  world_ : World Name
  component_ : List (Name × Component Name)
  deriving DecidableEq, Repr

/-- `VectorXf::Zero(3)`. -/
def VectorXf_Zero3 : List ℚ := [0, 0, 0]

/-! ## Manipulator: construction -/

section manipulator

variable {Name : Type} [LinearOrder Name]

/-- Modelled from the spec: the constructor of `Manipulator` (in the header):
a fresh Manipulator has `dof_ = 0` and no components.  The world record is not
initialised by the constructor; `world` stands for its unspecified contents. -/
def Manipulator.new (world : World Name) : Manipulator Name :=
  { dof_ := 0, world_ := world, component_ := [] }

/-- `Manipulator::addWorld`. -/
def Manipulator.addWorld (self : Manipulator Name) (world_name child_name : Name)
    (world_position : Vector3f) (world_orientation : Matrix3f) : Manipulator Name :=
  { self with
    world_ :=
      { name := world_name
        child := child_name
        pose := { position := world_position, orientation := world_orientation }
        origin := { velocity := VectorXf_Zero3, acceleration := VectorXf_Zero3 } } }

/-- `Manipulator::addComponent`. -/
def Manipulator.addComponent (self : Manipulator Name) (my_name parent_name child_name : Name)
    (relative_position : Vector3f) (relative_orientation : Matrix3f) (axis_of_rotation : Vector3f)
    (joint_actuator_id : ℤ) (coefficient mass : ℚ) (inertia_tensor : Matrix3f)
    (center_of_mass : Vector3f) : Manipulator Name :=
  let self := if joint_actuator_id ≠ -1 then { self with dof_ := wrap8 (self.dof_ + 1) } else self
  let temp_component : Component Name :=
    { parent := parent_name
      child := [child_name]
      relative_to_parent := { position := relative_position, orientation := relative_orientation }
      pose_to_world := { position := Vector3f.Zero, orientation := Matrix3f.Identity }
      origin := { velocity := VectorXf_Zero3, acceleration := VectorXf_Zero3 }
      joint :=
        { id := joint_actuator_id, coefficient := coefficient, axis := axis_of_rotation
          angle := 0, velocity := 0, acceleration := 0 }
      tool := { id := -1, coefficient := 0, on_off := false, value := 0 }
      inertia :=
        { mass := mass, inertia_tensor := inertia_tensor, center_of_mass := center_of_mass } }
  { self with component_ := map_insert self.component_ my_name temp_component }

/-- `Manipulator::addComponentChild`. -/
def Manipulator.addComponentChild (self : Manipulator Name) (my_name child_name : Name) :
    Outcome (Manipulator Name) :=
  match map_find self.component_ my_name with
  | none => Outcome.out_of_range self
  | some _ =>
    Outcome.returned { self with
      component_ := map_modify self.component_ my_name
        (fun c => { c with child := c.child ++ [child_name] }) }

/-- `Manipulator::addTool`. -/
def Manipulator.addTool (self : Manipulator Name) (my_name parent_name : Name)
    (relative_position : Vector3f) (relative_orientation : Matrix3f) (tool_id : ℤ)
    (coefficient mass : ℚ) (inertia_tensor : Matrix3f) (center_of_mass : Vector3f) :
    Manipulator Name :=
  let temp_component : Component Name :=
    { parent := parent_name
      child := []
      relative_to_parent := { position := relative_position, orientation := relative_orientation }
      pose_to_world := { position := Vector3f.Zero, orientation := Matrix3f.Identity }
      origin := { velocity := VectorXf_Zero3, acceleration := VectorXf_Zero3 }
      joint :=
        { id := -1, coefficient := 0, axis := Vector3f.Zero
          angle := 0, velocity := 0, acceleration := 0 }
      tool := { id := tool_id, coefficient := coefficient, on_off := false, value := 0 }
      inertia :=
        { mass := mass, inertia_tensor := inertia_tensor, center_of_mass := center_of_mass } }
  { self with component_ := map_insert self.component_ my_name temp_component }

/-- `Manipulator::checkManipulatorSetting` (empty body). -/
def Manipulator.checkManipulatorSetting (self : Manipulator Name) : Manipulator Name := self

/-! ## Manipulator: setters -/

/-- `Manipulator::setWorldPose`. -/
def Manipulator.setWorldPose (self : Manipulator Name) (world_pose : Pose) : Manipulator Name :=
  { self with world_ := { self.world_ with pose := world_pose } }

/-- `Manipulator::setWorldPosition`. -/
def Manipulator.setWorldPosition (self : Manipulator Name) (world_position : Vector3f) :
    Manipulator Name :=
  { self with
    world_ := { self.world_ with pose := { self.world_.pose with position := world_position } } }

/-- `Manipulator::setWorldOrientation`. -/
def Manipulator.setWorldOrientation (self : Manipulator Name) (world_orientation : Matrix3f) :
    Manipulator Name :=
  { self with
    world_ :=
      { self.world_ with pose := { self.world_.pose with orientation := world_orientation } } }

/-- `Manipulator::setWorldState`. -/
def Manipulator.setWorldState (self : Manipulator Name) (world_state : State) : Manipulator Name :=
  { self with world_ := { self.world_ with origin := world_state } }

/-- `Manipulator::setWorldVelocity`. -/
def Manipulator.setWorldVelocity (self : Manipulator Name) (world_velocity : List ℚ) :
    Manipulator Name :=
  { self with
    world_ :=
      { self.world_ with origin := { self.world_.origin with velocity := world_velocity } } }

/-- `Manipulator::setWorldAcceleration`. -/
def Manipulator.setWorldAcceleration (self : Manipulator Name) (world_acceleration : List ℚ) :
    Manipulator Name :=
  { self with
    world_ :=
      { self.world_ with
        origin := { self.world_.origin with acceleration := world_acceleration } } }

/-- `Manipulator::setComponent`: the object after the call and the value
written to `*error`. -/
def Manipulator.setComponent (self : Manipulator Name) (name : Name) (component : Component Name) :
    Manipulator Name × Bool :=
  if (map_find self.component_ name).isSome then
    ({ self with component_ := map_insert self.component_ name component }, false)
  else
    (self, true)

/-- `Manipulator::setComponentPoseToWorld`. -/
def Manipulator.setComponentPoseToWorld (self : Manipulator Name) (name : Name)
    (pose_to_world : Pose) : Manipulator Name :=
  if (map_find self.component_ name).isSome then
    { self with
      component_ := map_modify self.component_ name
          (fun c => { c with pose_to_world := pose_to_world }) }
  else
    self

/-- `Manipulator::setComponentPositionToWorld`. -/
def Manipulator.setComponentPositionToWorld (self : Manipulator Name) (name : Name)
    (position_to_world : Vector3f) : Manipulator Name :=
  if (map_find self.component_ name).isSome then
    { self with
      component_ := map_modify self.component_ name
        (fun c =>
          { c with pose_to_world := { c.pose_to_world with position := position_to_world } }) }
  else
    self

/-- `Manipulator::setComponentOrientationToWorld`. -/
def Manipulator.setComponentOrientationToWorld (self : Manipulator Name) (name : Name)
    (orientation_to_wolrd : Matrix3f) : Manipulator Name :=
  if (map_find self.component_ name).isSome then
    { self with
      component_ := map_modify self.component_ name
        (fun c =>
          { c with
            pose_to_world := { c.pose_to_world with orientation := orientation_to_wolrd } }) }
  else
    self

/-- `Manipulator::setComponentStateToWorld`. -/
def Manipulator.setComponentStateToWorld (self : Manipulator Name) (name : Name)
    (state_to_world : State) : Manipulator Name :=
  if (map_find self.component_ name).isSome then
    { self with
      component_ := map_modify self.component_ name (fun c => { c with origin := state_to_world }) }
  else
    self

/-- `Manipulator::setComponentVelocityToWorld`. -/
def Manipulator.setComponentVelocityToWorld (self : Manipulator Name) (name : Name)
    (velocity : List ℚ) : Manipulator Name :=
  if velocity.length ≠ 6 then
    self
  else if (map_find self.component_ name).isSome then
    { self with
      component_ := map_modify self.component_ name
        (fun c => { c with origin := { c.origin with velocity := velocity } }) }
  else
    self

/-- `Manipulator::setComponentAccelerationToWorld`. -/
def Manipulator.setComponentAccelerationToWorld (self : Manipulator Name) (name : Name)
    (acceleration : List ℚ) : Manipulator Name :=
  if acceleration.length ≠ 6 then
    self
  else if (map_find self.component_ name).isSome then
    { self with
      component_ := map_modify self.component_ name
        (fun c => { c with origin := { c.origin with acceleration := acceleration } }) }
  else
    self

/-- `Manipulator::setComponentJointAngle`. -/
def Manipulator.setComponentJointAngle (self : Manipulator Name) (name : Name) (angle : ℚ) :
    Outcome (Manipulator Name) :=
  match map_find self.component_ name with
  | none => Outcome.out_of_range self
  | some c =>
    if c.tool.id > 0 then
      Outcome.returned self
    else if (map_find self.component_ name).isSome then
      Outcome.returned { self with
        component_ := map_modify self.component_ name
          (fun c => { c with joint := { c.joint with angle := angle } }) }
    else
      Outcome.returned self

/-- `Manipulator::setComponentJointVelocity`. -/
def Manipulator.setComponentJointVelocity (self : Manipulator Name) (name : Name)
    (angular_velocity : ℚ) : Outcome (Manipulator Name) :=
  match map_find self.component_ name with
  | none => Outcome.out_of_range self
  | some c =>
    if c.tool.id > 0 then
      Outcome.returned self
    else if (map_find self.component_ name).isSome then
      Outcome.returned { self with
        component_ := map_modify self.component_ name
          (fun c => { c with joint := { c.joint with velocity := angular_velocity } }) }
    else
      Outcome.returned self

/-- `Manipulator::setComponentJointAcceleration`. -/
def Manipulator.setComponentJointAcceleration (self : Manipulator Name) (name : Name)
    (angular_acceleration : ℚ) : Outcome (Manipulator Name) :=
  match map_find self.component_ name with
  | none => Outcome.out_of_range self
  | some c =>
    if c.tool.id > 0 then
      Outcome.returned self
    else if (map_find self.component_ name).isSome then
      Outcome.returned { self with
        component_ := map_modify self.component_ name
          (fun c => { c with joint := { c.joint with acceleration := angular_acceleration } }) }
    else
      Outcome.returned self

/-- `Manipulator::setComponentToolOnOff`. -/
def Manipulator.setComponentToolOnOff (self : Manipulator Name) (name : Name) (on_off : Bool) :
    Outcome (Manipulator Name) :=
  match map_find self.component_ name with
  | none => Outcome.out_of_range self
  | some c =>
    if c.tool.id > 0 then
      if (map_find self.component_ name).isSome then
        Outcome.returned { self with
          component_ := map_modify self.component_ name
            (fun c => { c with tool := { c.tool with on_off := on_off } }) }
      else
        Outcome.returned self
    else
      Outcome.returned self

/-- `Manipulator::setComponentToolValue`. -/
def Manipulator.setComponentToolValue (self : Manipulator Name) (name : Name) (value : ℚ) :
    Outcome (Manipulator Name) :=
  match map_find self.component_ name with
  | none => Outcome.out_of_range self
  | some c =>
    if c.tool.id > 0 then
      if (map_find self.component_ name).isSome then
        Outcome.returned { self with
          component_ := map_modify self.component_ name
            (fun c => { c with tool := { c.tool with value := value } }) }
      else
        Outcome.returned self
    else
      Outcome.returned self

/-- The loop of `Manipulator::setAllActiveJointAngle` over the keys still to
visit, with the `int8_t` variable `index`.  `angle_vector.at(index)` converts
`index` to an unsigned size, so a negative `index` is out of range. -/
def Manipulator.setAllActiveJointAngle_loop (angle_vector : List ℚ) :
    List Name → ℤ → Manipulator Name → Outcome (Manipulator Name)
  | [], _, self => Outcome.returned self
  | name :: rest, index, self =>
    match map_find self.component_ name with
    | none => Outcome.out_of_range self
    | some c =>
      if c.joint.id ≠ -1 then
        match (if 0 ≤ index then angle_vector[index.toNat]? else none) with
        | none => Outcome.out_of_range self
        | some angle =>
          Manipulator.setAllActiveJointAngle_loop angle_vector rest (wrap8 (index + 1))
            { self with
              component_ := map_modify self.component_ name
                (fun c => { c with joint := { c.joint with angle := angle } }) }
      else
        Manipulator.setAllActiveJointAngle_loop angle_vector rest index self

/-- `Manipulator::setAllActiveJointAngle`. -/
def Manipulator.setAllActiveJointAngle (self : Manipulator Name) (angle_vector : List ℚ) :
    Outcome (Manipulator Name) :=
  Manipulator.setAllActiveJointAngle_loop angle_vector (self.component_.map Prod.fst) 0 self

/-! ## Manipulator: getters -/

/-- `Manipulator::getDOF` (returns `int8_t`). -/
def Manipulator.getDOF (self : Manipulator Name) : ℤ := wrap8 self.dof_

/-- `Manipulator::getComponentSize` (returns `int8_t`). -/
def Manipulator.getComponentSize (self : Manipulator Name) : ℤ := wrap8 self.component_.length

/-- `Manipulator::getComponent`; `none` is a thrown `std::out_of_range`. -/
def Manipulator.getComponent (self : Manipulator Name) (name : Name) : Option (Component Name) :=
  map_find self.component_ name

/-- `Manipulator::getComponentJointId`; `none` is a thrown `std::out_of_range`. -/
def Manipulator.getComponentJointId (self : Manipulator Name) (name : Name) : Option ℤ :=
  (map_find self.component_ name).map (fun c => c.joint.id)

/-- `Manipulator::getComponentParentName`; `none` is a thrown `std::out_of_range`. -/
def Manipulator.getComponentParentName (self : Manipulator Name) (name : Name) : Option Name :=
  (map_find self.component_ name).map (fun c => c.parent)

/-- `Manipulator::getComponentChildName`; `none` is a thrown `std::out_of_range`. -/
def Manipulator.getComponentChildName (self : Manipulator Name) (name : Name) :
    Option (List Name) :=
  (map_find self.component_ name).map (fun c => c.child)

/-- `Manipulator::getComponentStateToWorld`; `none` is a thrown `std::out_of_range`. -/
def Manipulator.getComponentStateToWorld (self : Manipulator Name) (name : Name) : Option State :=
  (map_find self.component_ name).map (fun c => c.origin)

/-- `Manipulator::getComponentVelocityToWorld`; `none` is a thrown `std::out_of_range`. -/
def Manipulator.getComponentVelocityToWorld (self : Manipulator Name) (name : Name) :
    Option (List ℚ) :=
  (map_find self.component_ name).map (fun c => c.origin.velocity)

/-- `Manipulator::getComponentAccelerationToWorld`; `none` is a thrown
`std::out_of_range`. -/
def Manipulator.getComponentAccelerationToWorld (self : Manipulator Name) (name : Name) :
    Option (List ℚ) :=
  (map_find self.component_ name).map (fun c => c.origin.acceleration)

/-- `Manipulator::getComponentJointAngle`; `none` is a thrown `std::out_of_range`. -/
def Manipulator.getComponentJointAngle (self : Manipulator Name) (name : Name) : Option ℚ :=
  (map_find self.component_ name).map (fun c => c.joint.angle)

/-- `Manipulator::getComponentJointVelocity`; `none` is a thrown `std::out_of_range`. -/
def Manipulator.getComponentJointVelocity (self : Manipulator Name) (name : Name) : Option ℚ :=
  (map_find self.component_ name).map (fun c => c.joint.velocity)

/-- `Manipulator::getComponentJointAcceleration`; `none` is a thrown
`std::out_of_range`. -/
def Manipulator.getComponentJointAcceleration (self : Manipulator Name) (name : Name) :
    Option ℚ :=
  (map_find self.component_ name).map (fun c => c.joint.acceleration)

/-- `Manipulator::getComponentToolId`; `none` is a thrown `std::out_of_range`. -/
def Manipulator.getComponentToolId (self : Manipulator Name) (name : Name) : Option ℤ :=
  (map_find self.component_ name).map (fun c => c.tool.id)

/-- The loop of `Manipulator::getAllActiveJointAngle` over the keys still to
visit, with the vector `result_vector` built so far; `none` is a thrown
`std::out_of_range` (from `component_.at`). -/
def Manipulator.getAllActiveJointAngle_loop (self : Manipulator Name) :
    List Name → List ℚ → Option (List ℚ)
  | [], result_vector => some result_vector
  | name :: rest, result_vector =>
    match map_find self.component_ name with
    | none => none
    | some c =>
      if c.joint.id ≠ -1 then
        Manipulator.getAllActiveJointAngle_loop self rest (result_vector ++ [c.joint.angle])
      else
        Manipulator.getAllActiveJointAngle_loop self rest result_vector

/-- `Manipulator::getAllActiveJointAngle`. -/
def Manipulator.getAllActiveJointAngle (self : Manipulator Name) : Option (List ℚ) :=
  Manipulator.getAllActiveJointAngle_loop self (self.component_.map Prod.fst) []

/-! ## Sequences of calls -/

/-- One call of a state-changing public member function of `Manipulator`,
with its arguments. -/
inductive Call (Name : Type) where
  | addWorld (world_name child_name : Name) (world_position : Vector3f)
      (world_orientation : Matrix3f)
  | addComponent (my_name parent_name child_name : Name) (relative_position : Vector3f)
      (relative_orientation : Matrix3f) (axis_of_rotation : Vector3f) (joint_actuator_id : ℤ)
      (coefficient mass : ℚ) (inertia_tensor : Matrix3f) (center_of_mass : Vector3f)
  | addComponentChild (my_name child_name : Name)
  | addTool (my_name parent_name : Name) (relative_position : Vector3f)
      (relative_orientation : Matrix3f) (tool_id : ℤ) (coefficient mass : ℚ)
      (inertia_tensor : Matrix3f) (center_of_mass : Vector3f)
  | checkManipulatorSetting
  | setWorldPose (world_pose : Pose)
  | setWorldPosition (world_position : Vector3f)
  | setWorldOrientation (world_orientation : Matrix3f)
  | setWorldState (world_state : State)
  | setWorldVelocity (world_velocity : List ℚ)
  | setWorldAcceleration (world_acceleration : List ℚ)
  | setComponent (name : Name) (component : Component Name)
  | setComponentPoseToWorld (name : Name) (pose_to_world : Pose)
  | setComponentPositionToWorld (name : Name) (position_to_world : Vector3f)
  | setComponentOrientationToWorld (name : Name) (orientation_to_wolrd : Matrix3f)
  | setComponentStateToWorld (name : Name) (state_to_world : State)
  | setComponentVelocityToWorld (name : Name) (velocity : List ℚ)
  | setComponentAccelerationToWorld (name : Name) (acceleration : List ℚ)
  | setComponentJointAngle (name : Name) (angle : ℚ)
  | setComponentJointVelocity (name : Name) (angular_velocity : ℚ)
  | setComponentJointAcceleration (name : Name) (angular_acceleration : ℚ)
  | setComponentToolOnOff (name : Name) (on_off : Bool)
  | setComponentToolValue (name : Name) (value : ℚ)
  | setAllActiveJointAngle (angle_vector : List ℚ)

/-- The outcome of one call on `self`. -/
def Manipulator.call (self : Manipulator Name) : Call Name → Outcome (Manipulator Name)
  | Call.addWorld a b c d => Outcome.returned (self.addWorld a b c d)
  | Call.addComponent a b c d e f g h i j k =>
    Outcome.returned (self.addComponent a b c d e f g h i j k)
  | Call.addComponentChild a b => self.addComponentChild a b
  | Call.addTool a b c d e f g h i => Outcome.returned (self.addTool a b c d e f g h i)
  | Call.checkManipulatorSetting => Outcome.returned self.checkManipulatorSetting
  | Call.setWorldPose a => Outcome.returned (self.setWorldPose a)
  | Call.setWorldPosition a => Outcome.returned (self.setWorldPosition a)
  | Call.setWorldOrientation a => Outcome.returned (self.setWorldOrientation a)
  | Call.setWorldState a => Outcome.returned (self.setWorldState a)
  | Call.setWorldVelocity a => Outcome.returned (self.setWorldVelocity a)
  | Call.setWorldAcceleration a => Outcome.returned (self.setWorldAcceleration a)
  | Call.setComponent a b => Outcome.returned (self.setComponent a b).1
  | Call.setComponentPoseToWorld a b => Outcome.returned (self.setComponentPoseToWorld a b)
  | Call.setComponentPositionToWorld a b => Outcome.returned (self.setComponentPositionToWorld a b)
  | Call.setComponentOrientationToWorld a b =>
    Outcome.returned (self.setComponentOrientationToWorld a b)
  | Call.setComponentStateToWorld a b => Outcome.returned (self.setComponentStateToWorld a b)
  | Call.setComponentVelocityToWorld a b => Outcome.returned (self.setComponentVelocityToWorld a b)
  | Call.setComponentAccelerationToWorld a b =>
    Outcome.returned (self.setComponentAccelerationToWorld a b)
  | Call.setComponentJointAngle a b => self.setComponentJointAngle a b
  | Call.setComponentJointVelocity a b => self.setComponentJointVelocity a b
  | Call.setComponentJointAcceleration a b => self.setComponentJointAcceleration a b
  | Call.setComponentToolOnOff a b => self.setComponentToolOnOff a b
  | Call.setComponentToolValue a b => self.setComponentToolValue a b
  | Call.setAllActiveJointAngle a => self.setAllActiveJointAngle a

/-- The object left behind by a call: the object returned, or the object at
the throw when the caller catches the exception (no Manipulator call aborts or
diverges; those outcomes leave `self`). -/
def Manipulator.after (self : Manipulator Name) (c : Call Name) : Manipulator Name :=
  match self.call c with
  | Outcome.returned s => s
  | Outcome.out_of_range s => s
  | Outcome.index_assert => self
  | Outcome.diverged => self

/-- The object reached from `self` by a sequence of calls, in order. -/
def Manipulator.run (self : Manipulator Name) : List (Call Name) → Manipulator Name
  | [] => self
  | c :: rest => (self.after c).run rest

/-- The number of stored components whose joint id is not `-1`. -/
def Manipulator.active_joint_count (self : Manipulator Name) : ℕ :=
  (self.component_.filter (fun p => decide (p.2.joint.id ≠ -1))).length

/-- Two component maps with the same keys in the same order whose components
agree, key by key, on the joint id and on the tool id. -/
def same_ids (m m' : List (Name × Component Name)) : Prop :=
  List.Forall₂
    (fun e e' => e'.1 = e.1 ∧ e'.2.joint.id = e.2.joint.id ∧ e'.2.tool.id = e.2.tool.id) m m'

/-- The calls of a sequence that are `addComponent` with an actuated joint
id (`joint_actuator_id != -1`). -/
def Call.is_actuated_addComponent : Call Name → Bool
  | Call.addComponent _ _ _ _ _ _ joint_actuator_id _ _ _ _ => decide (joint_actuator_id ≠ -1)
  | _ => false

/-- The calls of a sequence that are `addTool`. -/
def Call.is_addTool : Call Name → Bool
  | Call.addTool _ _ _ _ _ _ _ _ _ => true
  | _ => false

/-- The name a construction call inserts under, if it is one. -/
def Call.inserted_name : Call Name → Option Name
  | Call.addComponent my_name _ _ _ _ _ _ _ _ _ _ => some my_name
  | Call.addTool my_name _ _ _ _ _ _ _ _ => some my_name
  | _ => none

/-- No `addComponent` call of the sequence with an actuated joint id is made
under a name that is already a key of the component map when it is made. -/
def Manipulator.no_actuated_reinsertion (self : Manipulator Name) : List (Call Name) → Prop
  | [] => True
  | c :: rest =>
    (c.is_actuated_addComponent = true →
        ∀ name, c.inserted_name = some name → map_find self.component_ name = none) ∧
      (self.after c).no_actuated_reinsertion rest

/-- The invariant of `std::map`: the keys of the entries are strictly
increasing (in particular pairwise distinct). -/
def Manipulator.well_formed (self : Manipulator Name) : Prop :=
  (self.component_.map Prod.fst).Pairwise (fun a b => a < b)

/-- The calls of a sequence that only add a component (`addComponent` or
`addTool`). -/
def Call.is_construction : Call Name → Bool
  | Call.addComponent _ _ _ _ _ _ _ _ _ _ _ => true
  | Call.addTool _ _ _ _ _ _ _ _ _ => true
  | _ => false

/-- The calls named in the state-dimension invariant: `addComponent`, `addTool`
and the three world-frame state setters of a component. -/
def Call.is_state_call : Call Name → Bool
  | Call.addComponent _ _ _ _ _ _ _ _ _ _ _ => true
  | Call.addTool _ _ _ _ _ _ _ _ _ => true
  | Call.setComponentStateToWorld _ _ => true
  | Call.setComponentVelocityToWorld _ _ => true
  | Call.setComponentAccelerationToWorld _ _ => true
  | _ => false

/-- A world record used in the examples (key type `ℕ`). -/
def example_world : World ℕ :=
  { name := 0, child := 0
    pose := { position := Vector3f.Zero, orientation := Matrix3f.Identity }
    origin := { velocity := [], acceleration := [] } }

/-- The call `addComponent(i + 1, i, i + 2, ...)` of a chain of revolute joints
about the z axis, all driven by the actuator with id 1. -/
def chain_joint (i : ℕ) : Call ℕ :=
  Call.addComponent (i + 1) i (i + 2) Vector3f.Zero Matrix3f.Identity ⟨0, 0, 1⟩ 1 1 1
    Matrix3f.Identity Vector3f.Zero

/-- A Manipulator holding one tool, added under the name 1 with tool id 0. -/
def tool_with_id_zero : Manipulator ℕ :=
  (Manipulator.new example_world).addTool 1 0 Vector3f.Zero Matrix3f.Identity 0 1 1
    Matrix3f.Identity Vector3f.Zero

/-- A Manipulator holding one tool, added under the name 1 with tool id 2. -/
def tool_with_id_two : Manipulator ℕ :=
  (Manipulator.new example_world).addTool 1 0 Vector3f.Zero Matrix3f.Identity 2 1 1
    Matrix3f.Identity Vector3f.Zero

/-- The Manipulator built from a fresh one by `n` calls of `addComponent`, the
chain of joints `chain_joint 0`, ..., `chain_joint (n - 1)` under the names 1
to `n`. -/
def joint_chain (n : ℕ) : Manipulator ℕ :=
  (Manipulator.new example_world).run ((List.range n).map chain_joint)

/-- `Manipulator::getComponentToolOnOff`; `none` is a thrown `std::out_of_range`. -/
def Manipulator.getComponentToolOnOff (self : Manipulator Name) (name : Name) : Option Bool :=
  (map_find self.component_ name).map (fun c => c.tool.on_off)

/-- `Manipulator::getComponentToolValue`; `none` is a thrown `std::out_of_range`. -/
def Manipulator.getComponentToolValue (self : Manipulator Name) (name : Name) : Option ℚ :=
  (map_find self.component_ name).map (fun c => c.tool.value)

end manipulator

end ROBOTIS_MANIPULATOR

open Eigen IEEE754 RM_TRAJECTORY ROBOTIS_MANIPULATOR

/-! # Properties of the solver -/

/-- The determinant of the system matrix of `calcCoefficient` is `2 T^9`. -/
theorem calcCoefficient_matrix_det (T : ℚ) : (calcCoefficient_A T).determinant = 2 * T ^ 9 := by
  simp only [calcCoefficient_A, Matrix3f.determinant]
  ring

/-- For `T = 0` the system matrix of `calcCoefficient` is the zero matrix. -/
theorem calcCoefficient_matrix_zero : calcCoefficient_A 0 = Matrix3f.Zero := by
  simp [calcCoefficient_A, Matrix3f.Zero, Vector3f.Zero]

/-- On an invertible matrix the modelled `solve` returns a solution of `A x = b`. -/
theorem ColPivHouseholderQR_solve_mulVec (solve_singular : SingularSolve)
    (A : Matrix3f) (b : Vector3f) (hA : A.determinant ≠ 0) :
    A.mulVec (ColPivHouseholderQR_solve solve_singular A b) = b := by
  obtain ⟨⟨a00, a01, a02⟩, ⟨a10, a11, a12⟩, ⟨a20, a21, a22⟩⟩ := A
  obtain ⟨b0, b1, b2⟩ := b
  simp only [Matrix3f.determinant] at hA
  simp only [ColPivHouseholderQR_solve, Matrix3f.determinant, if_neg hA, Matrix3f.mulVec,
    Vector3f.dot, Vector3f.mk.injEq]
  refine ⟨?_, ?_, ?_⟩ <;> field_simp <;> ring

/-- On an invertible matrix the solution of `A x = b` is unique, so the modelled
`solve` returns the only one. -/
theorem ColPivHouseholderQR_solve_unique (solve_singular : SingularSolve)
    (A : Matrix3f) (b x : Vector3f) (hA : A.determinant ≠ 0) (hx : A.mulVec x = b) :
    x = ColPivHouseholderQR_solve solve_singular A b := by
  obtain ⟨⟨a00, a01, a02⟩, ⟨a10, a11, a12⟩, ⟨a20, a21, a22⟩⟩ := A
  obtain ⟨x0, x1, x2⟩ := x
  subst hx
  simp only [Matrix3f.determinant] at hA
  simp only [ColPivHouseholderQR_solve, Matrix3f.determinant, if_neg hA, Matrix3f.mulVec,
    Vector3f.dot, Vector3f.mk.injEq]
  refine ⟨?_, ?_, ?_⟩ <;> field_simp <;> ring

/-- Within the 16-bit range the tick count is `floor(move_time / control_time) + 1`. -/
theorem step_time_eq (move_time control_time : ℚ) (hmove : 0 < move_time)
    (hcontrol : 0 < control_time) (hfit : ⌊move_time / control_time⌋ < 65535) :
    step_time move_time control_time = ⌊move_time / control_time⌋ + 1 := by
  have hfloor : 0 ≤ ⌊move_time / control_time⌋ := Int.floor_nonneg.mpr (div_pos hmove hcontrol).le
  rw [step_time]
  exact Int.emod_eq_of_lt (by omega) (by omega)

/-- The quantized time is not zero when the duration is at least one control
period and the tick count fits 16 bits. -/
theorem quantized_move_time_ne_zero (move_time control_time : ℚ) (hcontrol : 0 < control_time)
    (hmove : control_time ≤ move_time) (hfit : ⌊move_time / control_time⌋ < 65535) :
    quantized_move_time move_time control_time ≠ 0 := by
  have hone : 1 ≤ ⌊move_time / control_time⌋ := by
    rw [Int.le_floor]
    rw [le_div_iff₀ hcontrol]
    simpa using hmove
  rw [quantized_move_time, step_time_eq move_time control_time (lt_of_lt_of_le hcontrol hmove)
    hcontrol hfit]
  have hq : (0 : ℚ) < ((⌊move_time / control_time⌋ + 1 - 1 : ℤ) : ℚ) := by
    have : (0 : ℤ) < ⌊move_time / control_time⌋ + 1 - 1 := by omega
    exact_mod_cast this
  exact (mul_pos hq hcontrol).ne'

/-- The result of `calcCoefficient` does not depend on the solver object it is
run on: all six entries are assigned. -/
theorem calcCoefficient_fresh (solve_singular : SingularSolve)
    (self : MinimumJerk) (start goal : Trajectory)
    (move_time control_time : ℚ) :
    self.calcCoefficient solve_singular start goal move_time control_time
      = MinimumJerk.new.calcCoefficient solve_singular start goal move_time control_time := by
  simp [MinimumJerk.calcCoefficient]

/-- The coefficients written by `calcCoefficient`, in terms of the quantized
time `T` and the solution of the linear system. -/
theorem calcCoefficient_coefficient (solve_singular : SingularSolve)
    (self : MinimumJerk) (start goal : Trajectory)
    (move_time control_time : ℚ) :
    (self.calcCoefficient solve_singular start goal move_time control_time).getCoefficient
      = ⟨start.position, start.velocity, 0.5 * start.acceleration,
          (ColPivHouseholderQR_solve solve_singular
            (calcCoefficient_A (quantized_move_time move_time control_time))
            (calcCoefficient_b start goal (quantized_move_time move_time control_time))).x,
          (ColPivHouseholderQR_solve solve_singular
            (calcCoefficient_A (quantized_move_time move_time control_time))
            (calcCoefficient_b start goal (quantized_move_time move_time control_time))).y,
          (ColPivHouseholderQR_solve solve_singular
            (calcCoefficient_A (quantized_move_time move_time control_time))
            (calcCoefficient_b start goal (quantized_move_time move_time control_time))).z⟩ := by
  simp [MinimumJerk.calcCoefficient, MinimumJerk.getCoefficient]

/-- Terminal boundary for one solve: when the quantized time is not zero the
solved quintic and its two derivatives take the goal values there. -/
theorem calcCoefficient_terminal (solve_singular : SingularSolve)
    (self : MinimumJerk) (start goal : Trajectory)
    (move_time control_time : ℚ) (hT : quantized_move_time move_time control_time ≠ 0) :
    position_result (self.calcCoefficient solve_singular start goal move_time
        control_time).getCoefficient
        (quantized_move_time move_time control_time) = goal.position ∧
    velocity_result (self.calcCoefficient solve_singular start goal move_time
        control_time).getCoefficient
        (quantized_move_time move_time control_time) = goal.velocity ∧
    acceleration_result (self.calcCoefficient solve_singular start goal move_time
        control_time).getCoefficient
        (quantized_move_time move_time control_time) = goal.acceleration := by
  have hdet : (calcCoefficient_A (quantized_move_time move_time control_time)).determinant ≠ 0 := by
    rw [calcCoefficient_matrix_det]
    exact mul_ne_zero (by norm_num) (pow_ne_zero _ hT)
  have h := ColPivHouseholderQR_solve_mulVec solve_singular _
    (calcCoefficient_b start goal (quantized_move_time move_time control_time)) hdet
  rw [calcCoefficient_coefficient]
  generalize quantized_move_time move_time control_time = T at h hT hdet ⊢
  generalize ColPivHouseholderQR_solve solve_singular (calcCoefficient_A T)
      (calcCoefficient_b start goal T) = x at h
  obtain ⟨x0, x1, x2⟩ := x
  simp only [calcCoefficient_A, calcCoefficient_b, Matrix3f.mulVec, Vector3f.dot,
    Vector3f.mk.injEq] at h
  obtain ⟨h0, h1, h2⟩ := h
  simp only [position_result, velocity_result, acceleration_result]
  refine ⟨?_, ?_, ?_⟩
  · linear_combination h0
  · linear_combination h1
  · linear_combination h2

/-- Start boundary for one solve. -/
theorem calcCoefficient_start (solve_singular : SingularSolve)
    (self : MinimumJerk) (start goal : Trajectory)
    (move_time control_time : ℚ) :
    position_result (self.calcCoefficient solve_singular start goal move_time
        control_time).getCoefficient 0
        = start.position ∧
    velocity_result (self.calcCoefficient solve_singular start goal move_time
        control_time).getCoefficient 0
        = start.velocity ∧
    acceleration_result (self.calcCoefficient solve_singular start goal move_time
        control_time).getCoefficient 0
        = start.acceleration := by
  rw [calcCoefficient_coefficient]
  simp only [position_result, velocity_result, acceleration_result]
  refine ⟨by norm_num, by norm_num, ?_⟩
  norm_num
  ring

/-! # Properties of the loops -/

/-- An evaluation loop over `n` columns that are all present returns the
results for columns `index, ..., n - 1` appended to the output vector. -/
theorem evaluate_loop_returned (result : Vector6f → ℚ → ℚ) (coefficient : List Vector6f)
    (n : ℕ) (tick : ℚ) (hn : n ≤ coefficient.length) (hn256 : n < 256) :
    ∀ (fuel index : ℕ) (out : List ℚ), index ≤ n → n - index < fuel →
      evaluate_loop result coefficient n tick fuel index out
        = Outcome.returned (out ++ ((coefficient.take n).drop index).map
            (fun c => result c tick)) := by
  intro fuel
  induction fuel with
  | zero => intro index out _ h; omega
  | succ fuel ih =>
    intro index out hle hfuel
    rw [evaluate_loop]
    by_cases h : index < n
    · have hlt : index < coefficient.length := by omega
      have hmod : (index + 1) % 256 = index + 1 := Nat.mod_eq_of_lt (by omega)
      have htake : index < (coefficient.take n).length := by
        rw [List.length_take]; omega
      rw [if_pos h, List.getElem?_eq_getElem hlt]
      simp only []
      rw [hmod, ih (index + 1) _ (by omega) (by omega), List.drop_eq_getElem_cons htake]
      simp [List.getElem_take]
    · have : index = n := by omega
      subst this
      rw [if_neg h]
      have : List.drop index (List.take index coefficient) = [] := by
        apply List.drop_eq_nil_of_le
        rw [List.length_take]; omega
      simp [this]

/-- The three evaluators of a well-formed `JointTrajectory` return normally,
with one result per column. -/
theorem JointTrajectory.getPosition_returned (self : JointTrajectory) (hwf : self.well_formed)
    (tick : ℚ) :
    self.getPosition tick = Outcome.returned
        { self with position_ := self.coefficient_.map (fun c => position_result c tick) } ∧
    self.getVelocity tick = Outcome.returned
        { self with velocity_ := self.coefficient_.map (fun c => velocity_result c tick) } ∧
    self.getAcceleration tick = Outcome.returned
        { self with
          acceleration_ := self.coefficient_.map (fun c => acceleration_result c tick) } := by
  obtain ⟨hlen, h256⟩ := hwf
  have key : ∀ result : Vector6f → ℚ → ℚ,
      evaluate_loop result self.coefficient_ self.joint_num_ tick 256 0 []
        = Outcome.returned (self.coefficient_.map (fun c => result c tick)) := by
    intro result
    rw [evaluate_loop_returned result self.coefficient_ self.joint_num_ tick (by omega) h256
      256 0 [] (by omega) (by omega)]
    simp [← hlen]
  simp [JointTrajectory.getPosition, JointTrajectory.getVelocity,
    JointTrajectory.getAcceleration, key]

/-- What the loop of `JointTrajectory::init` does from the value `index` of its
loop variable, for any sizes of `start`, `goal` and the coefficient matrix:
with `k` the least of the three sizes, the columns `index ≤ i < k` receive the
coefficients of the solve on `(start[i], goal[i])` run on a fresh solver, no
other column changes, and control leaves the loop at index `k`: by a normal
return when `start` is exhausted, by `std::out_of_range` when `goal` is, by an
index assertion when the matrix has no column `k`. -/
theorem JointTrajectory.init_loop_spec (solve_singular : SingularSolve)
    (start goal : List Trajectory)
    (move_time control_time : ℚ) (k : ℕ) (hk256 : k < 256) :
    ∀ (fuel index : ℕ) (self : JointTrajectory),
      k = min start.length (min goal.length self.coefficient_.length) →
      index ≤ k → k - index < fuel →
      ∃ self' : JointTrajectory,
        self'.joint_num_ = self.joint_num_ ∧
        self'.coefficient_.length = self.coefficient_.length ∧
        self'.position_ = self.position_ ∧
        self'.velocity_ = self.velocity_ ∧
        self'.acceleration_ = self.acceleration_ ∧
        (∀ i s g, index ≤ i → i < k → start[i]? = some s → goal[i]? = some g →
          self'.coefficient_[i]?
            = some (isolated_solve solve_singular s g move_time control_time)) ∧
        (∀ i, i < index ∨ k ≤ i → self'.coefficient_[i]? = self.coefficient_[i]?) ∧
        JointTrajectory.init_loop solve_singular start goal move_time control_time fuel index self =
          if start.length ≤ k then Outcome.returned self'
          else if goal.length ≤ k then Outcome.out_of_range self'
          else Outcome.index_assert := by
  intro fuel
  induction fuel with
  | zero => intro index self _ _ h; omega
  | succ fuel ih =>
    intro index self hk hle hfuel
    rw [JointTrajectory.init_loop]
    by_cases h : index < k
    · have hs : index < start.length := by omega
      have hg : index < goal.length := by omega
      have hc : index < self.coefficient_.length := by omega
      have hmod : (index + 1) % 256 = index + 1 := Nat.mod_eq_of_lt (by omega)
      rw [if_pos hs, List.getElem?_eq_getElem hs, List.getElem?_eq_getElem hg]
      simp only [if_pos hc, hmod]
      obtain ⟨self', h1, h2, h3, h4, h5, h6, h7, h8⟩ := ih (index + 1)
        { self with
          trajectory_generator_ :=
            self.trajectory_generator_.calcCoefficient solve_singular start[index] goal[index]
                move_time control_time
          coefficient_ := self.coefficient_.set index
            (self.trajectory_generator_.calcCoefficient solve_singular start[index] goal[index]
              move_time control_time).getCoefficient }
        (by simpa using hk) (by omega) (by omega)
      refine ⟨self', h1, by simpa using h2, h3, h4, h5, ?_, ?_, h8⟩
      · intro i s g hi hik his hig
        by_cases hii : i = index
        · subst hii
          rw [h7 i (Or.inl (by omega))]
          rw [List.getElem?_eq_getElem hs] at his
          rw [List.getElem?_eq_getElem hg] at hig
          simp only [Option.some.injEq] at his hig
          subst his hig
          simp [List.getElem?_set, hc, isolated_solve,
            calcCoefficient_fresh solve_singular self.trajectory_generator_]
        · exact h6 i s g (by omega) hik his hig
      · intro i hi
        have hne : index ≠ i := by omega
        rw [h7 i (by omega)]
        simp [List.getElem?_set, hne]
    · have hik : index = k := by omega
      subst hik
      refine ⟨self, rfl, rfl, rfl, rfl, rfl, ?_, ?_, ?_⟩
      · intro i s g hi hik; omega
      · intro i _; rfl
      · by_cases hs : start.length ≤ index
        · rw [if_neg (by omega), if_pos hs]
        · rw [if_pos (by omega), if_neg hs]
          by_cases hg : goal.length ≤ index
          · rw [if_pos hg, List.getElem?_eq_getElem (by omega), List.getElem?_eq_none hg]
          · have hc : ¬ index < self.coefficient_.length := by omega
            rw [if_neg hg, List.getElem?_eq_getElem (by omega),
              List.getElem?_eq_getElem (by omega)]
            simp only [if_neg hc]

/-- The constructor establishes the class invariant. -/
theorem JointTrajectory.new_well_formed (joint_num : ℕ) :
    (JointTrajectory.new joint_num).well_formed := by
  refine ⟨?_, Nat.mod_lt _ (by norm_num)⟩
  simp [JointTrajectory.new, MatrixXf_Identity6]

/-- On a well-formed object `init` returns normally whenever `start` is no
longer than `goal` and than the DOF count; it keeps the invariant, leaves in
every column `i < start.size()` the coefficients of the solve on that column's
boundary points run on a fresh solver, and leaves the other columns as they
were. -/
theorem JointTrajectory.init_returned_of_le (solve_singular : SingularSolve)
    (self : JointTrajectory) (hwf : self.well_formed)
    (start goal : List Trajectory) (hs : start.length ≤ goal.length)
    (hn : start.length ≤ self.joint_num_) (move_time control_time : ℚ) :
    ∃ self' : JointTrajectory,
      self.init solve_singular start goal move_time control_time = Outcome.returned self' ∧
      self'.well_formed ∧ self'.joint_num_ = self.joint_num_ ∧
      (∀ (i : ℕ) (s g : Trajectory), start[i]? = some s → goal[i]? = some g →
        self'.coefficient_[i]?
          = some (isolated_solve solve_singular s g move_time control_time)) ∧
      ∀ i : ℕ, start.length ≤ i → self'.coefficient_[i]? = self.coefficient_[i]? := by
  obtain ⟨hlen, h256⟩ := hwf
  obtain ⟨self', h1, h2, -, -, -, h6, h7, h8⟩ :=
    JointTrajectory.init_loop_spec solve_singular start goal move_time control_time start.length
      (by omega) 256 0 self (by rw [hlen]; omega) (by omega) (by omega)
  rw [if_pos (le_refl _)] at h8
  refine ⟨self', h8, ⟨by omega, by omega⟩, h1, ?_, fun i hi => h7 i (Or.inr hi)⟩
  intro i s g his hig
  have hi : i < start.length := by
    by_contra hcon
    rw [List.getElem?_eq_none (by omega)] at his
    exact Option.noConfusion his
  exact h6 i s g (by omega) hi his hig

/-- On a well-formed object and vectors of `joint_num_` boundary points `init`
returns normally, keeps the invariant and leaves in every column the
coefficients of the solve on that column's boundary points run on a fresh
solver. -/
theorem JointTrajectory.init_returned (solve_singular : SingularSolve)
    (self : JointTrajectory) (hwf : self.well_formed)
    (start goal : List Trajectory) (hs : start.length = self.joint_num_)
    (hg : goal.length = self.joint_num_) (move_time control_time : ℚ) :
    ∃ self' : JointTrajectory,
      self.init solve_singular start goal move_time control_time = Outcome.returned self' ∧
      self'.well_formed ∧ self'.joint_num_ = self.joint_num_ ∧
      ∀ (i : ℕ) (s g : Trajectory), start[i]? = some s → goal[i]? = some g →
        self'.coefficient_[i]?
          = some (isolated_solve solve_singular s g move_time control_time) := by
  obtain ⟨self', h1, h2, h3, h4, -⟩ := JointTrajectory.init_returned_of_le solve_singular self hwf
    start goal (by omega) (by omega) move_time control_time
  exact ⟨self', h1, h2, h3, h4⟩

/-- One iteration of the loop of `JointTrajectory::init` whose three accesses are in range. -/
theorem JointTrajectory.init_loop_step (solve_singular : SingularSolve)
    (start goal : List Trajectory) (mt ct : ℚ) (fuel index : ℕ)
    (self : JointTrajectory) (s g : Trajectory) (hs : start[index]? = some s)
    (hg : goal[index]? = some g) (hc : index < self.coefficient_.length) :
    JointTrajectory.init_loop solve_singular start goal mt ct (fuel + 1) index self =
      JointTrajectory.init_loop solve_singular start goal mt ct fuel ((index + 1) % 256)
        { self with
          trajectory_generator_ :=
            self.trajectory_generator_.calcCoefficient solve_singular s g mt ct
          coefficient_ := self.coefficient_.set index
            (self.trajectory_generator_.calcCoefficient solve_singular s g mt
              ct).getCoefficient } := by
  have hlt : index < start.length := by
    by_contra hcon
    rw [List.getElem?_eq_none (by omega)] at hs
    exact Option.noConfusion hs
  rw [JointTrajectory.init_loop, if_pos hlt, hs, hg]
  simp only [if_pos hc]

/-- The loop of `JointTrajectory::init` exits when `index` reaches `start.size()`. -/
theorem JointTrajectory.init_loop_exit (solve_singular : SingularSolve)
    (start goal : List Trajectory) (mt ct : ℚ) (fuel index : ℕ)
    (self : JointTrajectory) (h : start.length ≤ index) :
    JointTrajectory.init_loop solve_singular start goal mt ct (fuel + 1) index self =
        Outcome.returned self := by
  rw [JointTrajectory.init_loop, if_neg (by omega)]

/-- The loop of `TaskTrajectory::init` acts on the members as the loop of
`JointTrajectory::init` does. -/
theorem TaskTrajectory.init_loop_toJoint (solve_singular : SingularSolve)
    (start goal : List Trajectory)
    (move_time control_time : ℚ) :
    ∀ (fuel index : ℕ) (self : TaskTrajectory),
      (TaskTrajectory.init_loop solve_singular start goal move_time control_time fuel index
          self).map TaskTrajectory.toJoint
        = JointTrajectory.init_loop solve_singular start goal move_time control_time fuel index
            self.toJoint := by
  intro fuel
  induction fuel with
  | zero => intro index self; rfl
  | succ fuel ih =>
    intro index self
    rw [TaskTrajectory.init_loop, JointTrajectory.init_loop]
    by_cases h : index < start.length
    · rw [if_pos h, if_pos h]
      cases hs : start[index]? with
      | none => rfl
      | some s =>
        cases hg : goal[index]? with
        | none => rfl
        | some g =>
          simp only []
          by_cases hc : index < self.coefficient_.length
          · have hc2 : index < self.toJoint.coefficient_.length := hc
            rw [if_pos hc, if_pos hc2, ih]
            rfl
          · have hc2 : ¬ index < self.toJoint.coefficient_.length := hc
            rw [if_neg hc, if_neg hc2]
            rfl
    · rw [if_neg h, if_neg h]
      rfl

/-- A returned image under `Outcome.map` comes from a returned outcome. -/
theorem Outcome.map_eq_returned {σ τ : Type} (f : σ → τ) (o : Outcome σ) (t : τ)
    (h : o.map f = Outcome.returned t) : ∃ s, o = Outcome.returned s ∧ f s = t := by
  cases o with
  | returned s => exact ⟨s, rfl, by simpa [Outcome.map] using h⟩
  | out_of_range s => simp [Outcome.map] at h
  | index_assert => simp [Outcome.map] at h
  | diverged => simp [Outcome.map] at h

/-- On a well-formed `TaskTrajectory` and vectors of three boundary points
`init` returns normally, keeps the invariant and leaves in every column the
coefficients of the solve on that column's boundary points run on a fresh
solver. -/
theorem TaskTrajectory.task_init_returned (solve_singular : SingularSolve)
    (self : TaskTrajectory) (hwf : self.well_formed)
    (start goal : List Trajectory) (hs : start.length = 3) (hg : goal.length = 3)
    (move_time control_time : ℚ) :
    ∃ self' : TaskTrajectory,
      self.init solve_singular start goal move_time control_time = Outcome.returned self' ∧
      self'.well_formed ∧
      ∀ (i : ℕ) (s g : Trajectory), start[i]? = some s → goal[i]? = some g →
        self'.coefficient_[i]?
          = some (isolated_solve solve_singular s g move_time control_time) := by
  obtain ⟨hlen, haxis⟩ := hwf
  have hwfj : self.toJoint.well_formed := ⟨by simp [TaskTrajectory.toJoint, hlen, haxis], by
    simp [TaskTrajectory.toJoint, haxis]⟩
  obtain ⟨t, ht, ⟨htlen, -⟩, htn, hcol⟩ := JointTrajectory.init_returned solve_singular
      self.toJoint hwfj start goal
    (by simp [TaskTrajectory.toJoint, haxis, hs]) (by simp [TaskTrajectory.toJoint, haxis, hg])
    move_time control_time
  rw [JointTrajectory.init, ← TaskTrajectory.init_loop_toJoint] at ht
  obtain ⟨self', hself', hto⟩ := Outcome.map_eq_returned _ _ _ ht
  subst hto
  refine ⟨self', hself', ⟨?_, ?_⟩, hcol⟩
  · have : self'.toJoint.joint_num_ = 3 := by rw [htn]; exact haxis
    rw [← this]; exact htlen
  · rw [← haxis]; exact htn

/-- The coefficient matrix left by `init` on matching sizes, as a list. -/
theorem coefficient_eq_zipWith (solve_singular : SingularSolve)
    (cols : List Vector6f) (start goal : List Trajectory) (n : ℕ)
    (move_time control_time : ℚ) (hc : cols.length = n) (hs : start.length = n)
    (hg : goal.length = n)
    (hcol : ∀ (i : ℕ) (s g : Trajectory), start[i]? = some s → goal[i]? = some g →
      cols[i]? = some (isolated_solve solve_singular s g move_time control_time)) :
    cols = List.zipWith
      (fun s g => isolated_solve solve_singular s g move_time control_time)
      start goal := by
  apply List.ext_getElem?
  intro i
  by_cases hi : i < n
  · have h1 : start[i]? = some start[i] := List.getElem?_eq_getElem (by omega)
    have h2 : goal[i]? = some goal[i] := List.getElem?_eq_getElem (by omega)
    rw [hcol i _ _ h1 h2]
    simp [List.getElem?_zipWith, h1, h2]
  · rw [List.getElem?_eq_none (by omega), List.getElem?_eq_none (by simp; omega)]

/-- The solve used by the counterexamples on one degree of freedom from rest at
0 to rest at 10 in `move_time = 2`, `control_time = 1/10`. -/
theorem calcCoefficient_example (solve_singular : SingularSolve)
    (self : MinimumJerk) :
    self.calcCoefficient solve_singular ⟨0, 0, 0⟩ ⟨10, 0, 0⟩ 2 (1 / 10)
      = ⟨⟨0, 0, 0, 25 / 2, -75 / 8, 15 / 8⟩⟩ := by
  have hstep : step_time 2 (1 / 10) = 21 := by norm_num [step_time]
  have hT : quantized_move_time 2 (1 / 10) = 2 := by
    rw [quantized_move_time, hstep]; norm_num
  simp only [MinimumJerk.calcCoefficient, hT]
  norm_num [calcCoefficient_A, calcCoefficient_b, ColPivHouseholderQR_solve,
    Matrix3f.determinant, Vector3f.Zero]

/-- A solve between equal boundary points at rest keeps the position. -/
theorem calcCoefficient_rest (solve_singular : SingularSolve)
    (self : MinimumJerk) :
    self.calcCoefficient solve_singular ⟨7, 0, 0⟩ ⟨7, 0, 0⟩ 2 (1 / 10) = ⟨⟨7, 0, 0, 0, 0, 0⟩⟩ := by
  have hstep : step_time 2 (1 / 10) = 21 := by norm_num [step_time]
  have hT : quantized_move_time 2 (1 / 10) = 2 := by
    rw [quantized_move_time, hstep]; norm_num
  simp only [MinimumJerk.calcCoefficient, hT]
  norm_num [calcCoefficient_A, calcCoefficient_b, ColPivHouseholderQR_solve,
    Matrix3f.determinant, Vector3f.Zero]

/-- The solve used by a counterexample: from rest at 1 to rest at 2 in unit time. -/
theorem calcCoefficient_unit (solve_singular : SingularSolve)
    (self : MinimumJerk) :
    self.calcCoefficient solve_singular ⟨1, 0, 0⟩ ⟨2, 0, 0⟩ 1 1 = ⟨⟨1, 0, 0, 10, -15, 6⟩⟩ := by
  have hstep : step_time 1 1 = 2 := by norm_num [step_time]
  have hT : quantized_move_time 1 1 = 1 := by
    rw [quantized_move_time, hstep]; norm_num
  simp only [MinimumJerk.calcCoefficient, hT]
  norm_num [calcCoefficient_A, calcCoefficient_b, ColPivHouseholderQR_solve,
    Matrix3f.determinant, Vector3f.Zero]

/-! # Properties of the ordered map and of the Manipulator calls -/

/-- A coefficient vector whose quintic meets the six boundary conditions at
`0` and at `T ≠ 0` is the one `calcCoefficient` computes. -/
theorem calcCoefficient_unique (solve_singular : SingularSolve) (self : MinimumJerk)
    (start goal : Trajectory) (move_time control_time : ℚ)
    (hT : quantized_move_time move_time control_time ≠ 0) (c : Vector6f)
    (hp0 : position_result c 0 = start.position)
    (hv0 : velocity_result c 0 = start.velocity)
    (ha0 : acceleration_result c 0 = start.acceleration)
    (hp1 : position_result c (quantized_move_time move_time control_time) = goal.position)
    (hv1 : velocity_result c (quantized_move_time move_time control_time) = goal.velocity)
    (ha1 : acceleration_result c (quantized_move_time move_time control_time)
      = goal.acceleration) :
    c = (self.calcCoefficient solve_singular start goal move_time control_time).getCoefficient := by
  have hdet : (calcCoefficient_A (quantized_move_time move_time control_time)).determinant ≠ 0 := by
    rw [calcCoefficient_matrix_det]
    exact mul_ne_zero (by norm_num) (pow_ne_zero _ hT)
  rw [calcCoefficient_coefficient]
  generalize quantized_move_time move_time control_time = T at hT hdet hp1 hv1 ha1 ⊢
  obtain ⟨c0, c1, c2, c3, c4, c5⟩ := c
  simp only [position_result, velocity_result, acceleration_result] at hp0 hv0 ha0 hp1 hv1 ha1
  have e0 : c0 = start.position := by linear_combination hp0
  have e1 : c1 = start.velocity := by linear_combination hv0
  have e2 : c2 = 0.5 * start.acceleration := by linear_combination (1 / 2 : ℚ) * ha0
  have hx : (calcCoefficient_A T).mulVec ⟨c3, c4, c5⟩ = calcCoefficient_b start goal T := by
    simp only [calcCoefficient_A, calcCoefficient_b, Matrix3f.mulVec, Vector3f.dot,
      Vector3f.mk.injEq]
    subst e0 e1
    refine ⟨?_, ?_, ?_⟩
    · linear_combination hp1 - T ^ 2 * e2
    · linear_combination hv1 - 2 * T * e2
    · linear_combination ha1 - 2 * e2
  have hsolve := ColPivHouseholderQR_solve_unique solve_singular _ _ _ hdet hx
  rw [← hsolve, e0, e1, e2]

/-- The evaluators of a `TaskTrajectory` act as those of the `JointTrajectory`
with the same members. -/
theorem TaskTrajectory.getPosition_toJoint (self : TaskTrajectory) (tick : ℚ) :
    (self.getPosition tick).map TaskTrajectory.toJoint = self.toJoint.getPosition tick ∧
    (self.getVelocity tick).map TaskTrajectory.toJoint = self.toJoint.getVelocity tick ∧
    (self.getAcceleration tick).map TaskTrajectory.toJoint
      = self.toJoint.getAcceleration tick := by
  refine ⟨?_, ?_, ?_⟩
  · simp only [TaskTrajectory.getPosition, JointTrajectory.getPosition, TaskTrajectory.toJoint]
    cases evaluate_loop position_result self.coefficient_ self.num_of_axis_ tick 256 0 [] <;> rfl
  · simp only [TaskTrajectory.getVelocity, JointTrajectory.getVelocity, TaskTrajectory.toJoint]
    cases evaluate_loop velocity_result self.coefficient_ self.num_of_axis_ tick 256 0 [] <;> rfl
  · simp only [TaskTrajectory.getAcceleration, JointTrajectory.getAcceleration,
      TaskTrajectory.toJoint]
    cases evaluate_loop acceleration_result self.coefficient_ self.num_of_axis_ tick 256 0 []
      <;> rfl

/-- The evaluators of a well-formed `TaskTrajectory` return normally, with one
result per column. -/
theorem TaskTrajectory.task_getPosition_returned (self : TaskTrajectory) (hwf : self.well_formed)
    (tick : ℚ) :
    self.getPosition tick = Outcome.returned
        { self with position_ := self.coefficient_.map (fun c => position_result c tick) } ∧
    self.getVelocity tick = Outcome.returned
        { self with velocity_ := self.coefficient_.map (fun c => velocity_result c tick) } ∧
    self.getAcceleration tick = Outcome.returned
        { self with
          acceleration_ := self.coefficient_.map (fun c => acceleration_result c tick) } := by
  obtain ⟨hlen, h3⟩ := hwf
  have key : ∀ result : Vector6f → ℚ → ℚ,
      evaluate_loop result self.coefficient_ self.num_of_axis_ tick 256 0 []
        = Outcome.returned (self.coefficient_.map (fun c => result c tick)) := by
    intro result
    rw [evaluate_loop_returned result self.coefficient_ self.num_of_axis_ tick (by omega)
      (by omega) 256 0 [] (by omega) (by omega)]
    simp [h3, ← hlen]
  simp [TaskTrajectory.getPosition, TaskTrajectory.getVelocity,
    TaskTrajectory.getAcceleration, key]

/-- The objects `TaskTrajectory::init` can leave behind are well formed. -/
theorem TaskTrajectory.init_well_formed (solve_singular : SingularSolve)
    (self : TaskTrajectory) (hwf : self.well_formed) (start goal : List Trajectory)
    (move_time control_time : ℚ) (task : TaskTrajectory)
    (h : self.init solve_singular start goal move_time control_time = Outcome.returned task ∨
      self.init solve_singular start goal move_time control_time = Outcome.out_of_range task) :
    task.well_formed := by
  obtain ⟨hlen, h3⟩ := hwf
  obtain ⟨self', hnum, hcols, -, -, -, -, -, hrun⟩ :=
    JointTrajectory.init_loop_spec solve_singular start goal move_time control_time
      (min start.length (min goal.length self.toJoint.coefficient_.length))
      (by
        have : self.toJoint.coefficient_.length = 3 := hlen
        omega)
      256 0 self.toJoint rfl (by omega)
      (by
        have : self.toJoint.coefficient_.length = 3 := hlen
        omega)
  have hsim := TaskTrajectory.init_loop_toJoint solve_singular start goal move_time control_time
    256 0 self
  rw [hrun] at hsim
  have hself' : self'.coefficient_.length = 3 ∧ self'.joint_num_ = 3 :=
    ⟨hcols.trans hlen, hnum.trans h3⟩
  have htask : task.toJoint = self' := by
    rcases h with h | h
    · rw [TaskTrajectory.init] at h
      rw [h] at hsim
      simp only [Outcome.map] at hsim
      split at hsim
      · exact Outcome.returned.inj hsim
      · split at hsim <;> cases hsim
    · rw [TaskTrajectory.init] at h
      rw [h] at hsim
      simp only [Outcome.map] at hsim
      split at hsim
      · cases hsim
      · split at hsim
        · exact Outcome.out_of_range.inj hsim
        · cases hsim
  rw [← htask] at hself'
  exact hself'

/-- The sequences returned by the evaluators of a well-formed `TaskTrajectory`
and of the `JointTrajectory` with the same members: equal, of length 3. -/
theorem TaskTrajectory.evaluators_toJoint (task : TaskTrajectory) (hwf : task.well_formed)
    (tick : ℚ) :
    ∃ (tp tv ta : TaskTrajectory) (jp jv ja : JointTrajectory),
      task.getPosition tick = Outcome.returned tp ∧
      task.toJoint.getPosition tick = Outcome.returned jp ∧
      tp.position_ = jp.position_ ∧ tp.position_.length = 3 ∧
      task.getVelocity tick = Outcome.returned tv ∧
      task.toJoint.getVelocity tick = Outcome.returned jv ∧
      tv.velocity_ = jv.velocity_ ∧ tv.velocity_.length = 3 ∧
      task.getAcceleration tick = Outcome.returned ta ∧
      task.toJoint.getAcceleration tick = Outcome.returned ja ∧
      ta.acceleration_ = ja.acceleration_ ∧ ta.acceleration_.length = 3 := by
  obtain ⟨hp, hv, ha⟩ := TaskTrajectory.task_getPosition_returned task hwf tick
  obtain ⟨sp, sv, sa⟩ := TaskTrajectory.getPosition_toJoint task tick
  rw [hp] at sp
  rw [hv] at sv
  rw [ha] at sa
  refine ⟨_, _, _, _, _, _, hp, sp.symm, rfl, ?_, hv, sv.symm, rfl, ?_, ha, sa.symm, rfl, ?_⟩
  · simp [hwf.1]
  · simp [hwf.1]
  · simp [hwf.1]

/-- The loop of `JointTrajectory::init` has not exited after `fuel` tests of
its condition when `fuel` more entries of `start` are still to visit. -/
theorem JointTrajectory.init_loop_diverged (solve_singular : SingularSolve)
    (start goal : List Trajectory) (move_time control_time : ℚ)
    (hs : start.length ≤ goal.length) (h256 : start.length < 256) :
    ∀ (fuel index : ℕ) (self : JointTrajectory),
      index + fuel ≤ start.length → start.length ≤ self.coefficient_.length →
      JointTrajectory.init_loop solve_singular start goal move_time control_time fuel index self
        = Outcome.diverged := by
  intro fuel
  induction fuel with
  | zero => intro index self _ _; rfl
  | succ fuel ih =>
    intro index self hfuel hcols
    have hi : index < start.length := by omega
    have hsi : start[index]? = some start[index] := List.getElem?_eq_getElem hi
    have hgl : index < goal.length := by omega
    have hgi : goal[index]? = some goal[index] := List.getElem?_eq_getElem hgl
    rw [JointTrajectory.init_loop_step solve_singular start goal move_time control_time fuel index
      self _ _ hsi hgi (by omega)]
    have hmod : (index + 1) % 256 = index + 1 := Nat.mod_eq_of_lt (by omega)
    rw [hmod]
    exact ih (index + 1) _ (by omega) (by simpa using hcols)

/-- More fuel does not change a run of the loop of `JointTrajectory::init`
that has left the loop. -/
theorem JointTrajectory.init_loop_fuel (solve_singular : SingularSolve)
    (start goal : List Trajectory) (move_time control_time : ℚ) :
    ∀ (fuel fuel' index : ℕ) (self : JointTrajectory), fuel ≤ fuel' →
      JointTrajectory.init_loop solve_singular start goal move_time control_time fuel index self
        ≠ Outcome.diverged →
      JointTrajectory.init_loop solve_singular start goal move_time control_time fuel' index self
        = JointTrajectory.init_loop solve_singular start goal move_time control_time fuel index
            self := by
  intro fuel
  induction fuel with
  | zero => intro fuel' index self _ h; exact absurd rfl h
  | succ fuel ih =>
    intro fuel' index self hle h
    obtain ⟨fuel'', rfl⟩ : ∃ fuel'', fuel' = fuel'' + 1 := ⟨fuel' - 1, by omega⟩
    have hle' : fuel ≤ fuel'' := by omega
    by_cases hi : index < start.length
    · cases hsi : start[index]? with
      | none => simp [JointTrajectory.init_loop, hi, hsi]
      | some s =>
        cases hgi : goal[index]? with
        | none => simp [JointTrajectory.init_loop, hi, hsi, hgi]
        | some g =>
          by_cases hc : index < self.coefficient_.length
          · rw [JointTrajectory.init_loop_step solve_singular start goal move_time control_time
              fuel index self s g hsi hgi hc] at h ⊢
            rw [JointTrajectory.init_loop_step solve_singular start goal move_time control_time
              fuel'' index self s g hsi hgi hc]
            exact ih fuel'' _ _ hle' h
          · simp [JointTrajectory.init_loop, hi, hsi, hgi, hc]
    · rw [JointTrajectory.init_loop_exit _ _ _ _ _ _ _ _ (by omega),
        JointTrajectory.init_loop_exit _ _ _ _ _ _ _ _ (by omega)]

/-- The coefficients of a rest-to-rest motion of quantized duration `T ≠ 0`. -/
theorem calcCoefficient_rest_to_rest (solve_singular : SingularSolve) (self : MinimumJerk)
    (p0 p1 move_time control_time : ℚ)
    (hT : quantized_move_time move_time control_time ≠ 0) :
    (self.calcCoefficient solve_singular ⟨p0, 0, 0⟩ ⟨p1, 0, 0⟩ move_time
        control_time).getCoefficient
      = ⟨p0, 0, 0, 10 * (p1 - p0) / quantized_move_time move_time control_time ^ 3,
          -15 * (p1 - p0) / quantized_move_time move_time control_time ^ 4,
          6 * (p1 - p0) / quantized_move_time move_time control_time ^ 5⟩ := by
  symm
  apply calcCoefficient_unique solve_singular self ⟨p0, 0, 0⟩ ⟨p1, 0, 0⟩ move_time control_time hT
  all_goals
    generalize quantized_move_time move_time control_time = T at hT
    simp only [position_result, velocity_result, acceleration_result]
    try field_simp
    try ring

/-- The step polynomial `10 s^3 - 15 s^4 + 6 s^5` is non-decreasing: its
increments are a sum of squares times the increment of the argument. -/
theorem smoothstep_mono (a b : ℚ) (h : a ≤ b) :
    10 * a ^ 3 - 15 * a ^ 4 + 6 * a ^ 5 ≤ 10 * b ^ 3 - 15 * b ^ 4 + 6 * b ^ 5 := by
  have key : (10 * b ^ 3 - 15 * b ^ 4 + 6 * b ^ 5) - (10 * a ^ 3 - 15 * a ^ 4 + 6 * a ^ 5)
      = (b - a) * (1 / 3) *
        (7 * (a * (1 - a)) ^ 2
          + 32 * (((3 * a + b) / 4) * (1 - (3 * a + b) / 4)) ^ 2
          + 12 * (((a + b) / 2) * (1 - (a + b) / 2)) ^ 2
          + 32 * (((a + 3 * b) / 4) * (1 - (a + 3 * b) / 4)) ^ 2
          + 7 * (b * (1 - b)) ^ 2) := by ring
  have hnn : 0 ≤ (b - a) * (1 / 3) *
        (7 * (a * (1 - a)) ^ 2
          + 32 * (((3 * a + b) / 4) * (1 - (3 * a + b) / 4)) ^ 2
          + 12 * (((a + b) / 2) * (1 - (a + b) / 2)) ^ 2
          + 32 * (((a + 3 * b) / 4) * (1 - (a + 3 * b) / 4)) ^ 2
          + 7 * (b * (1 - b)) ^ 2) := by
    have hba : 0 ≤ b - a := sub_nonneg.2 h
    positivity
  linarith

/-- The closed form of the rest-to-rest position. -/
theorem rest_to_rest_position_eq (solve_singular : SingularSolve)
    (p0 p1 move_time control_time : ℚ)
    (hT : quantized_move_time move_time control_time ≠ 0) (t : ℚ) :
    rest_to_rest_position solve_singular p0 p1 move_time control_time t
      = p0 + (p1 - p0) *
          (10 * (t / quantized_move_time move_time control_time) ^ 3
            - 15 * (t / quantized_move_time move_time control_time) ^ 4
            + 6 * (t / quantized_move_time move_time control_time) ^ 5) := by
  rw [rest_to_rest_position, isolated_solve, calcCoefficient_rest_to_rest _ _ _ _ _ _ hT]
  generalize quantized_move_time move_time control_time = T at hT
  simp only [position_result]
  field_simp
  ring

/-- The binary exponent of a positive rational between two consecutive powers
of two. -/
theorem log_two_eq (x : ℚ) (e : ℤ) (h1 : (2 : ℚ) ^ e ≤ x) (h2 : x < (2 : ℚ) ^ (e + 1)) :
    Int.log 2 x = e := by
  have hx : 0 < x := lt_of_lt_of_le (zpow_pos (by norm_num) e) h1
  have ha : e ≤ Int.log 2 x := (Int.zpow_le_iff_le_log (by norm_num) hx).1 (by exact_mod_cast h1)
  have hb : Int.log 2 x < e + 1 :=
    (Int.lt_zpow_iff_log_lt (by norm_num) hx).1 (by exact_mod_cast h2)
  omega

/-- Rounding to the nearest integer keeps an integer. -/
theorem round_half_even_intCast (n : ℤ) : round_half_even (n : ℚ) = n := by
  simp [round_half_even]

/-- Rounding to the nearest integer gives the floor or the next integer. -/
theorem round_half_even_bounds (x : ℚ) :
    ⌊x⌋ ≤ round_half_even x ∧ round_half_even x ≤ ⌊x⌋ + 1 := by
  unfold round_half_even
  split
  · omega
  · split
    · omega
    · split <;> omega

/-- Rounding to the nearest integer keeps the sign of a non-negative number. -/
theorem round_half_even_nonneg (x : ℚ) (h : 0 ≤ x) : 0 ≤ round_half_even x :=
  le_trans (Int.floor_nonneg.2 h) (round_half_even_bounds x).1

/-- Floating-point rounding keeps the sign of a non-negative number. -/
theorem round_binary_nonneg (p : ℕ) (emin : ℤ) (x : ℚ) (h : 0 ≤ x) :
    0 ≤ round_binary p emin x := by
  unfold round_binary
  split
  · exact le_refl 0
  · have hq : (0 : ℚ) < 2 ^ (max (Int.log 2 |x|) emin - (p - 1)) := zpow_pos (by norm_num) _
    have := round_half_even_nonneg (x / 2 ^ (max (Int.log 2 |x|) emin - (p - 1)))
      (div_nonneg h hq.le)
    exact mul_nonneg (by exact_mod_cast this) hq.le

/-- Floating-point rounding keeps a number of the format: an integer of less
than `p` bits times a power of two not below the least unit in the last place. -/
theorem round_binary_representable (p : ℕ) (emin m k : ℤ) (hm : |m| < 2 ^ p)
    (hk : emin - (p - 1) ≤ k) :
    round_binary p emin ((m : ℚ) * 2 ^ k) = (m : ℚ) * 2 ^ k := by
  by_cases hm0 : m = 0
  · simp [round_binary, hm0]
  have h2k : (0 : ℚ) < 2 ^ k := zpow_pos (by norm_num) k
  have hx0 : (m : ℚ) * 2 ^ k ≠ 0 := mul_ne_zero (by exact_mod_cast hm0) h2k.ne'
  have habs : |(m : ℚ) * 2 ^ k| = (|m| : ℤ) * 2 ^ k := by
    rw [abs_mul, abs_of_pos h2k]; push_cast; rfl
  have hlt : |(m : ℚ) * 2 ^ k| < (2 : ℚ) ^ ((p : ℤ) + k) := by
    rw [habs, zpow_add₀ (by norm_num), zpow_natCast]
    exact mul_lt_mul_of_pos_right (by exact_mod_cast hm) h2k
  have hlog : Int.log 2 |(m : ℚ) * 2 ^ k| < (p : ℤ) + k :=
    (Int.lt_zpow_iff_log_lt (by norm_num) (abs_pos.2 hx0)).1 (by exact_mod_cast hlt)
  have hg : max (Int.log 2 |(m : ℚ) * 2 ^ k|) emin - (p - 1) ≤ k := by
    rcases max_cases (Int.log 2 |(m : ℚ) * 2 ^ k|) emin with ⟨h, -⟩ | ⟨h, -⟩ <;> rw [h] <;> omega
  rw [round_binary, if_neg hx0]
  generalize max (Int.log 2 |(m : ℚ) * 2 ^ k|) emin - (p - 1) = g at hg
  obtain ⟨n, hn⟩ : ∃ n : ℕ, k = g + n := ⟨(k - g).toNat, by omega⟩
  have hdiv : (m : ℚ) * 2 ^ k / 2 ^ g = ((m * 2 ^ n : ℤ) : ℚ) := by
    rw [hn, zpow_add₀ (by norm_num), zpow_natCast]
    have : (2 : ℚ) ^ g ≠ 0 := (zpow_pos (by norm_num) g).ne'
    field_simp
    ring
  rw [hdiv, round_half_even_intCast, hn, zpow_add₀ (by norm_num), zpow_natCast]
  push_cast
  ring

/-- Rounding to `double` keeps an integer of less than 53 bits. -/
theorem to_double_intCast (n : ℤ) (hn : |n| < 2 ^ 53) : to_double (n : ℚ) = n := by
  have h := round_binary_representable 53 (-1022) n 0 hn (by norm_num)
  simpa [to_double] using h

/-- Rounding to `double` keeps the sign of a non-negative number. -/
theorem to_double_nonneg (x : ℚ) (h : 0 ≤ x) : 0 ≤ to_double x :=
  round_binary_nonneg 53 (-1022) x h

/-- Within the 16-bit range the tick count in machine arithmetic is the floor
of the double-precision quotient, plus one. -/
theorem step_time_double_eq (P : Platform) (move_time control_time : ℚ)
    (hmove : 0 < move_time) (hcontrol : 0 < control_time)
    (hfit : ⌊to_double (move_time / control_time)⌋ < 65535) :
    step_time_double P move_time control_time = ⌊to_double (move_time / control_time)⌋ + 1 := by
  have h0 : 0 ≤ ⌊to_double (move_time / control_time)⌋ :=
    Int.floor_nonneg.2 (to_double_nonneg _ (div_pos hmove hcontrol).le)
  have hsum : to_double ((⌊to_double (move_time / control_time)⌋ : ℚ) + 1)
      = ((⌊to_double (move_time / control_time)⌋ + 1 : ℤ) : ℚ) := by
    have := to_double_intCast (⌊to_double (move_time / control_time)⌋ + 1)
      (by rw [abs_lt]; constructor <;> omega)
    rw [← this]; push_cast; rfl
  rw [step_time_double, hsum, if_pos, Int.floor_intCast]
  constructor
  · exact_mod_cast (by omega : (0 : ℤ) ≤ ⌊to_double (move_time / control_time)⌋ + 1)
  · exact_mod_cast (by omega : ⌊to_double (move_time / control_time)⌋ + 1 < (65536 : ℤ))

/-- The tick count in machine arithmetic is a 16-bit value. -/
theorem step_time_double_range (P : Platform) (move_time control_time : ℚ) :
    0 ≤ step_time_double P move_time control_time ∧
    step_time_double P move_time control_time < 65536 := by
  unfold step_time_double
  split
  · rename_i h
    constructor
    · exact Int.floor_nonneg.2 h.1
    · rw [Int.floor_lt]; exact_mod_cast h.2
  · constructor
    · exact Int.emod_nonneg _ (by norm_num)
    · exact Int.emod_lt_of_pos _ (by norm_num)

/-- The coefficients written by `calcCoefficient` in machine arithmetic. -/
theorem calcCoefficient_float_coefficient (P : Platform) (self : MinimumJerk)
    (start goal : Trajectory) (move_time control_time : ℚ) :
    (self.calcCoefficient_float P start goal move_time control_time).getCoefficient
      = ⟨to_float start.position, to_float start.velocity,
          to_float (to_double (0.5 * start.acceleration)),
          (P.solve (calcCoefficient_A_float P (quantized_move_time_double P move_time control_time))
            (calcCoefficient_b_float P start goal
              (quantized_move_time_double P move_time control_time))).x,
          (P.solve (calcCoefficient_A_float P (quantized_move_time_double P move_time control_time))
            (calcCoefficient_b_float P start goal
              (quantized_move_time_double P move_time control_time))).y,
          (P.solve (calcCoefficient_A_float P (quantized_move_time_double P move_time control_time))
            (calcCoefficient_b_float P start goal
              (quantized_move_time_double P move_time control_time))).z⟩ := by
  simp [MinimumJerk.calcCoefficient_float, MinimumJerk.getCoefficient]

/-- The double-precision quotient of `0.5` by the double nearest to `0.1` is
`5`, though the exact quotient is less than 5. -/
theorem to_double_half_div_one_tenth :
    to_double ((1 / 2) / double_one_tenth) = 5 ∧ (1 / 2) / double_one_tenth < 5 := by
  have hlog : Int.log 2 |((1 / 2) / (3602879701896397 / 36028797018963968) : ℚ)| = 2 :=
    log_two_eq _ _ (by norm_num [abs_of_pos]) (by norm_num [abs_of_pos])
  constructor
  · rw [double_one_tenth, to_double, round_binary, if_neg (by norm_num), hlog]
    norm_num [round_half_even]
  · norm_num [double_one_tenth]

/-- Rounding to `float` keeps zero. -/
theorem to_float_zero : to_float 0 = 0 := by
  simp [to_float, round_binary]

/-- The double-precision quotient of the doubles nearest to `0.3` and `0.1` is
the double just below 3. -/
theorem to_double_three_tenths_div_one_tenth :
    to_double (double_three_tenths / double_one_tenth)
      = 6755399441055743 / 2251799813685248 := by
  have hlog : Int.log 2 |((5404319552844595 / 18014398509481984)
      / (3602879701896397 / 36028797018963968) : ℚ)| = 1 :=
    log_two_eq _ _ (by norm_num [abs_of_pos]) (by norm_num [abs_of_pos])
  rw [double_three_tenths, double_one_tenth, to_double, round_binary, if_neg (by norm_num), hlog]
  norm_num [round_half_even]

/-- For the doubles nearest to `0.3` and `0.1` the tick count in machine
arithmetic is 3 on every platform. -/
theorem step_time_double_three_tenths (P : Platform) :
    step_time_double P double_three_tenths double_one_tenth = 3 := by
  rw [step_time_double_eq P _ _ (by norm_num [double_three_tenths])
    (by norm_num [double_one_tenth])
    (by rw [to_double_three_tenths_div_one_tenth]; norm_num),
    to_double_three_tenths_div_one_tenth]
  norm_num

section manipulator_lemmas

variable {Name : Type}

/-- Conversion to `int8_t` absorbs an earlier conversion under an increment. -/
theorem wrap8_succ (x : ℤ) : wrap8 (wrap8 x + 1) = wrap8 (x + 1) := by
  simp only [wrap8]; omega

/-- Conversion to `int8_t` is idempotent. -/
theorem wrap8_wrap8 (x : ℤ) : wrap8 (wrap8 x) = wrap8 x := by
  simp only [wrap8]; omega

/-- Conversion to `int8_t` keeps a value of the `int8_t` range. -/
theorem wrap8_of_range (x : ℤ) (h0 : -128 ≤ x) (h1 : x ≤ 127) : wrap8 x = x := by
  simp only [wrap8]; omega

/-- `same_ids` is reflexive. -/
theorem same_ids_refl (m : List (Name × Component Name)) : same_ids m m := by
  induction m with
  | nil => exact List.Forall₂.nil
  | cons e rest ih => exact List.Forall₂.cons ⟨rfl, rfl, rfl⟩ ih

/-- `same_ids` is transitive. -/
theorem same_ids_trans {m₁ m₂ m₃ : List (Name × Component Name)} (h₁ : same_ids m₁ m₂)
    (h₂ : same_ids m₂ m₃) : same_ids m₁ m₃ := by
  induction h₁ generalizing m₃ with
  | nil => cases h₂; exact List.Forall₂.nil
  | cons hab _ ih =>
    cases h₂ with
    | cons hbc hrest =>
      exact List.Forall₂.cons
        ⟨hbc.1.trans hab.1, hbc.2.1.trans hab.2.1, hbc.2.2.trans hab.2.2⟩ (ih hrest)

/-- Maps with the same ids have the same keys, in order. -/
theorem same_ids_keys {m m' : List (Name × Component Name)} (h : same_ids m m') :
    m'.map Prod.fst = m.map Prod.fst := by
  induction h with
  | nil => rfl
  | cons hab _ ih => simp [hab.1, ih]

/-- Maps with the same ids have the same number of components with an
actuated joint. -/
theorem same_ids_count {m m' : List (Name × Component Name)} (h : same_ids m m') :
    (m'.filter (fun p => decide (p.2.joint.id ≠ -1))).length
      = (m.filter (fun p => decide (p.2.joint.id ≠ -1))).length := by
  induction h with
  | nil => rfl
  | cons hab _ ih =>
    simp only [List.filter_cons, hab.2.1]
    split <;> simp only [List.length_cons, ih]

variable [LinearOrder Name]

/-- A key is absent exactly when it is not among the keys. -/
theorem map_find_eq_none {V : Type} (m : List (Name × V)) (name : Name) :
    map_find m name = none ↔ name ∉ m.map Prod.fst := by
  induction m with
  | nil => simp [map_find]
  | cons e rest ih =>
    obtain ⟨k, w⟩ := e
    by_cases h : k = name
    · simp [map_find, h]
    · have h' : ¬ name = k := fun e => h e.symm
      simp [map_find, h, h', ih]

/-- An assignment through `at` keeps the keys, in order. -/
theorem map_modify_keys {V : Type} (m : List (Name × V)) (name : Name) (f : V → V) :
    (map_modify m name f).map Prod.fst = m.map Prod.fst := by
  induction m with
  | nil => rfl
  | cons e rest ih =>
    obtain ⟨k, w⟩ := e
    by_cases h : k = name
    · simp [map_modify, h]
    · simp [map_modify, h, ih]

/-- The keys after a placement are the new key and the old keys. -/
theorem map_place_keys {V : Type} (m : List (Name × V)) (name : Name) (v : V) (x : Name) :
    x ∈ (map_place m name v).map Prod.fst ↔ x = name ∨ x ∈ m.map Prod.fst := by
  induction m with
  | nil => simp [map_place]
  | cons e rest ih =>
    obtain ⟨k, w⟩ := e
    by_cases h : name < k
    · simp [map_place, h]
    · simp only [map_place, if_neg h, List.map_cons, List.mem_cons, ih]
      tauto

/-- A placement adds one entry. -/
theorem map_place_length {V : Type} (m : List (Name × V)) (name : Name) (v : V) :
    (map_place m name v).length = m.length + 1 := by
  induction m with
  | nil => rfl
  | cons e rest ih =>
    obtain ⟨k, w⟩ := e
    by_cases h : name < k
    · simp [map_place, h]
    · simp [map_place, h, ih]

/-- An assignment through `at` that keeps a property of the values keeps the
number of entries with that property. -/
theorem map_modify_filter_length {V : Type} (m : List (Name × V)) (name : Name) (f : V → V)
    (p : V → Bool) (hf : ∀ w, p (f w) = p w) :
    ((map_modify m name f).filter (fun e => p e.2)).length
      = (m.filter (fun e => p e.2)).length := by
  induction m with
  | nil => rfl
  | cons e rest ih =>
    obtain ⟨k, w⟩ := e
    by_cases h : k = name
    · simp only [map_modify, h, if_true, List.filter_cons, hf]
      split <;> simp
    · simp only [map_modify, if_neg h, List.filter_cons]
      split <;> simp [ih]

/-- A placement adds the new entry to the count when it has the property. -/
theorem map_place_filter_length {V : Type} (m : List (Name × V)) (name : Name) (v : V)
    (p : V → Bool) :
    ((map_place m name v).filter (fun e => p e.2)).length
      = (m.filter (fun e => p e.2)).length + (if p v = true then 1 else 0) := by
  induction m with
  | nil => simp [map_place, List.filter_cons]; split <;> simp
  | cons e rest ih =>
    obtain ⟨k, w⟩ := e
    by_cases h : name < k
    · simp only [map_place, if_pos h, List.filter_cons]
      split <;> split <;> simp
    · simp only [map_place, if_neg h, List.filter_cons]
      split
      · simp [ih]; omega
      · simp [ih]

/-- An assignment through `at` that changes neither id gives a map with the
same ids. -/
theorem same_ids_modify (m : List (Name × Component Name)) (name : Name)
    (f : Component Name → Component Name)
    (hf : ∀ w, (f w).joint.id = w.joint.id ∧ (f w).tool.id = w.tool.id) :
    same_ids m (map_modify m name f) := by
  induction m with
  | nil => exact List.Forall₂.nil
  | cons e rest ih =>
    obtain ⟨k, w⟩ := e
    by_cases h : k = name
    · simp only [map_modify, if_pos h]
      exact List.Forall₂.cons ⟨rfl, (hf w).1, (hf w).2⟩ (same_ids_refl rest)
    · simp only [map_modify, if_neg h]
      exact List.Forall₂.cons ⟨rfl, rfl, rfl⟩ ih

/-- A key is present or absent alike in maps with the same ids. -/
theorem same_ids_find_none {m m' : List (Name × Component Name)} (h : same_ids m m')
    (name : Name) : map_find m' name = none ↔ map_find m name = none := by
  rw [map_find_eq_none, map_find_eq_none, same_ids_keys h]

/-- The loop of `setAllActiveJointAngle` returns or throws, leaving `dof_` as
it was and a component map with the same ids. -/
theorem Manipulator.setAllActiveJointAngle_loop_frame (angle_vector : List ℚ) :
    ∀ (keys : List Name) (index : ℤ) (self : Manipulator Name),
      ∃ s : Manipulator Name,
        (Manipulator.setAllActiveJointAngle_loop angle_vector keys index self = Outcome.returned s ∨
          Manipulator.setAllActiveJointAngle_loop angle_vector keys index self
            = Outcome.out_of_range s) ∧
        s.dof_ = self.dof_ ∧ s.world_ = self.world_ ∧ same_ids self.component_ s.component_ := by
  intro keys
  induction keys with
  | nil =>
    intro index self
    exact ⟨self, Or.inl rfl, rfl, rfl, same_ids_refl _⟩
  | cons name rest ih =>
    intro index self
    rw [Manipulator.setAllActiveJointAngle_loop]
    cases hfind : map_find self.component_ name with
    | none => exact ⟨self, Or.inr rfl, rfl, rfl, same_ids_refl _⟩
    | some c =>
      simp only []
      by_cases hid : c.joint.id ≠ -1
      · rw [if_pos hid]
        cases hat : (if 0 ≤ index then angle_vector[index.toNat]? else none) with
        | none => exact ⟨self, Or.inr rfl, rfl, rfl, same_ids_refl _⟩
        | some angle =>
          simp only []
          obtain ⟨s, hs, h1, h2, h3⟩ := ih (wrap8 (index + 1))
            { self with
              component_ := map_modify self.component_ name
                (fun c => { c with joint := { c.joint with angle := angle } }) }
          exact ⟨s, hs, h1, h2,
            same_ids_trans
              (same_ids_modify self.component_ name
                (fun c => { c with joint := { c.joint with angle := angle } })
                (fun w => ⟨rfl, rfl⟩)) h3⟩
      · rw [if_neg hid]
        exact ih index self

/-- A property of the object carried by the outcome of a call holds of the
object left behind by the call. -/
theorem Manipulator.after_of_outcome (self : Manipulator Name) (c : Call Name)
    (P : Manipulator Name → Prop)
    (h : ∃ s, (self.call c = Outcome.returned s ∨ self.call c = Outcome.out_of_range s) ∧ P s) :
    P (self.after c) := by
  obtain ⟨s, hs, hP⟩ := h
  rcases hs with hs | hs <;> simpa only [Manipulator.after, hs] using hP

/-- A call that is neither `addComponent` nor `addTool` leaves `dof_` as it was
and a component map with the same ids. -/
theorem Manipulator.after_frame (self : Manipulator Name) (c : Call Name)
    (h : c.inserted_name = none) :
    (self.after c).dof_ = self.dof_ ∧ same_ids self.component_ (self.after c).component_ := by
  have hrefl := same_ids_refl self.component_
  apply Manipulator.after_of_outcome self c
    (fun s => s.dof_ = self.dof_ ∧ same_ids self.component_ s.component_)
  cases c with
  | addComponent => simp [Call.inserted_name] at h
  | addTool => simp [Call.inserted_name] at h
  | addWorld a b c d => exact ⟨_, Or.inl rfl, rfl, hrefl⟩
  | checkManipulatorSetting => exact ⟨_, Or.inl rfl, rfl, hrefl⟩
  | setWorldPose a => exact ⟨_, Or.inl rfl, rfl, hrefl⟩
  | setWorldPosition a => exact ⟨_, Or.inl rfl, rfl, hrefl⟩
  | setWorldOrientation a => exact ⟨_, Or.inl rfl, rfl, hrefl⟩
  | setWorldState a => exact ⟨_, Or.inl rfl, rfl, hrefl⟩
  | setWorldVelocity a => exact ⟨_, Or.inl rfl, rfl, hrefl⟩
  | setWorldAcceleration a => exact ⟨_, Or.inl rfl, rfl, hrefl⟩
  | addComponentChild a b =>
    simp only [Manipulator.call, Manipulator.addComponentChild]
    cases map_find self.component_ a with
    | none => exact ⟨_, Or.inr rfl, rfl, hrefl⟩
    | some w => exact ⟨_, Or.inl rfl, rfl, same_ids_modify _ _ _ (fun w => ⟨rfl, rfl⟩)⟩
  | setComponent a b =>
    refine ⟨_, Or.inl rfl, ?_⟩
    simp only [Manipulator.setComponent]
    by_cases hp : (map_find self.component_ a).isSome = true
    · simp only [if_pos hp, map_insert]
      exact ⟨by trivial, hrefl⟩
    · simp only [if_neg hp]
      exact ⟨by trivial, hrefl⟩
  | setComponentPoseToWorld a b =>
    refine ⟨_, Or.inl rfl, ?_⟩
    simp only [Manipulator.setComponentPoseToWorld]
    by_cases hp : (map_find self.component_ a).isSome = true
    · simp only [if_pos hp]
      exact ⟨by trivial, same_ids_modify _ _ _ (fun w => ⟨rfl, rfl⟩)⟩
    · simp only [if_neg hp]
      exact ⟨by trivial, hrefl⟩
  | setComponentPositionToWorld a b =>
    refine ⟨_, Or.inl rfl, ?_⟩
    simp only [Manipulator.setComponentPositionToWorld]
    by_cases hp : (map_find self.component_ a).isSome = true
    · simp only [if_pos hp]
      exact ⟨by trivial, same_ids_modify _ _ _ (fun w => ⟨rfl, rfl⟩)⟩
    · simp only [if_neg hp]
      exact ⟨by trivial, hrefl⟩
  | setComponentOrientationToWorld a b =>
    refine ⟨_, Or.inl rfl, ?_⟩
    simp only [Manipulator.setComponentOrientationToWorld]
    by_cases hp : (map_find self.component_ a).isSome = true
    · simp only [if_pos hp]
      exact ⟨by trivial, same_ids_modify _ _ _ (fun w => ⟨rfl, rfl⟩)⟩
    · simp only [if_neg hp]
      exact ⟨by trivial, hrefl⟩
  | setComponentStateToWorld a b =>
    refine ⟨_, Or.inl rfl, ?_⟩
    simp only [Manipulator.setComponentStateToWorld]
    by_cases hp : (map_find self.component_ a).isSome = true
    · simp only [if_pos hp]
      exact ⟨by trivial, same_ids_modify _ _ _ (fun w => ⟨rfl, rfl⟩)⟩
    · simp only [if_neg hp]
      exact ⟨by trivial, hrefl⟩
  | setComponentVelocityToWorld a b =>
    refine ⟨_, Or.inl rfl, ?_⟩
    simp only [Manipulator.setComponentVelocityToWorld]
    by_cases hlen : b.length ≠ 6
    · simp only [if_pos hlen]
      exact ⟨by trivial, hrefl⟩
    · by_cases hp : (map_find self.component_ a).isSome = true
      · simp only [if_neg hlen, if_pos hp]
        exact ⟨by trivial, same_ids_modify _ _ _ (fun w => ⟨rfl, rfl⟩)⟩
      · simp only [if_neg hlen, if_neg hp]
        exact ⟨by trivial, hrefl⟩
  | setComponentAccelerationToWorld a b =>
    refine ⟨_, Or.inl rfl, ?_⟩
    simp only [Manipulator.setComponentAccelerationToWorld]
    by_cases hlen : b.length ≠ 6
    · simp only [if_pos hlen]
      exact ⟨by trivial, hrefl⟩
    · by_cases hp : (map_find self.component_ a).isSome = true
      · simp only [if_neg hlen, if_pos hp]
        exact ⟨by trivial, same_ids_modify _ _ _ (fun w => ⟨rfl, rfl⟩)⟩
      · simp only [if_neg hlen, if_neg hp]
        exact ⟨by trivial, hrefl⟩
  | setComponentJointAngle a b =>
    simp only [Manipulator.call, Manipulator.setComponentJointAngle]
    cases map_find self.component_ a with
    | none => exact ⟨_, Or.inr rfl, rfl, hrefl⟩
    | some w =>
      by_cases hid : w.tool.id > 0
      · simp only [if_pos hid]
        exact ⟨_, Or.inl rfl, rfl, hrefl⟩
      · simp only [if_neg hid, Option.isSome_some, if_true]
        exact ⟨_, Or.inl rfl, rfl, same_ids_modify _ _ _ (fun w => ⟨rfl, rfl⟩)⟩
  | setComponentJointVelocity a b =>
    simp only [Manipulator.call, Manipulator.setComponentJointVelocity]
    cases map_find self.component_ a with
    | none => exact ⟨_, Or.inr rfl, rfl, hrefl⟩
    | some w =>
      by_cases hid : w.tool.id > 0
      · simp only [if_pos hid]
        exact ⟨_, Or.inl rfl, rfl, hrefl⟩
      · simp only [if_neg hid, Option.isSome_some, if_true]
        exact ⟨_, Or.inl rfl, rfl, same_ids_modify _ _ _ (fun w => ⟨rfl, rfl⟩)⟩
  | setComponentJointAcceleration a b =>
    simp only [Manipulator.call, Manipulator.setComponentJointAcceleration]
    cases map_find self.component_ a with
    | none => exact ⟨_, Or.inr rfl, rfl, hrefl⟩
    | some w =>
      by_cases hid : w.tool.id > 0
      · simp only [if_pos hid]
        exact ⟨_, Or.inl rfl, rfl, hrefl⟩
      · simp only [if_neg hid, Option.isSome_some, if_true]
        exact ⟨_, Or.inl rfl, rfl, same_ids_modify _ _ _ (fun w => ⟨rfl, rfl⟩)⟩
  | setComponentToolOnOff a b =>
    simp only [Manipulator.call, Manipulator.setComponentToolOnOff]
    cases map_find self.component_ a with
    | none => exact ⟨_, Or.inr rfl, rfl, hrefl⟩
    | some w =>
      by_cases hid : w.tool.id > 0
      · simp only [if_pos hid, Option.isSome_some, if_true]
        exact ⟨_, Or.inl rfl, rfl, same_ids_modify _ _ _ (fun w => ⟨rfl, rfl⟩)⟩
      · simp only [if_neg hid]
        exact ⟨_, Or.inl rfl, rfl, hrefl⟩
  | setComponentToolValue a b =>
    simp only [Manipulator.call, Manipulator.setComponentToolValue]
    cases map_find self.component_ a with
    | none => exact ⟨_, Or.inr rfl, rfl, hrefl⟩
    | some w =>
      by_cases hid : w.tool.id > 0
      · simp only [if_pos hid, Option.isSome_some, if_true]
        exact ⟨_, Or.inl rfl, rfl, same_ids_modify _ _ _ (fun w => ⟨rfl, rfl⟩)⟩
      · simp only [if_neg hid]
        exact ⟨_, Or.inl rfl, rfl, hrefl⟩
  | setAllActiveJointAngle a =>
    obtain ⟨s, hs, h1, -, h3⟩ := Manipulator.setAllActiveJointAngle_loop_frame a
      (self.component_.map Prod.fst) 0 self
    exact ⟨s, hs, h1, h3⟩

/-- What `addComponent` does to the counter, the keys and the counts. -/
theorem Manipulator.addComponent_summary (self : Manipulator Name)
    (my_name parent_name child_name : Name) (relative_position : Vector3f)
    (relative_orientation : Matrix3f) (axis_of_rotation : Vector3f) (joint_actuator_id : ℤ)
    (coefficient mass : ℚ) (inertia_tensor : Matrix3f) (center_of_mass : Vector3f) :
    (self.addComponent my_name parent_name child_name relative_position relative_orientation
        axis_of_rotation joint_actuator_id coefficient mass inertia_tensor center_of_mass).dof_
      = (if joint_actuator_id ≠ -1 then wrap8 (self.dof_ + 1) else self.dof_) ∧
    (∀ x, x ∈ (self.addComponent my_name parent_name child_name relative_position
        relative_orientation axis_of_rotation joint_actuator_id coefficient mass inertia_tensor
        center_of_mass).component_.map Prod.fst ↔ x = my_name ∨ x ∈ self.component_.map Prod.fst) ∧
    (map_find self.component_ my_name = none →
      (self.addComponent my_name parent_name child_name relative_position relative_orientation
        axis_of_rotation joint_actuator_id coefficient mass inertia_tensor
        center_of_mass).active_joint_count
        = self.active_joint_count + (if joint_actuator_id ≠ -1 then 1 else 0) ∧
      (self.addComponent my_name parent_name child_name relative_position relative_orientation
        axis_of_rotation joint_actuator_id coefficient mass inertia_tensor
        center_of_mass).component_.length = self.component_.length + 1) ∧
    (map_find self.component_ my_name ≠ none →
      (self.addComponent my_name parent_name child_name relative_position relative_orientation
        axis_of_rotation joint_actuator_id coefficient mass inertia_tensor
        center_of_mass).component_ = self.component_) := by
  refine ⟨?_, ?_, ?_, ?_⟩
  · simp only [Manipulator.addComponent]
    split <;> rfl
  · intro x
    simp only [Manipulator.addComponent, map_insert]
    by_cases hp : (map_find self.component_ my_name).isSome = true
    · have hmem : my_name ∈ self.component_.map Prod.fst := by
        by_contra hcon
        rw [(map_find_eq_none _ _).mpr hcon] at hp
        simp at hp
      by_cases hid : joint_actuator_id ≠ -1
      · simp only [if_pos hid, if_pos hp]
        constructor
        · intro h; exact Or.inr h
        · rintro (h | h)
          · rw [h]; exact hmem
          · exact h
      · simp only [if_neg hid, if_pos hp]
        constructor
        · intro h; exact Or.inr h
        · rintro (h | h)
          · rw [h]; exact hmem
          · exact h
    · by_cases hid : joint_actuator_id ≠ -1
      · simp only [if_pos hid, if_neg hp]
        exact map_place_keys _ _ _ x
      · simp only [if_neg hid, if_neg hp]
        exact map_place_keys _ _ _ x
  · intro hnone
    have hp : ¬ (map_find self.component_ my_name).isSome = true := by simp [hnone]
    by_cases hid : joint_actuator_id ≠ -1
    · simp only [Manipulator.addComponent, Manipulator.active_joint_count, map_insert, if_pos hid,
        if_neg hp, map_place_length]
      refine ⟨?_, trivial⟩
      have := map_place_filter_length self.component_ my_name
        ({ parent := parent_name, child := [child_name]
           relative_to_parent :=
             { position := relative_position, orientation := relative_orientation }
           pose_to_world := { position := Vector3f.Zero, orientation := Matrix3f.Identity }
           origin := { velocity := VectorXf_Zero3, acceleration := VectorXf_Zero3 }
           joint :=
             { id := joint_actuator_id, coefficient := coefficient, axis := axis_of_rotation
               angle := 0, velocity := 0, acceleration := 0 }
           tool := { id := -1, coefficient := 0, on_off := false, value := 0 }
           inertia := { mass := mass, inertia_tensor := inertia_tensor
                        center_of_mass := center_of_mass } } : Component Name)
        (fun w => decide (w.joint.id ≠ -1))
      rw [this]
      simp [hid]
    · simp only [Manipulator.addComponent, Manipulator.active_joint_count, map_insert, if_neg hid,
        if_neg hp, map_place_length]
      refine ⟨?_, trivial⟩
      have := map_place_filter_length self.component_ my_name
        ({ parent := parent_name, child := [child_name]
           relative_to_parent :=
             { position := relative_position, orientation := relative_orientation }
           pose_to_world := { position := Vector3f.Zero, orientation := Matrix3f.Identity }
           origin := { velocity := VectorXf_Zero3, acceleration := VectorXf_Zero3 }
           joint :=
             { id := joint_actuator_id, coefficient := coefficient, axis := axis_of_rotation
               angle := 0, velocity := 0, acceleration := 0 }
           tool := { id := -1, coefficient := 0, on_off := false, value := 0 }
           inertia := { mass := mass, inertia_tensor := inertia_tensor
                        center_of_mass := center_of_mass } } : Component Name)
        (fun w => decide (w.joint.id ≠ -1))
      rw [this]
      simp [hid]
  · intro hsome
    have hp : (map_find self.component_ my_name).isSome = true := by
      cases h : map_find self.component_ my_name with
      | none => exact absurd h hsome
      | some w => rfl
    simp only [Manipulator.addComponent, map_insert]
    by_cases hid : joint_actuator_id ≠ -1
    · simp only [if_pos hid, if_pos hp]
    · simp only [if_neg hid, if_pos hp]

/-- What `addTool` does to the counter, the keys and the counts. -/
theorem Manipulator.addTool_summary (self : Manipulator Name) (my_name parent_name : Name)
    (relative_position : Vector3f) (relative_orientation : Matrix3f) (tool_id : ℤ)
    (coefficient mass : ℚ) (inertia_tensor : Matrix3f) (center_of_mass : Vector3f) :
    (self.addTool my_name parent_name relative_position relative_orientation tool_id coefficient
        mass inertia_tensor center_of_mass).dof_ = self.dof_ ∧
    (∀ x, x ∈ (self.addTool my_name parent_name relative_position relative_orientation tool_id
        coefficient mass inertia_tensor center_of_mass).component_.map Prod.fst
        ↔ x = my_name ∨ x ∈ self.component_.map Prod.fst) ∧
    (map_find self.component_ my_name = none →
      (self.addTool my_name parent_name relative_position relative_orientation tool_id coefficient
        mass inertia_tensor center_of_mass).active_joint_count = self.active_joint_count ∧
      (self.addTool my_name parent_name relative_position relative_orientation tool_id coefficient
        mass inertia_tensor center_of_mass).component_.length = self.component_.length + 1) ∧
    (map_find self.component_ my_name ≠ none →
      (self.addTool my_name parent_name relative_position relative_orientation tool_id coefficient
        mass inertia_tensor center_of_mass).component_ = self.component_) := by
  refine ⟨rfl, ?_, ?_, ?_⟩
  · intro x
    simp only [Manipulator.addTool, map_insert]
    by_cases hp : (map_find self.component_ my_name).isSome = true
    · have hmem : my_name ∈ self.component_.map Prod.fst := by
        by_contra hcon
        rw [(map_find_eq_none _ _).mpr hcon] at hp
        simp at hp
      simp only [if_pos hp]
      constructor
      · intro h; exact Or.inr h
      · rintro (h | h)
        · rw [h]; exact hmem
        · exact h
    · simp only [if_neg hp]
      exact map_place_keys _ _ _ x
  · intro hnone
    have hp : ¬ (map_find self.component_ my_name).isSome = true := by simp [hnone]
    simp only [Manipulator.addTool, Manipulator.active_joint_count, map_insert, if_neg hp,
      map_place_length]
    refine ⟨?_, trivial⟩
    have := map_place_filter_length self.component_ my_name
      ({ parent := parent_name, child := []
         relative_to_parent :=
           { position := relative_position, orientation := relative_orientation }
         pose_to_world := { position := Vector3f.Zero, orientation := Matrix3f.Identity }
         origin := { velocity := VectorXf_Zero3, acceleration := VectorXf_Zero3 }
         joint :=
           { id := -1, coefficient := 0, axis := Vector3f.Zero
             angle := 0, velocity := 0, acceleration := 0 }
         tool := { id := tool_id, coefficient := coefficient, on_off := false, value := 0 }
         inertia := { mass := mass, inertia_tensor := inertia_tensor
                      center_of_mass := center_of_mass } } : Component Name)
      (fun w => decide (w.joint.id ≠ -1))
    rw [this]
    simp
  · intro hsome
    have hp : (map_find self.component_ my_name).isSome = true := by
      cases h : map_find self.component_ my_name with
      | none => exact absurd h hsome
      | some w => rfl
    simp only [Manipulator.addTool, map_insert, if_pos hp]

/-- What one call does to the counter `dof_`. -/
theorem Manipulator.after_dof (self : Manipulator Name) (c : Call Name) :
    (self.after c).dof_
      = if c.is_actuated_addComponent = true then wrap8 (self.dof_ + 1) else self.dof_ := by
  cases hc : c.inserted_name with
  | none =>
    have hfalse : c.is_actuated_addComponent = false := by
      cases c <;> first | rfl | simp [Call.inserted_name] at hc
    rw [hfalse, (Manipulator.after_frame self c hc).1]
    simp
  | some name =>
    cases c with
    | addComponent a b c d e f g h i j k =>
      have := (Manipulator.addComponent_summary self a b c d e f g h i j k).1
      by_cases hid : g ≠ -1
      · simpa [Manipulator.after, Manipulator.call, Call.is_actuated_addComponent, hid] using this
      · simpa [Manipulator.after, Manipulator.call, Call.is_actuated_addComponent, hid] using this
    | addTool a b c d e f g h i => rfl
    | _ => simp [Call.inserted_name] at hc

/-- What one call does to the keys of the component map. -/
theorem Manipulator.after_keys (self : Manipulator Name) (c : Call Name) (x : Name) :
    x ∈ (self.after c).component_.map Prod.fst
      ↔ c.inserted_name = some x ∨ x ∈ self.component_.map Prod.fst := by
  cases hc : c.inserted_name with
  | none =>
    rw [same_ids_keys (Manipulator.after_frame self c hc).2]
    simp
  | some name =>
    cases c with
    | addComponent a b c d e f g h i j k =>
      have := (Manipulator.addComponent_summary self a b c d e f g h i j k).2.1 x
      simp only [Call.inserted_name, Option.some.injEq] at hc
      subst hc
      simpa [Manipulator.after, Manipulator.call, eq_comm] using this
    | addTool a b c d e f g h i =>
      have := (Manipulator.addTool_summary self a b c d e f g h i).2.1 x
      simp only [Call.inserted_name, Option.some.injEq] at hc
      subst hc
      simpa [Manipulator.after, Manipulator.call, eq_comm] using this
    | _ => simp [Call.inserted_name] at hc

/-- What one call does to the number of components with an actuated joint,
when it is not an `addComponent` with an actuated joint id under a present name. -/
theorem Manipulator.after_count (self : Manipulator Name) (c : Call Name)
    (hfresh : c.is_actuated_addComponent = true →
      ∀ name, c.inserted_name = some name → map_find self.component_ name = none) :
    (self.after c).active_joint_count
      = self.active_joint_count + (if c.is_actuated_addComponent = true then 1 else 0) := by
  cases hc : c.inserted_name with
  | none =>
    have hfalse : c.is_actuated_addComponent = false := by
      cases c <;> first | rfl | simp [Call.inserted_name] at hc
    rw [hfalse]
    simpa [Manipulator.active_joint_count] using
      same_ids_count (Manipulator.after_frame self c hc).2
  | some name =>
    cases c with
    | addComponent a b c d e f g h i j k =>
      obtain ⟨-, -, habsent, hpresent⟩ :=
        Manipulator.addComponent_summary self a b c d e f g h i j k
      by_cases hfind : map_find self.component_ a = none
      · have := (habsent hfind).1
        by_cases hid : g ≠ -1
        · simpa [Manipulator.after, Manipulator.call, Call.is_actuated_addComponent, hid] using this
        · simpa [Manipulator.after, Manipulator.call, Call.is_actuated_addComponent, hid] using this
      · have hid : ¬ g ≠ -1 := by
          intro hid
          exact hfind (hfresh (by simp [Call.is_actuated_addComponent, hid]) a rfl)
        have := hpresent hfind
        simp only [Manipulator.after, Manipulator.call, Manipulator.active_joint_count,
          Call.is_actuated_addComponent, this]
        simp [hid]
    | addTool a b c d e f g h i =>
      obtain ⟨-, -, habsent, hpresent⟩ := Manipulator.addTool_summary self a b c d e f g h i
      by_cases hfind : map_find self.component_ a = none
      · simpa [Manipulator.after, Manipulator.call, Call.is_actuated_addComponent] using
          (habsent hfind).1
      · have := hpresent hfind
        simp only [Manipulator.after, Manipulator.call, Manipulator.active_joint_count,
          Call.is_actuated_addComponent, this]
        simp
    | _ => simp [Call.inserted_name] at hc

/-- What one call does to the number of stored components, when it does not
insert under a present name. -/
theorem Manipulator.after_length (self : Manipulator Name) (c : Call Name)
    (hfresh : ∀ name, c.inserted_name = some name → map_find self.component_ name = none) :
    (self.after c).component_.length
      = self.component_.length + (if c.inserted_name.isSome = true then 1 else 0) := by
  cases hc : c.inserted_name with
  | none =>
    have := congrArg List.length (same_ids_keys (Manipulator.after_frame self c hc).2)
    simpa using this
  | some name =>
    cases c with
    | addComponent a b c d e f g h i j k =>
      have := ((Manipulator.addComponent_summary self a b c d e f g h i j k).2.2.1
        (hfresh a rfl)).2
      simpa [Manipulator.after, Manipulator.call] using this
    | addTool a b c d e f g h i =>
      have := ((Manipulator.addTool_summary self a b c d e f g h i).2.2.1 (hfresh a rfl)).2
      simpa [Manipulator.after, Manipulator.call] using this
    | _ => simp [Call.inserted_name] at hc

/-- After any sequence of calls the counter holds, in 8 bits, its old value
plus the number of `addComponent` calls with an actuated joint id. -/
theorem Manipulator.run_dof (calls : List (Call Name)) :
    ∀ self : Manipulator Name,
      wrap8 (self.run calls).dof_
        = wrap8 (self.dof_ + (calls.countP Call.is_actuated_addComponent : ℕ)) := by
  induction calls with
  | nil => intro self; simp [Manipulator.run]
  | cons c rest ih =>
    intro self
    rw [Manipulator.run, ih, Manipulator.after_dof, List.countP_cons]
    by_cases hc : c.is_actuated_addComponent = true
    · simp only [hc, if_true, wrap8]
      push_cast
      omega
    · simp only [hc, if_false]
      simp

/-- The invariant `dof_ = (int8_t) number of components with an actuated joint`
is kept by every sequence of calls in which no `addComponent` with an actuated
joint id reuses a present name. -/
theorem Manipulator.run_invariant (calls : List (Call Name)) :
    ∀ self : Manipulator Name, self.dof_ = wrap8 self.active_joint_count →
      self.no_actuated_reinsertion calls →
      (self.run calls).dof_ = wrap8 (self.run calls).active_joint_count := by
  induction calls with
  | nil => intro self h _; exact h
  | cons c rest ih =>
    intro self hinv hfresh
    obtain ⟨hc, hrest⟩ := hfresh
    rw [Manipulator.run]
    apply ih _ _ hrest
    rw [Manipulator.after_dof, Manipulator.after_count self c hc, hinv]
    by_cases hact : c.is_actuated_addComponent = true
    · simp only [hact, if_true, wrap8]
      push_cast
      omega
    · simp only [hact, if_false]
      simp

/-- Construction calls under pairwise distinct fresh names: every
`addComponent` with an actuated joint id adds one component with an actuated
joint, every `addTool` adds one component without. -/
theorem Manipulator.run_construction (calls : List (Call Name)) :
    ∀ self : Manipulator Name,
      (∀ c ∈ calls, c.is_actuated_addComponent = true ∨ c.is_addTool = true) →
      (calls.filterMap Call.inserted_name).Nodup →
      (∀ name ∈ calls.filterMap Call.inserted_name, map_find self.component_ name = none) →
      (self.run calls).active_joint_count
        = self.active_joint_count + calls.countP Call.is_actuated_addComponent ∧
      (self.run calls).component_.length
        = self.component_.length + calls.countP Call.is_actuated_addComponent
          + calls.countP Call.is_addTool := by
  induction calls with
  | nil => intro self _ _ _; simp [Manipulator.run]
  | cons c rest ih =>
    intro self hkind hnodup hfresh
    have hins : ∃ name, c.inserted_name = some name := by
      rcases hkind c (List.mem_cons_self _ _) with h | h
      · cases c <;> first | exact ⟨_, rfl⟩ | simp [Call.is_actuated_addComponent] at h
      · cases c <;> first | exact ⟨_, rfl⟩ | simp [Call.is_addTool] at h
    obtain ⟨name, hname⟩ := hins
    have hxor : (if c.is_actuated_addComponent = true then 1 else 0)
        + (if c.is_addTool = true then 1 else 0) = 1 := by
      rcases hkind c (List.mem_cons_self _ _) with h | h
      · cases c <;>
          first
          | (simp [Call.is_actuated_addComponent] at h; done)
          | (simp [Call.is_addTool, h])
      · cases c <;>
          first
          | (simp [Call.is_addTool] at h; done)
          | (simp [Call.is_addTool, Call.is_actuated_addComponent])
    rw [List.filterMap_cons, hname] at hnodup hfresh
    simp only [List.nodup_cons] at hnodup
    have hc : ∀ n, c.inserted_name = some n → map_find self.component_ n = none := by
      intro n hn
      rw [hname] at hn
      cases hn
      exact hfresh name (List.mem_cons_self _ _)
    obtain ⟨h1, h2⟩ := ih (self.after c) (fun c' hc' => hkind c' (List.mem_cons_of_mem _ hc'))
      hnodup.2 (by
        intro n hn
        rw [map_find_eq_none, Manipulator.after_keys, hname]
        rintro (h | h)
        · cases h
          exact hnodup.1 hn
        · exact (map_find_eq_none _ _).mp (hfresh n (List.mem_cons_of_mem _ hn)) h)
    rw [Manipulator.run, h1, h2, Manipulator.after_count self c (fun _ => hc),
      Manipulator.after_length self c hc, List.countP_cons, List.countP_cons, hname]
    simp only [Option.isSome_some, if_true]
    constructor <;> omega

/-- A lookup after a placement under another key is the lookup before it. -/
theorem map_find_place_ne {V : Type} (m : List (Name × V)) (name x : Name) (v : V)
    (h : name ≠ x) : map_find (map_place m name v) x = map_find m x := by
  induction m with
  | nil => simp [map_place, map_find, h]
  | cons e rest ih =>
    obtain ⟨k, w⟩ := e
    by_cases hlt : name < k
    · simp [map_place, map_find, hlt, h]
    · by_cases hk : k = x
      · subst hk
        simp [map_place, map_find, hlt]
      · simp [map_place, map_find, hlt, hk, ih]

/-- A lookup of a freshly placed key finds the placed value. -/
theorem map_find_place_self {V : Type} (m : List (Name × V)) (name : Name) (v : V)
    (h : map_find m name = none) : map_find (map_place m name v) name = some v := by
  induction m with
  | nil => simp [map_place, map_find]
  | cons e rest ih =>
    obtain ⟨k, w⟩ := e
    by_cases hk : k = name
    · simp [map_find, hk] at h
    · have hrest : map_find rest name = none := by simpa [map_find, hk] using h
      by_cases hlt : name < k
      · simp [map_place, map_find, hlt]
      · simp [map_place, map_find, hlt, hk, ih hrest]

/-- A lookup after `insert` under another key is the lookup before it. -/
theorem map_find_insert_ne {V : Type} (m : List (Name × V)) (name x : Name) (v : V)
    (h : name ≠ x) : map_find (map_insert m name v) x = map_find m x := by
  unfold map_insert
  split
  · rfl
  · exact map_find_place_ne m name x v h

/-- A lookup of a freshly inserted key finds the inserted value. -/
theorem map_find_insert_self {V : Type} (m : List (Name × V)) (name : Name) (v : V)
    (h : map_find m name = none) : map_find (map_insert m name v) name = some v := by
  simp [map_insert, h, map_find_place_self m name v h]

/-- Every entry of the map after a placement is the placed entry or an entry
of the map before it, and conversely. -/
theorem mem_map_place {V : Type} (m : List (Name × V)) (name : Name) (v : V) (e : Name × V) :
    e ∈ map_place m name v ↔ e = (name, v) ∨ e ∈ m := by
  induction m with
  | nil => simp [map_place]
  | cons e' rest ih =>
    obtain ⟨k, w⟩ := e'
    by_cases hlt : name < k
    · simp [map_place, hlt]
    · simp only [map_place, hlt, if_false, List.mem_cons, ih]
      tauto

/-- Every entry of the map after `insert` is the inserted entry or an entry of
the map before it. -/
theorem mem_map_insert {V : Type} (m : List (Name × V)) (name : Name) (v : V) (e : Name × V)
    (h : e ∈ map_insert m name v) : e = (name, v) ∨ e ∈ m := by
  unfold map_insert at h
  split at h
  · exact Or.inr h
  · exact (mem_map_place m name v e).1 h

/-- A lookup after an assignment through `at`: the assigned value under the
key, the old value elsewhere. -/
theorem map_find_modify {V : Type} (m : List (Name × V)) (name x : Name) (f : V → V) :
    map_find (map_modify m name f) x
      = if x = name then (map_find m x).map f else map_find m x := by
  induction m with
  | nil => simp [map_modify, map_find]
  | cons e rest ih =>
    obtain ⟨k, w⟩ := e
    by_cases hk : k = name
    · by_cases hx : x = name
      · simp [map_modify, map_find, hk, hx]
      · have : ¬ name = x := fun e => hx e.symm
        simp [map_modify, map_find, hk, hx, this]
    · by_cases hx : x = name
      · subst hx
        simp [map_modify, map_find, hk, ih]
      · by_cases hkx : k = x
        · simp [map_modify, map_find, hk, hx, hkx]
        · simp [map_modify, map_find, hk, hx, hkx, ih]

/-- A lookup of a key that no earlier entry carries finds the entry. -/
theorem map_find_append {V : Type} (done rest : List (Name × V)) (k : Name) (c : V)
    (h : k ∉ done.map Prod.fst) : map_find (done ++ (k, c) :: rest) k = some c := by
  induction done with
  | nil => simp [map_find]
  | cons e done ih =>
    obtain ⟨k', w⟩ := e
    have hk : ¬ k' = k := fun e => h (by simp [e])
    have hd : k ∉ done.map Prod.fst := fun hm => h (by simp at hm ⊢; exact Or.inr hm)
    simp [map_find, hk, ih hd]

/-- An assignment through `at` under a key that no earlier entry carries
changes the entry. -/
theorem map_modify_append {V : Type} (done rest : List (Name × V)) (k : Name) (c : V)
    (f : V → V) (h : k ∉ done.map Prod.fst) :
    map_modify (done ++ (k, c) :: rest) k f = done ++ (k, f c) :: rest := by
  induction done with
  | nil => simp [map_modify]
  | cons e done ih =>
    obtain ⟨k', w⟩ := e
    have hk : ¬ k' = k := fun e => h (by simp [e])
    have hd : k ∉ done.map Prod.fst := fun hm => h (by simp at hm ⊢; exact Or.inr hm)
    simp [map_modify, hk, ih hd]

/-- The loop of `setAllActiveJointAngle` on the entries still to visit: when
the angles left in the vector suffice and the index stays within `int8_t`
where it is used, the loop returns, changes only joint angles, and the
actuated joints visited carry the angles `angle_vector[i], ...` in order. -/
theorem Manipulator.setAllActiveJointAngle_loop_returned (angle_vector : List ℚ) :
    ∀ (todo done : List (Name × Component Name)) (index : ℤ) (i : ℕ) (self : Manipulator Name),
      self.component_ = done ++ todo →
      ((done ++ todo).map Prod.fst).Nodup →
      i + (todo.filter (fun p => decide (p.2.joint.id ≠ -1))).length ≤ angle_vector.length →
      ((todo.filter (fun p => decide (p.2.joint.id ≠ -1))).length = 0 ∨
        (index = (i : ℤ) ∧
          i + (todo.filter (fun p => decide (p.2.joint.id ≠ -1))).length ≤ 128)) →
      ∃ todo' : List (Name × Component Name),
        Manipulator.setAllActiveJointAngle_loop angle_vector (todo.map Prod.fst) index self
          = Outcome.returned { self with component_ := done ++ todo' } ∧
        same_ids todo todo' ∧
        (todo'.filter (fun p => decide (p.2.joint.id ≠ -1))).map (fun p => p.2.joint.angle)
          = (angle_vector.drop i).take
              (todo.filter (fun p => decide (p.2.joint.id ≠ -1))).length := by
  intro todo
  induction todo with
  | nil =>
    intro done index i self hself _ _ _
    refine ⟨[], ?_, List.Forall₂.nil, by simp⟩
    simp [Manipulator.setAllActiveJointAngle_loop, ← hself]
  | cons e rest ih =>
    intro done index i self hself hnd hlen hidx
    obtain ⟨k, c⟩ := e
    have hk : k ∉ done.map Prod.fst := by
      intro hm
      rw [List.map_append, List.nodup_append] at hnd
      exact hnd.2.2 hm (by simp)
    have hfind : map_find self.component_ k = some c := by
      rw [hself]; exact map_find_append done rest k c hk
    by_cases hc : c.joint.id = -1
    · have hcount : ((k, c) :: rest).filter (fun p => decide (p.2.joint.id ≠ -1))
          = rest.filter (fun p => decide (p.2.joint.id ≠ -1)) := by
        simp [List.filter_cons, hc]
      rw [hcount] at hlen hidx
      have hsplit : self.component_ = (done ++ [(k, c)]) ++ rest := by simp [hself]
      have hnd' : (((done ++ [(k, c)]) ++ rest).map Prod.fst).Nodup := by simpa using hnd
      obtain ⟨todo', hrun, hids, hang⟩ := ih (done ++ [(k, c)]) index i self hsplit hnd' hlen hidx
      refine ⟨(k, c) :: todo', ?_, List.Forall₂.cons ⟨rfl, rfl, rfl⟩ hids, ?_⟩
      · simp only [List.map_cons, Manipulator.setAllActiveJointAngle_loop, hfind, hc]
        simpa using hrun
      · rw [hcount]
        simpa [List.filter_cons, hc] using hang
    · have hcount : (((k, c) :: rest).filter (fun p => decide (p.2.joint.id ≠ -1))).length
          = (rest.filter (fun p => decide (p.2.joint.id ≠ -1))).length + 1 := by
        simp [List.filter_cons, hc]
      rw [hcount] at hlen hidx
      have hindex : index = (i : ℤ) ∧
          i + ((rest.filter (fun p => decide (p.2.joint.id ≠ -1))).length + 1) ≤ 128 := by
        rcases hidx with h0 | h1
        · omega
        · exact h1
      obtain ⟨hindex, hfit⟩ := hindex
      have hi : i < angle_vector.length := by omega
      have hget : angle_vector[i]? = some angle_vector[i] := List.getElem?_eq_getElem hi
      have hmod : map_modify self.component_ k
            (fun c => { c with joint := { c.joint with angle := angle_vector[i] } })
          = (done ++ [(k, { c with joint := { c.joint with angle := angle_vector[i] } })])
              ++ rest := by
        rw [hself, map_modify_append done rest k c _ hk]; simp
      have hnd' : (((done ++ [(k, { c with joint := { c.joint with angle := angle_vector[i] } })])
          ++ rest).map Prod.fst).Nodup := by simpa using hnd
      have hidx' : (rest.filter (fun p => decide (p.2.joint.id ≠ -1))).length = 0 ∨
          (wrap8 (index + 1) = ((i + 1 : ℕ) : ℤ) ∧
            (i + 1) + (rest.filter (fun p => decide (p.2.joint.id ≠ -1))).length ≤ 128) := by
        by_cases h0 : (rest.filter (fun p => decide (p.2.joint.id ≠ -1))).length = 0
        · exact Or.inl h0
        · refine Or.inr ⟨?_, by omega⟩
          rw [hindex, wrap8_of_range _ (by omega) (by omega)]
          push_cast; ring
      obtain ⟨todo', hrun, hids, hang⟩ := ih
        (done ++ [(k, { c with joint := { c.joint with angle := angle_vector[i] } })])
        (wrap8 (index + 1)) (i + 1)
        { self with
          component_ := map_modify self.component_ k
            (fun c => { c with joint := { c.joint with angle := angle_vector[i] } }) }
        hmod hnd' (by omega) hidx'
      refine ⟨(k, { c with joint := { c.joint with angle := angle_vector[i] } }) :: todo', ?_,
        List.Forall₂.cons ⟨rfl, rfl, rfl⟩ hids, ?_⟩
      · have h0 : (0 : ℤ) ≤ index := by omega
        have htn : index.toNat = i := by omega
        simp only [List.map_cons, Manipulator.setAllActiveJointAngle_loop, hfind, ne_eq, hc,
          not_false_eq_true, if_true, h0, htn, hget]
        simpa using hrun
      · rw [hcount, List.drop_eq_getElem_cons hi, List.take_succ_cons, ← hang]
        simp [List.filter_cons, hc]

/-- The loop of `getAllActiveJointAngle` on the entries still to visit appends
the angles of the actuated joints among them, in order. -/
theorem Manipulator.getAllActiveJointAngle_loop_eq (self : Manipulator Name) :
    ∀ (todo done : List (Name × Component Name)) (result_vector : List ℚ),
      self.component_ = done ++ todo →
      ((done ++ todo).map Prod.fst).Nodup →
      Manipulator.getAllActiveJointAngle_loop self (todo.map Prod.fst) result_vector
        = some (result_vector ++
            (todo.filter (fun p => decide (p.2.joint.id ≠ -1))).map
              (fun p => p.2.joint.angle)) := by
  intro todo
  induction todo with
  | nil => intro done result_vector _ _; simp [Manipulator.getAllActiveJointAngle_loop]
  | cons e rest ih =>
    intro done result_vector hself hnd
    obtain ⟨k, c⟩ := e
    have hk : k ∉ done.map Prod.fst := by
      intro hm
      rw [List.map_append, List.nodup_append] at hnd
      exact hnd.2.2 hm (by simp)
    have hfind : map_find self.component_ k = some c := by
      rw [hself]; exact map_find_append done rest k c hk
    have hsplit : self.component_ = (done ++ [(k, c)]) ++ rest := by simp [hself]
    have hnd' : (((done ++ [(k, c)]) ++ rest).map Prod.fst).Nodup := by simpa using hnd
    by_cases hc : c.joint.id = -1
    · simp only [List.map_cons, Manipulator.getAllActiveJointAngle_loop, hfind, hc]
      simpa [List.filter_cons, hc] using ih (done ++ [(k, c)]) result_vector hsplit hnd'
    · simp only [List.map_cons, Manipulator.getAllActiveJointAngle_loop, hfind, ne_eq, hc,
        not_false_eq_true, if_true]
      simpa [List.filter_cons, hc] using
        ih (done ++ [(k, c)]) (result_vector ++ [c.joint.angle]) hsplit hnd'

/-- `getAllActiveJointAngle` on a well-formed map returns the angles of the
stored components with an actuated joint, in key order. -/
theorem Manipulator.getAllActiveJointAngle_eq (self : Manipulator Name)
    (hnd : (self.component_.map Prod.fst).Nodup) :
    self.getAllActiveJointAngle
      = some ((self.component_.filter (fun p => decide (p.2.joint.id ≠ -1))).map
          (fun p => p.2.joint.angle)) := by
  have h := Manipulator.getAllActiveJointAngle_loop_eq self self.component_ [] [] rfl
    (by simpa using hnd)
  simpa [Manipulator.getAllActiveJointAngle] using h

/-- A placement under an absent key keeps the keys strictly increasing. -/
theorem map_place_sorted {V : Type} (m : List (Name × V)) (name : Name) (v : V)
    (hm : (m.map Prod.fst).Pairwise (fun a b => a < b)) (h : map_find m name = none) :
    ((map_place m name v).map Prod.fst).Pairwise (fun a b => a < b) := by
  induction m with
  | nil => simp [map_place]
  | cons e rest ih =>
    obtain ⟨k, w⟩ := e
    have hk : ¬ k = name := by
      intro hk; simp [map_find, hk] at h
    have hrest : map_find rest name = none := by simpa [map_find, hk] using h
    rw [List.map_cons, List.pairwise_cons] at hm
    by_cases hlt : name < k
    · simp only [map_place, hlt, if_true, List.map_cons, List.pairwise_cons]
      refine ⟨?_, hm⟩
      intro x hx
      rcases List.mem_cons.1 hx with hx | hx
      · rw [hx]; exact hlt
      · exact lt_trans hlt (hm.1 x hx)
    · have hkn : k < name := lt_of_le_of_ne (not_lt.1 hlt) hk
      simp only [map_place, hlt, if_false, List.map_cons, List.pairwise_cons]
      refine ⟨?_, ih hm.2 hrest⟩
      intro x hx
      rcases (map_place_keys rest name v x).1 hx with hx | hx
      · rw [hx]; exact hkn
      · exact hm.1 x hx

/-- `insert` keeps the keys strictly increasing. -/
theorem map_insert_sorted {V : Type} (m : List (Name × V)) (name : Name) (v : V)
    (hm : (m.map Prod.fst).Pairwise (fun a b => a < b)) :
    ((map_insert m name v).map Prod.fst).Pairwise (fun a b => a < b) := by
  unfold map_insert
  cases h : map_find m name with
  | none => simpa using map_place_sorted m name v hm h
  | some w => simpa using hm

/-- The component map after a construction call: the map before it with the
new component inserted under the name of the call. -/
theorem Manipulator.after_construction (self : Manipulator Name) (c : Call Name)
    (name : Name) (hname : c.inserted_name = some name) :
    ∃ w : Component Name, (self.after c).component_ = map_insert self.component_ name w ∧
      w.joint.angle = 0 ∧ (w.joint.id = -1 ∨ w.tool.id = -1) ∧
      w.origin.velocity = VectorXf_Zero3 ∧ w.origin.acceleration = VectorXf_Zero3 := by
  cases c with
  | addComponent my_name parent_name child_name relative_position relative_orientation
      axis_of_rotation joint_actuator_id coefficient mass inertia_tensor center_of_mass =>
    simp only [Call.inserted_name, Option.some.injEq] at hname
    subst hname
    refine ⟨{ parent := parent_name
              child := [child_name]
              relative_to_parent :=
                { position := relative_position, orientation := relative_orientation }
              pose_to_world := { position := Vector3f.Zero, orientation := Matrix3f.Identity }
              origin := { velocity := VectorXf_Zero3, acceleration := VectorXf_Zero3 }
              joint :=
                { id := joint_actuator_id, coefficient := coefficient, axis := axis_of_rotation
                  angle := 0, velocity := 0, acceleration := 0 }
              tool := { id := -1, coefficient := 0, on_off := false, value := 0 }
              inertia :=
                { mass := mass, inertia_tensor := inertia_tensor
                  center_of_mass := center_of_mass } }, ?_, rfl, Or.inr rfl, rfl, rfl⟩
    simp only [Manipulator.after, Manipulator.call, Manipulator.addComponent]
    split <;> rfl
  | addTool my_name parent_name relative_position relative_orientation tool_id coefficient mass
      inertia_tensor center_of_mass =>
    simp only [Call.inserted_name, Option.some.injEq] at hname
    subst hname
    exact ⟨_, rfl, rfl, Or.inl rfl, rfl, rfl⟩
  | _ => simp [Call.inserted_name] at hname

/-- Every call keeps the keys of the component map strictly increasing. -/
theorem Manipulator.after_well_formed (self : Manipulator Name) (c : Call Name)
    (hwf : self.well_formed) : (self.after c).well_formed := by
  unfold Manipulator.well_formed at hwf ⊢
  cases hname : c.inserted_name with
  | none => rw [same_ids_keys (Manipulator.after_frame self c hname).2]; exact hwf
  | some name =>
    obtain ⟨w, hw, -⟩ := Manipulator.after_construction self c name hname
    rw [hw]
    exact map_insert_sorted _ _ _ hwf

/-- Every sequence of calls keeps the keys of the component map strictly
increasing. -/
theorem Manipulator.run_well_formed (calls : List (Call Name)) :
    ∀ self : Manipulator Name, self.well_formed → (self.run calls).well_formed := by
  induction calls with
  | nil => intro self h; exact h
  | cons c rest ih =>
    intro self h
    exact ih _ (Manipulator.after_well_formed self c h)

/-- A freshly constructed Manipulator is well formed. -/
theorem Manipulator.fresh_well_formed (world : World Name) :
    (Manipulator.new world).well_formed := by
  simp [Manipulator.well_formed, Manipulator.new]

/-- Strictly increasing keys are pairwise distinct. -/
theorem Manipulator.well_formed_nodup (self : Manipulator Name) (hwf : self.well_formed) :
    (self.component_.map Prod.fst).Nodup :=
  List.Pairwise.imp (fun h => ne_of_lt h) hwf

/-- After construction calls only, every stored joint angle is the initial 0. -/
theorem Manipulator.run_construction_angle (calls : List (Call Name)) :
    ∀ self : Manipulator Name, (∀ c ∈ calls, c.is_construction = true) →
      (∀ e ∈ self.component_, e.2.joint.angle = 0) →
      ∀ e ∈ (self.run calls).component_, e.2.joint.angle = 0 := by
  induction calls with
  | nil => intro self _ h; exact h
  | cons c rest ih =>
    intro self hc h
    apply ih (self.after c) (fun c' hc' => hc c' (List.mem_cons_of_mem _ hc'))
    have hcc := hc c (List.mem_cons_self _ _)
    cases hname : c.inserted_name with
    | none => cases c <;> simp [Call.is_construction, Call.inserted_name] at hcc hname
    | some name =>
      obtain ⟨w, hw, hangle, -⟩ := Manipulator.after_construction self c name hname
      intro e he
      rw [hw] at he
      rcases mem_map_insert _ _ _ _ he with he | he
      · rw [he]; exact hangle
      · exact h e he

/-- The loop of `setAllActiveJointAngle` with a negative index throws at the
first actuated joint it meets, before any write. -/
theorem Manipulator.setAllActiveJointAngle_loop_negative (angle_vector : List ℚ) :
    ∀ (todo done : List (Name × Component Name)) (index : ℤ) (self : Manipulator Name),
      self.component_ = done ++ todo →
      ((done ++ todo).map Prod.fst).Nodup →
      index < 0 →
      0 < (todo.filter (fun p => decide (p.2.joint.id ≠ -1))).length →
      Manipulator.setAllActiveJointAngle_loop angle_vector (todo.map Prod.fst) index self
        = Outcome.out_of_range self := by
  intro todo
  induction todo with
  | nil => intro done index self _ _ _ h; simp at h
  | cons e rest ih =>
    intro done index self hself hnd hneg hcount
    obtain ⟨k, c⟩ := e
    have hk : k ∉ done.map Prod.fst := by
      intro hm
      rw [List.map_append, List.nodup_append] at hnd
      exact hnd.2.2 hm (by simp)
    have hfind : map_find self.component_ k = some c := by
      rw [hself]; exact map_find_append done rest k c hk
    by_cases hc : c.joint.id = -1
    · have hsplit : self.component_ = (done ++ [(k, c)]) ++ rest := by simp [hself]
      have hnd' : (((done ++ [(k, c)]) ++ rest).map Prod.fst).Nodup := by simpa using hnd
      have hcount' : 0 < (rest.filter (fun p => decide (p.2.joint.id ≠ -1))).length := by
        simpa [List.filter_cons, hc] using hcount
      simp only [List.map_cons, Manipulator.setAllActiveJointAngle_loop, hfind, hc]
      simpa using ih (done ++ [(k, c)]) index self hsplit hnd' hneg hcount'
    · have h0 : ¬ (0 : ℤ) ≤ index := by omega
      simp [Manipulator.setAllActiveJointAngle_loop, hfind, hc, h0]

/-- The loop of `setAllActiveJointAngle` on entries of which more than
`128 - i` have an actuated joint throws: at the latest when the index, an
`int8_t`, has wrapped to `-128`.  The object at the throw has some actuated
joint among the entries in the state it had before. -/
theorem Manipulator.setAllActiveJointAngle_loop_overflow (angle_vector : List ℚ) :
    ∀ (todo done : List (Name × Component Name)) (i : ℕ) (self : Manipulator Name),
      self.component_ = done ++ todo →
      ((done ++ todo).map Prod.fst).Nodup →
      i ≤ 127 →
      129 ≤ i + (todo.filter (fun p => decide (p.2.joint.id ≠ -1))).length →
      ∃ todo' : List (Name × Component Name),
        Manipulator.setAllActiveJointAngle_loop angle_vector (todo.map Prod.fst) (i : ℤ) self
          = Outcome.out_of_range { self with component_ := done ++ todo' } ∧
        same_ids todo todo' ∧
        ∃ e, e ∈ todo ∧ e ∈ todo' ∧ e.2.joint.id ≠ -1 := by
  intro todo
  induction todo with
  | nil => intro done i self _ _ hi h; simp at h; omega
  | cons e rest ih =>
    intro done i self hself hnd hi hcount
    obtain ⟨k, c⟩ := e
    have hk : k ∉ done.map Prod.fst := by
      intro hm
      rw [List.map_append, List.nodup_append] at hnd
      exact hnd.2.2 hm (by simp)
    have hfind : map_find self.component_ k = some c := by
      rw [hself]; exact map_find_append done rest k c hk
    by_cases hc : c.joint.id = -1
    · have hsplit : self.component_ = (done ++ [(k, c)]) ++ rest := by simp [hself]
      have hnd' : (((done ++ [(k, c)]) ++ rest).map Prod.fst).Nodup := by simpa using hnd
      have hcount' : 129 ≤ i + (rest.filter (fun p => decide (p.2.joint.id ≠ -1))).length := by
        simpa [List.filter_cons, hc] using hcount
      obtain ⟨todo', hrun, hids, e, he, he', hactive⟩ :=
        ih (done ++ [(k, c)]) i self hsplit hnd' hi hcount'
      refine ⟨(k, c) :: todo', ?_, List.Forall₂.cons ⟨rfl, rfl, rfl⟩ hids, e,
        List.mem_cons_of_mem _ he, List.mem_cons_of_mem _ he', hactive⟩
      simp only [List.map_cons, Manipulator.setAllActiveJointAngle_loop, hfind, hc]
      simpa using hrun
    · have hlen : (((k, c) :: rest).filter (fun p => decide (p.2.joint.id ≠ -1))).length
          = (rest.filter (fun p => decide (p.2.joint.id ≠ -1))).length + 1 := by
        simp [List.filter_cons, hc]
      rw [hlen] at hcount
      have h0 : (0 : ℤ) ≤ (i : ℤ) := by omega
      cases hget : angle_vector[i]? with
      | none =>
        refine ⟨(k, c) :: rest, ?_, same_ids_refl _, (k, c), List.mem_cons_self _ _,
          List.mem_cons_self _ _, hc⟩
        simp [Manipulator.setAllActiveJointAngle_loop, hfind, hc, hget, ← hself]
      | some a =>
        have hmod : map_modify self.component_ k
              (fun c => { c with joint := { c.joint with angle := a } })
            = (done ++ [(k, { c with joint := { c.joint with angle := a } })]) ++ rest := by
          rw [hself, map_modify_append done rest k c _ hk]; simp
        have hnd' : (((done ++ [(k, { c with joint := { c.joint with angle := a } })])
            ++ rest).map Prod.fst).Nodup := by simpa using hnd
        have hstep : Manipulator.setAllActiveJointAngle_loop angle_vector
              (((k, c) :: rest).map Prod.fst) (i : ℤ) self
            = Manipulator.setAllActiveJointAngle_loop angle_vector (rest.map Prod.fst)
                (wrap8 ((i : ℤ) + 1))
                { self with
                  component_ := map_modify self.component_ k
                    (fun c => { c with joint := { c.joint with angle := a } }) } := by
          simp [Manipulator.setAllActiveJointAngle_loop, hfind, hc, hget]
        by_cases h127 : i = 127
        · have hneg : wrap8 ((i : ℤ) + 1) < 0 := by
            rw [h127]; simp only [wrap8]; omega
          have hpos : 0 < (rest.filter (fun p => decide (p.2.joint.id ≠ -1))).length := by omega
          obtain ⟨e, he⟩ := List.exists_mem_of_length_pos hpos
          have hrun := Manipulator.setAllActiveJointAngle_loop_negative angle_vector rest
            (done ++ [(k, { c with joint := { c.joint with angle := a } })])
            (wrap8 ((i : ℤ) + 1))
            { self with
              component_ := map_modify self.component_ k
                (fun c => { c with joint := { c.joint with angle := a } }) }
            hmod hnd' hneg hpos
          refine ⟨(k, { c with joint := { c.joint with angle := a } }) :: rest, ?_,
            List.Forall₂.cons ⟨rfl, rfl, rfl⟩ (same_ids_refl _), e,
            List.mem_cons_of_mem _ (List.mem_filter.1 he).1,
            List.mem_cons_of_mem _ (List.mem_filter.1 he).1, ?_⟩
          · rw [hstep, hrun, hmod]; simp
          · simpa using (List.mem_filter.1 he).2
        · have hw : wrap8 ((i : ℤ) + 1) = ((i + 1 : ℕ) : ℤ) := by
            rw [wrap8_of_range _ (by omega) (by omega)]; push_cast; ring
          obtain ⟨todo', hrun, hids, e, he, he', hactive⟩ := ih
            (done ++ [(k, { c with joint := { c.joint with angle := a } })]) (i + 1)
            { self with
              component_ := map_modify self.component_ k
                (fun c => { c with joint := { c.joint with angle := a } }) }
            hmod hnd' (by omega) (by omega)
          refine ⟨(k, { c with joint := { c.joint with angle := a } }) :: todo', ?_,
            List.Forall₂.cons ⟨rfl, rfl, rfl⟩ hids, e, List.mem_cons_of_mem _ he,
            List.mem_cons_of_mem _ he', hactive⟩
          rw [hstep, hw, hrun]; simp

/-- The chain of `n` joints: its keys are strictly increasing, it stores `n`
components, all with an actuated joint, and every joint angle is the initial 0. -/
theorem joint_chain_spec (n : ℕ) :
    (joint_chain n).well_formed ∧ (joint_chain n).active_joint_count = n ∧
    (joint_chain n).component_.length = n ∧
    ∀ e ∈ (joint_chain n).component_, e.2.joint.angle = 0 := by
  have hact : ∀ c ∈ (List.range n).map chain_joint, c.is_actuated_addComponent = true := by
    intro c hc
    obtain ⟨i, -, rfl⟩ := List.mem_map.mp hc
    rfl
  have hM : ((List.range n).map chain_joint).countP Call.is_actuated_addComponent = n := by
    rw [List.countP_eq_length.mpr hact]
    simp
  have hK : ((List.range n).map chain_joint).countP Call.is_addTool = 0 := by
    rw [List.countP_eq_zero]
    intro c hc
    obtain ⟨i, -, rfl⟩ := List.mem_map.mp hc
    simp [chain_joint, Call.is_addTool]
  have hnames : (((List.range n).map chain_joint).filterMap Call.inserted_name).Nodup := by
    have : ((List.range n).map chain_joint).filterMap Call.inserted_name
        = (List.range n).map (fun i => i + 1) := by
      rw [List.filterMap_map]
      show List.filterMap (some ∘ fun i => i + 1) (List.range n) = _
      rw [List.filterMap_eq_map]
    rw [this]
    exact (List.nodup_range n).map (fun a b h => by simpa using h)
  obtain ⟨h1, h2⟩ := Manipulator.run_construction ((List.range n).map chain_joint)
    (Manipulator.new example_world) (fun c hc => Or.inl (hact c hc)) hnames
    (fun name _ => rfl)
  refine ⟨Manipulator.run_well_formed _ _ (Manipulator.fresh_well_formed _), ?_, ?_, ?_⟩
  · rw [joint_chain, h1, hM]; simp [Manipulator.new, Manipulator.active_joint_count]
  · rw [joint_chain, h2, hM, hK]; simp [Manipulator.new]
  · refine Manipulator.run_construction_angle _ _ ?_ ?_
    · intro c hc
      obtain ⟨i, -, rfl⟩ := List.mem_map.mp hc
      rfl
    · intro e he
      simp [Manipulator.new] at he

/-- The component map after `addComponent`: the map before it with the new
component inserted under `my_name`. -/
theorem Manipulator.addComponent_component_ (self : Manipulator Name)
    (my_name parent_name child_name : Name) (relative_position : Vector3f)
    (relative_orientation : Matrix3f) (axis_of_rotation : Vector3f) (joint_actuator_id : ℤ)
    (coefficient mass : ℚ) (inertia_tensor : Matrix3f) (center_of_mass : Vector3f) :
    (self.addComponent my_name parent_name child_name relative_position relative_orientation
        axis_of_rotation joint_actuator_id coefficient mass inertia_tensor
        center_of_mass).component_
      = map_insert self.component_ my_name
          { parent := parent_name
            child := [child_name]
            relative_to_parent :=
              { position := relative_position, orientation := relative_orientation }
            pose_to_world := { position := Vector3f.Zero, orientation := Matrix3f.Identity }
            origin := { velocity := VectorXf_Zero3, acceleration := VectorXf_Zero3 }
            joint :=
              { id := joint_actuator_id, coefficient := coefficient, axis := axis_of_rotation
                angle := 0, velocity := 0, acceleration := 0 }
            tool := { id := -1, coefficient := 0, on_off := false, value := 0 }
            inertia :=
              { mass := mass, inertia_tensor := inertia_tensor
                center_of_mass := center_of_mass } } := by
  simp only [Manipulator.addComponent]
  split <;> rfl

/-- `addComponentChild` on a present name returns and appends the child name
to the child list of the component. -/
theorem Manipulator.addComponentChild_returned (self : Manipulator Name)
    (my_name child_name : Name) (p : Component Name)
    (h : map_find self.component_ my_name = some p) :
    ∃ s : Manipulator Name,
      self.addComponentChild my_name child_name = Outcome.returned s ∧
      s.getComponentChildName my_name = some (p.child ++ [child_name]) := by
  refine ⟨{ self with
            component_ := map_modify self.component_ my_name
              (fun c => { c with child := c.child ++ [child_name] }) }, ?_, ?_⟩
  · simp only [Manipulator.addComponentChild, h]
  · simp [Manipulator.getComponentChildName, map_find_modify, h]

/-- Every entry of a map with the same ids has its joint id and its tool id
from an entry of the other map. -/
theorem same_ids_mem {N : Type} {m m' : List (N × Component N)} (h : same_ids m m')
    (e' : N × Component N) (he' : e' ∈ m') :
    ∃ e ∈ m, e'.2.joint.id = e.2.joint.id ∧ e'.2.tool.id = e.2.tool.id := by
  induction h with
  | nil => simp at he'
  | @cons a b l l' hab _ ih =>
    rcases List.mem_cons.1 he' with he' | he'
    · exact ⟨a, List.mem_cons_self _ _, by rw [he']; exact hab.2.1, by rw [he']; exact hab.2.2⟩
    · obtain ⟨e, he, h1, h2⟩ := ih he'
      exact ⟨e, List.mem_cons_of_mem _ he, h1, h2⟩

/-- A value found under a key is the value of an entry of the map. -/
theorem map_find_mem {V : Type} (m : List (Name × V)) (name : Name) (v : V)
    (h : map_find m name = some v) : (name, v) ∈ m := by
  induction m with
  | nil => simp [map_find] at h
  | cons e rest ih =>
    obtain ⟨k, w⟩ := e
    by_cases hk : k = name
    · simp only [map_find, hk, if_true, Option.some.injEq] at h
      simp [hk, h]
    · simp only [map_find, hk, if_false] at h
      exact List.mem_cons_of_mem _ (ih h)

/-- One call keeps the components exclusive: none has both a joint id and a
tool id other than `-1`. -/
theorem Manipulator.after_exclusive (self : Manipulator Name) (c : Call Name)
    (h : ∀ e ∈ self.component_, ¬ (e.2.joint.id ≠ -1 ∧ e.2.tool.id ≠ -1)) :
    ∀ e ∈ (self.after c).component_, ¬ (e.2.joint.id ≠ -1 ∧ e.2.tool.id ≠ -1) := by
  intro e he
  cases hname : c.inserted_name with
  | none =>
    obtain ⟨e₀, he₀, h1, h2⟩ := same_ids_mem (Manipulator.after_frame self c hname).2 e he
    rw [h1, h2]
    exact h e₀ he₀
  | some name =>
    obtain ⟨w, hw, -, hex, -⟩ := Manipulator.after_construction self c name hname
    rw [hw] at he
    rcases mem_map_insert _ _ _ _ he with he | he
    · rw [he]
      rcases hex with hj | ht
      · exact fun hboth => hboth.1 hj
      · exact fun hboth => hboth.2 ht
    · exact h e he

/-- Every sequence of calls keeps the components exclusive. -/
theorem Manipulator.run_exclusive (calls : List (Call Name)) :
    ∀ self : Manipulator Name,
      (∀ e ∈ self.component_, ¬ (e.2.joint.id ≠ -1 ∧ e.2.tool.id ≠ -1)) →
      ∀ e ∈ (self.run calls).component_, ¬ (e.2.joint.id ≠ -1 ∧ e.2.tool.id ≠ -1) := by
  induction calls with
  | nil => intro self h; exact h
  | cons c rest ih =>
    intro self h
    exact ih _ (Manipulator.after_exclusive self c h)

/-- The tool setters on a stored component: with a tool id greater than 0 the
value and the flag written are read back; with a tool id of 0 or less both
setters leave the object as it was and `setComponentJointAngle` stores the
angle.  Hence the value read back is `v` exactly when the tool id is greater
than 0 or `v` is the value already stored, and likewise for the flag.  For a
component added by `addTool` under a fresh name the stored tool id is the
`tool_id` of that call, the stored value 0, the flag `false`, the angle 0. -/
theorem Manipulator.tool_setters_stored (self : Manipulator Name)
    (name : Name) (c : Component Name) (v angle : ℚ) (f : Bool)
    (hc : map_find self.component_ name = some c) :
    (0 < c.tool.id →
      (∃ s : Manipulator Name, self.setComponentToolValue name v = Outcome.returned s ∧
        s.getComponentToolValue name = some v) ∧
      (∃ s : Manipulator Name, self.setComponentToolOnOff name f = Outcome.returned s ∧
        s.getComponentToolOnOff name = some f)) ∧
    (c.tool.id ≤ 0 →
      self.setComponentToolValue name v = Outcome.returned self ∧
      self.setComponentToolOnOff name f = Outcome.returned self ∧
      self.getComponentToolValue name = some c.tool.value ∧
      self.getComponentToolOnOff name = some c.tool.on_off ∧
      ∃ s : Manipulator Name, self.setComponentJointAngle name angle = Outcome.returned s ∧
        s.getComponentJointAngle name = some angle) ∧
    ((∃ s : Manipulator Name, self.setComponentToolValue name v = Outcome.returned s ∧
        s.getComponentToolValue name = some v) ↔ (0 < c.tool.id ∨ v = c.tool.value)) ∧
    ((∃ s : Manipulator Name, self.setComponentToolOnOff name f = Outcome.returned s ∧
        s.getComponentToolOnOff name = some f) ↔ (0 < c.tool.id ∨ f = c.tool.on_off)) ∧
    ∀ (base : Manipulator Name) (parent_name : Name) (relative_position : Vector3f)
      (relative_orientation : Matrix3f) (tool_id : ℤ) (coefficient mass : ℚ)
      (inertia_tensor : Matrix3f) (center_of_mass : Vector3f),
      map_find base.component_ name = none →
      self = base.addTool name parent_name relative_position relative_orientation tool_id
        coefficient mass inertia_tensor center_of_mass →
      c.tool.id = tool_id ∧ c.tool.value = 0 ∧ c.tool.on_off = false ∧ c.joint.angle = 0 := by
  have hsome : (map_find self.component_ name).isSome = true := by rw [hc]; rfl
  have hpos : 0 < c.tool.id →
      (∃ s : Manipulator Name, self.setComponentToolValue name v = Outcome.returned s ∧
        s.getComponentToolValue name = some v) ∧
      (∃ s : Manipulator Name, self.setComponentToolOnOff name f = Outcome.returned s ∧
        s.getComponentToolOnOff name = some f) := by
    intro hid
    constructor
    · refine ⟨{ self with
                component_ := map_modify self.component_ name
                  (fun c => { c with tool := { c.tool with value := v } }) }, ?_, ?_⟩
      · simp [Manipulator.setComponentToolValue, hc, hid]
      · simp [Manipulator.getComponentToolValue, map_find_modify, hc]
    · refine ⟨{ self with
                component_ := map_modify self.component_ name
                  (fun c => { c with tool := { c.tool with on_off := f } }) }, ?_, ?_⟩
      · simp [Manipulator.setComponentToolOnOff, hc, hid]
      · simp [Manipulator.getComponentToolOnOff, map_find_modify, hc]
  have hv : c.tool.id ≤ 0 → self.setComponentToolValue name v = Outcome.returned self := by
    intro hid
    have : ¬ c.tool.id > 0 := by omega
    simp [Manipulator.setComponentToolValue, hc, this]
  have hf : c.tool.id ≤ 0 → self.setComponentToolOnOff name f = Outcome.returned self := by
    intro hid
    have : ¬ c.tool.id > 0 := by omega
    simp [Manipulator.setComponentToolOnOff, hc, this]
  have hgv : self.getComponentToolValue name = some c.tool.value := by
    simp [Manipulator.getComponentToolValue, hc]
  have hgf : self.getComponentToolOnOff name = some c.tool.on_off := by
    simp [Manipulator.getComponentToolOnOff, hc]
  refine ⟨hpos, ?_, ?_, ?_, ?_⟩
  · intro hid
    refine ⟨hv hid, hf hid, hgv, hgf, ?_⟩
    refine ⟨{ self with
              component_ := map_modify self.component_ name
                (fun c => { c with joint := { c.joint with angle := angle } }) }, ?_, ?_⟩
    · have : ¬ c.tool.id > 0 := by omega
      simp [Manipulator.setComponentJointAngle, hc, this]
    · simp [Manipulator.getComponentJointAngle, map_find_modify, hc]
  · constructor
    · rintro ⟨s, hs, hget⟩
      by_cases hid : 0 < c.tool.id
      · exact Or.inl hid
      · right
        rw [hv (by omega)] at hs
        rw [← Outcome.returned.inj hs, hgv] at hget
        exact (Option.some.inj hget).symm
    · rintro (hid | hval)
      · exact (hpos hid).1
      · by_cases hid : 0 < c.tool.id
        · exact (hpos hid).1
        · exact ⟨self, hv (by omega), by rw [hgv, hval]⟩
  · constructor
    · rintro ⟨s, hs, hget⟩
      by_cases hid : 0 < c.tool.id
      · exact Or.inl hid
      · right
        rw [hf (by omega)] at hs
        rw [← Outcome.returned.inj hs, hgf] at hget
        exact (Option.some.inj hget).symm
    · rintro (hid | hval)
      · exact (hpos hid).2
      · by_cases hid : 0 < c.tool.id
        · exact (hpos hid).2
        · exact ⟨self, hf (by omega), by rw [hgf, hval]⟩
  · intro base parent_name relative_position relative_orientation tool_id coefficient mass
      inertia_tensor center_of_mass hfresh hself
    subst hself
    simp only [Manipulator.addTool] at hc
    rw [map_find_insert_self _ _ _ hfresh] at hc
    injection hc with hc
    rw [← hc]
    exact ⟨rfl, rfl, rfl, rfl⟩

end manipulator_lemmas

/-- Start boundary in exact arithmetic.  For every well-formed trajectory object, every vector
of start and goal triples on which `init` runs to its end (`start` no longer
than `goal` and than the DOF count, in particular both of length DOF), every
`move_time` and `control_time` and every degree of freedom `i` that has a start
and a goal triple, `init` returns normally with a column `i` whose first three
coefficients are `c0 = p0`, `c1 = v0`, `c2 = 0.5 * a0`, and `getPosition(0)`,
`getVelocity(0)`, `getAcceleration(0)` yield `p0`, `v0`, `a0` for that degree
of freedom; the same holds for the single solve of `calcCoefficient`. -/
theorem start_boundary_exact (solve_singular : SingularSolve)
    (self : JointTrajectory) (start goal : List Trajectory)
    (move_time control_time : ℚ) (i : ℕ) (s g : Trajectory)
    (hwf : self.well_formed) (hs : start.length ≤ goal.length)
    (hn : start.length ≤ self.joint_num_)
    (his : start[i]? = some s) (hig : goal[i]? = some g) :
    (∃ (t tp tv ta : JointTrajectory) (c : Vector6f),
      self.init solve_singular start goal move_time control_time = Outcome.returned t ∧
      t.coefficient_[i]? = some c ∧
      c.c0 = s.position ∧ c.c1 = s.velocity ∧ c.c2 = 0.5 * s.acceleration ∧
      t.getPosition 0 = Outcome.returned tp ∧ tp.position_[i]? = some s.position ∧
      t.getVelocity 0 = Outcome.returned tv ∧ tv.velocity_[i]? = some s.velocity ∧
      t.getAcceleration 0 = Outcome.returned ta ∧ ta.acceleration_[i]? = some s.acceleration) ∧
    (self.trajectory_generator_.calcCoefficient solve_singular s g move_time
        control_time).getCoefficient.c0
      = s.position ∧
    (self.trajectory_generator_.calcCoefficient solve_singular s g move_time
        control_time).getCoefficient.c1
      = s.velocity ∧
    (self.trajectory_generator_.calcCoefficient solve_singular s g move_time
        control_time).getCoefficient.c2
      = 0.5 * s.acceleration := by
  refine ⟨?_, by rw [calcCoefficient_coefficient], by rw [calcCoefficient_coefficient],
    by rw [calcCoefficient_coefficient]⟩
  obtain ⟨t, ht, htwf, -, hcol, -⟩ :=
    JointTrajectory.init_returned_of_le solve_singular self hwf start goal hs hn move_time
      control_time
  obtain ⟨hp, hv, ha⟩ := JointTrajectory.getPosition_returned t htwf 0
  obtain ⟨e0, e1, e2⟩ := calcCoefficient_start solve_singular MinimumJerk.new s g move_time
      control_time
  refine ⟨t, _, _, _, _, ht, hcol i s g his hig,
    by rw [isolated_solve, calcCoefficient_coefficient],
    by rw [isolated_solve, calcCoefficient_coefficient],
    by rw [isolated_solve, calcCoefficient_coefficient], hp, ?_, hv, ?_, ha, ?_⟩
  · simp [List.getElem?_map, hcol i s g his hig, isolated_solve, e0]
  · simp [List.getElem?_map, hcol i s g his hig, isolated_solve, e1]
  · simp [List.getElem?_map, hcol i s g his hig, isolated_solve, e2]

/-- Example of the start boundary in exact arithmetic: two degrees of freedom,
the second one starting at `(1, 2, 3)`. -/
theorem start_boundary_exact_example :
    (JointTrajectory.new 2).well_formed ∧
    ([⟨0, 0, 0⟩, ⟨1, 2, 3⟩] : List Trajectory).length
      ≤ ([⟨10, 0, 0⟩, ⟨4, 5, 6⟩] : List Trajectory).length ∧
    ([⟨0, 0, 0⟩, ⟨1, 2, 3⟩] : List Trajectory).length ≤ (JointTrajectory.new 2).joint_num_ ∧
    ((∃ (t tp tv ta : JointTrajectory) (c : Vector6f),
      (JointTrajectory.new 2).init solve_singular_zero [⟨0, 0, 0⟩, ⟨1, 2, 3⟩]
          [⟨10, 0, 0⟩, ⟨4, 5, 6⟩] 2 (1 / 10)
        = Outcome.returned t ∧
      t.coefficient_[1]? = some c ∧
      c.c0 = (1 : ℚ) ∧ c.c1 = (2 : ℚ) ∧ c.c2 = 0.5 * (3 : ℚ) ∧
      t.getPosition 0 = Outcome.returned tp ∧ tp.position_[1]? = some (1 : ℚ) ∧
      t.getVelocity 0 = Outcome.returned tv ∧ tv.velocity_[1]? = some (2 : ℚ) ∧
      t.getAcceleration 0 = Outcome.returned ta ∧ ta.acceleration_[1]? = some (3 : ℚ)) ∧
    ((JointTrajectory.new 2).trajectory_generator_.calcCoefficient solve_singular_zero ⟨1, 2, 3⟩
        ⟨4, 5, 6⟩ 2
      (1 / 10)).getCoefficient.c0 = (1 : ℚ) ∧
    ((JointTrajectory.new 2).trajectory_generator_.calcCoefficient solve_singular_zero ⟨1, 2, 3⟩
        ⟨4, 5, 6⟩ 2
      (1 / 10)).getCoefficient.c1 = (2 : ℚ) ∧
    ((JointTrajectory.new 2).trajectory_generator_.calcCoefficient solve_singular_zero ⟨1, 2, 3⟩
        ⟨4, 5, 6⟩ 2
      (1 / 10)).getCoefficient.c2 = 0.5 * (3 : ℚ)) :=
  ⟨JointTrajectory.new_well_formed 2, by decide, by decide,
    start_boundary_exact solve_singular_zero (JointTrajectory.new 2) [⟨0, 0, 0⟩, ⟨1, 2, 3⟩]
        [⟨10, 0, 0⟩, ⟨4, 5, 6⟩] 2
      (1 / 10) 1 ⟨1, 2, 3⟩ ⟨4, 5, 6⟩ (JointTrajectory.new_well_formed 2) (by decide) (by decide)
      rfl rfl⟩

/-- Step quantization in exact arithmetic.  For every `move_time > 0` and
`control_time > 0` whose tick count `floor(move_time / control_time) + 1` fits
the 16-bit unsigned integer (`floor(move_time / control_time) < 65535`),
`calcCoefficient` computes `steps = floor(move_time / control_time) + 1` and
uses `(steps - 1) * control_time = floor(move_time / control_time) * control_time`
as the time variable `T` of the linear system whose solution gives the
coefficients of degree 3 to 5. -/
theorem step_quantization_exact (solve_singular : SingularSolve)
    (self : MinimumJerk) (start goal : Trajectory)
    (move_time control_time : ℚ) (hmove : 0 < move_time) (hcontrol : 0 < control_time)
    (hfit : ⌊move_time / control_time⌋ < 65535) :
    step_time move_time control_time = ⌊move_time / control_time⌋ + 1 ∧
    quantized_move_time move_time control_time
      = ((step_time move_time control_time - 1 : ℤ) : ℚ) * control_time ∧
    quantized_move_time move_time control_time = (⌊move_time / control_time⌋ : ℚ) * control_time ∧
    (self.calcCoefficient solve_singular start goal move_time control_time).getCoefficient
      = ⟨start.position, start.velocity, 0.5 * start.acceleration,
          (ColPivHouseholderQR_solve solve_singular
            (calcCoefficient_A ((⌊move_time / control_time⌋ : ℚ) * control_time))
            (calcCoefficient_b start goal ((⌊move_time / control_time⌋ : ℚ) * control_time))).x,
          (ColPivHouseholderQR_solve solve_singular
            (calcCoefficient_A ((⌊move_time / control_time⌋ : ℚ) * control_time))
            (calcCoefficient_b start goal ((⌊move_time / control_time⌋ : ℚ) * control_time))).y,
          (ColPivHouseholderQR_solve solve_singular
            (calcCoefficient_A ((⌊move_time / control_time⌋ : ℚ) * control_time))
            (calcCoefficient_b start goal
              ((⌊move_time / control_time⌋ : ℚ) * control_time))).z⟩ := by
  have hstep := step_time_eq move_time control_time hmove hcontrol hfit
  have hT : quantized_move_time move_time control_time
      = (⌊move_time / control_time⌋ : ℚ) * control_time := by
    rw [quantized_move_time, hstep]
    simp
  refine ⟨hstep, rfl, hT, ?_⟩
  rw [calcCoefficient_coefficient, hT]

/-- Example of the step quantization in exact arithmetic: `move_time = 2`, `control_time = 1/10`. -/
theorem step_quantization_exact_example :
    (0 : ℚ) < 2 ∧ (0 : ℚ) < 1 / 10 ∧ ⌊(2 : ℚ) / (1 / 10)⌋ < 65535 ∧
    (step_time 2 (1 / 10) = ⌊(2 : ℚ) / (1 / 10)⌋ + 1 ∧
    quantized_move_time 2 (1 / 10) = ((step_time 2 (1 / 10) - 1 : ℤ) : ℚ) * (1 / 10) ∧
    quantized_move_time 2 (1 / 10) = (⌊(2 : ℚ) / (1 / 10)⌋ : ℚ) * (1 / 10) ∧
    isolated_solve solve_singular_zero ⟨0, 0, 0⟩ ⟨10, 0, 0⟩ 2 (1 / 10)
      = ⟨(0 : ℚ), (0 : ℚ), 0.5 * (0 : ℚ),
          (ColPivHouseholderQR_solve solve_singular_zero
            (calcCoefficient_A ((⌊(2 : ℚ) / (1 / 10)⌋ : ℚ) * (1 / 10)))
            (calcCoefficient_b ⟨0, 0, 0⟩ ⟨10, 0, 0⟩ ((⌊(2 : ℚ) / (1 / 10)⌋ : ℚ) * (1 / 10)))).x,
          (ColPivHouseholderQR_solve solve_singular_zero
            (calcCoefficient_A ((⌊(2 : ℚ) / (1 / 10)⌋ : ℚ) * (1 / 10)))
            (calcCoefficient_b ⟨0, 0, 0⟩ ⟨10, 0, 0⟩ ((⌊(2 : ℚ) / (1 / 10)⌋ : ℚ) * (1 / 10)))).y,
          (ColPivHouseholderQR_solve solve_singular_zero
            (calcCoefficient_A ((⌊(2 : ℚ) / (1 / 10)⌋ : ℚ) * (1 / 10)))
            (calcCoefficient_b ⟨0, 0, 0⟩ ⟨10, 0, 0⟩ ((⌊(2 : ℚ) / (1 / 10)⌋ : ℚ) * (1 / 10)))).z⟩) :=
  ⟨by norm_num, by norm_num, by norm_num,
    step_quantization_exact solve_singular_zero MinimumJerk.new ⟨0, 0, 0⟩ ⟨10, 0, 0⟩ 2 (1 / 10)
        (by norm_num)
      (by norm_num) (by norm_num)⟩

/-- The 16-bit tick count in exact arithmetic: for `move_time = 65535 > 0` and
`control_time = 1 > 0` the value `floor(move_time / control_time) + 1 = 65536`
does not fit the 16-bit tick count, which holds 0; the time variable used is
`(0 - 1) * 1 = -1`, not `floor(move_time / control_time) * control_time = 65535`. -/
theorem step_time_wraps_exact :
    (0 : ℚ) < 65535 ∧ (0 : ℚ) < 1 ∧
    ⌊(65535 : ℚ) / 1⌋ + 1 = 65536 ∧ step_time 65535 1 = 0 ∧
    step_time 65535 1 ≠ ⌊(65535 : ℚ) / 1⌋ + 1 ∧
    quantized_move_time 65535 1 = -1 ∧
    quantized_move_time 65535 1 ≠ (⌊(65535 : ℚ) / 1⌋ : ℚ) * 1 := by
  have hfloor : ⌊(65535 : ℚ) / 1⌋ = 65535 := by norm_num
  have hstep : step_time 65535 1 = 0 := by rw [step_time, hfloor]; norm_num
  have hT : quantized_move_time 65535 1 = -1 := by rw [quantized_move_time, hstep]; norm_num
  refine ⟨by norm_num, by norm_num, by rw [hfloor]; norm_num, hstep, ?_, hT, ?_⟩
  · rw [hstep, hfloor]; norm_num
  · rw [hT, hfloor]; norm_num

/-! # The claims -/

/-- C1 (as amended): terminal boundary in exact arithmetic.  For every
well-formed trajectory object, every vector of start and goal triples on which
`init` runs to its end (`start` no longer than `goal` and than the DOF count,
in particular both of length DOF), every `move_time` and `control_time` (in
particular all positive ones) whose quantized terminal time
`(steps - 1) * control_time` is not zero, `init` returns normally and
`getPosition`, `getVelocity`, `getAcceleration` at the quantized terminal time
yield exactly the goal position, velocity and acceleration of every degree of
freedom `i` that has a start and a goal triple; the same holds for the single
solve of `calcCoefficient`.  By `quantized_move_time_ne_zero` the quantized
time is not zero whenever `0 < control_time <= move_time` and
`floor(move_time / control_time) < 65535`. -/
theorem C1_terminal_boundary (solve_singular : SingularSolve)
    (self : JointTrajectory) (start goal : List Trajectory)
    (move_time control_time : ℚ) (i : ℕ) (s g : Trajectory)
    (hwf : self.well_formed) (hs : start.length ≤ goal.length)
    (hn : start.length ≤ self.joint_num_)
    (hT : quantized_move_time move_time control_time ≠ 0)
    (his : start[i]? = some s) (hig : goal[i]? = some g) :
    (∃ t tp tv ta : JointTrajectory,
      self.init solve_singular start goal move_time control_time = Outcome.returned t ∧
      t.getPosition (quantized_move_time move_time control_time) = Outcome.returned tp ∧
      tp.position_[i]? = some g.position ∧
      t.getVelocity (quantized_move_time move_time control_time) = Outcome.returned tv ∧
      tv.velocity_[i]? = some g.velocity ∧
      t.getAcceleration (quantized_move_time move_time control_time) = Outcome.returned ta ∧
      ta.acceleration_[i]? = some g.acceleration) ∧
    position_result (self.trajectory_generator_.calcCoefficient solve_singular s g move_time
        control_time).getCoefficient
        (quantized_move_time move_time control_time) = g.position ∧
    velocity_result (self.trajectory_generator_.calcCoefficient solve_singular s g move_time
        control_time).getCoefficient
        (quantized_move_time move_time control_time) = g.velocity ∧
    acceleration_result
        (self.trajectory_generator_.calcCoefficient solve_singular s g move_time
            control_time).getCoefficient
        (quantized_move_time move_time control_time) = g.acceleration := by
  refine ⟨?_, calcCoefficient_terminal solve_singular _ s g move_time control_time hT⟩
  obtain ⟨t, ht, htwf, -, hcol, -⟩ :=
    JointTrajectory.init_returned_of_le solve_singular self hwf start goal hs hn move_time
      control_time
  obtain ⟨hp, hv, ha⟩ :=
    JointTrajectory.getPosition_returned t htwf (quantized_move_time move_time control_time)
  obtain ⟨e0, e1, e2⟩ := calcCoefficient_terminal solve_singular MinimumJerk.new s g move_time
      control_time hT
  refine ⟨t, _, _, _, ht, hp, ?_, hv, ?_, ha, ?_⟩
  · simp [List.getElem?_map, hcol i s g his hig, isolated_solve, e0]
  · simp [List.getElem?_map, hcol i s g his hig, isolated_solve, e1]
  · simp [List.getElem?_map, hcol i s g his hig, isolated_solve, e2]

/-- Witness of C1: one degree of freedom from rest at 0 to rest at 10 in
`move_time = 2` with `control_time = 1/10`. -/
theorem C1_terminal_boundary_witness :
    (JointTrajectory.new 1).well_formed ∧
    ([⟨0, 0, 0⟩] : List Trajectory).length ≤ ([⟨10, 0, 0⟩] : List Trajectory).length ∧
    ([⟨0, 0, 0⟩] : List Trajectory).length ≤ (JointTrajectory.new 1).joint_num_ ∧
    quantized_move_time 2 (1 / 10) ≠ 0 ∧
    ((∃ t tp tv ta : JointTrajectory,
      (JointTrajectory.new 1).init solve_singular_zero [⟨0, 0, 0⟩] [⟨10, 0, 0⟩] 2 (1 / 10) =
          Outcome.returned t ∧
      t.getPosition (quantized_move_time 2 (1 / 10)) = Outcome.returned tp ∧
      tp.position_[0]? = some (10 : ℚ) ∧
      t.getVelocity (quantized_move_time 2 (1 / 10)) = Outcome.returned tv ∧
      tv.velocity_[0]? = some (0 : ℚ) ∧
      t.getAcceleration (quantized_move_time 2 (1 / 10)) = Outcome.returned ta ∧
      ta.acceleration_[0]? = some (0 : ℚ)) ∧
    position_result ((JointTrajectory.new 1).trajectory_generator_.calcCoefficient
        solve_singular_zero
        ⟨0, 0, 0⟩ ⟨10, 0, 0⟩ 2 (1 / 10)).getCoefficient (quantized_move_time 2 (1 / 10)) = 10 ∧
    velocity_result ((JointTrajectory.new 1).trajectory_generator_.calcCoefficient
        solve_singular_zero
        ⟨0, 0, 0⟩ ⟨10, 0, 0⟩ 2 (1 / 10)).getCoefficient (quantized_move_time 2 (1 / 10)) = 0 ∧
    acceleration_result ((JointTrajectory.new 1).trajectory_generator_.calcCoefficient
        solve_singular_zero
        ⟨0, 0, 0⟩ ⟨10, 0, 0⟩ 2 (1 / 10)).getCoefficient (quantized_move_time 2 (1 / 10)) = 0) :=
  ⟨JointTrajectory.new_well_formed 1, by decide, by decide,
    by norm_num [quantized_move_time, step_time],
    C1_terminal_boundary solve_singular_zero (JointTrajectory.new 1) [⟨0, 0, 0⟩] [⟨10, 0, 0⟩] 2
      (1 / 10) 0 ⟨0, 0, 0⟩ ⟨10, 0, 0⟩ (JointTrajectory.new_well_formed 1) (by decide) (by decide)
      (by norm_num [quantized_move_time, step_time]) rfl rfl⟩

/-- Counterexample to C1 as stated: for `move_time = 1/20 > 0` and
`control_time = 1/10 > 0` the tick count is 1, the quantized terminal time is 0
and the system matrix is the zero matrix.  Whatever `solve` returns on it, the
trajectory initialised from rest at 0 towards the goal position 10 evaluates to
position 0, not 10, at the quantized terminal time: at time 0 the position is
the coefficient `c0`, the start position. -/
theorem C1_counterexample :
    (0 : ℚ) < 1 / 20 ∧ (0 : ℚ) < 1 / 10 ∧
    step_time (1 / 20) (1 / 10) = 1 ∧ quantized_move_time (1 / 20) (1 / 10) = 0 ∧
    calcCoefficient_A (quantized_move_time (1 / 20) (1 / 10)) = Matrix3f.Zero ∧
    (∀ solve_singular : SingularSolve, ∃ t tp : JointTrajectory,
      (JointTrajectory.new 1).init solve_singular [⟨0, 0, 0⟩] [⟨10, 0, 0⟩] (1 / 20) (1 / 10)
        = Outcome.returned t ∧
      t.getPosition (quantized_move_time (1 / 20) (1 / 10)) = Outcome.returned tp ∧
      tp.position_ = [0]) ∧
    (0 : ℚ) ≠ 10 := by
  have hstep : step_time (1 / 20) (1 / 10) = 1 := by norm_num [step_time]
  have hT : quantized_move_time (1 / 20) (1 / 10) = 0 := by
    rw [quantized_move_time, hstep]; norm_num
  refine ⟨by norm_num, by norm_num, hstep, hT, by rw [hT, calcCoefficient_matrix_zero], ?_,
    by norm_num⟩
  intro solve_singular
  obtain ⟨t, ht, htwf, htn, hcol⟩ := JointTrajectory.init_returned solve_singular
    (JointTrajectory.new 1) (JointTrajectory.new_well_formed 1) [⟨0, 0, 0⟩] [⟨10, 0, 0⟩] rfl rfl
    (1 / 20) (1 / 10)
  have hlen : t.coefficient_.length = 1 := by rw [htwf.1, htn]; rfl
  have hcoef := coefficient_eq_zipWith solve_singular t.coefficient_ [⟨0, 0, 0⟩] [⟨10, 0, 0⟩] 1
    (1 / 20) (1 / 10) hlen rfl rfl hcol
  refine ⟨t, _, ht, (JointTrajectory.getPosition_returned t htwf _).1, ?_⟩
  have h0 := (calcCoefficient_start solve_singular MinimumJerk.new ⟨0, 0, 0⟩ ⟨10, 0, 0⟩
    (1 / 20) (1 / 10)).1
  rw [hT]
  simp only [hcoef, List.zipWith_cons_cons, List.zipWith_nil_left, List.map_cons, List.map_nil,
    isolated_solve, h0]

/-- C4: the example scenario in exact arithmetic.  With start `(0, 0, 0)`, goal
`(10, 0, 0)`, `move_time = 2.0` and `control_time = 0.1` the tick count is 21,
the quantized duration is 2, and the initialised trajectory gives
`position(0) = 0`, `position(2) = 10`, `velocity(0) = velocity(2) = 0`,
`acceleration(0) = acceleration(2) = 0` and `position(1) = 5`. -/
theorem C4_example_scenario (solve_singular : SingularSolve) :
    step_time 2 (1 / 10) = 21 ∧ quantized_move_time 2 (1 / 10) = 2 ∧
    (JointTrajectory.new 1).init solve_singular [⟨0, 0, 0⟩] [⟨10, 0, 0⟩] 2 (1 / 10)
      = Outcome.returned example_scenario ∧
    example_scenario.getPosition 0
      = Outcome.returned { example_scenario with position_ := [0] } ∧
    example_scenario.getPosition 2
      = Outcome.returned { example_scenario with position_ := [10] } ∧
    example_scenario.getVelocity 0
      = Outcome.returned { example_scenario with velocity_ := [0] } ∧
    example_scenario.getVelocity 2
      = Outcome.returned { example_scenario with velocity_ := [0] } ∧
    example_scenario.getAcceleration 0
      = Outcome.returned { example_scenario with acceleration_ := [0] } ∧
    example_scenario.getAcceleration 2
      = Outcome.returned { example_scenario with acceleration_ := [0] } ∧
    example_scenario.getPosition 1
      = Outcome.returned { example_scenario with position_ := [5] } := by
  have hstep : step_time 2 (1 / 10) = 21 := by norm_num [step_time]
  have hT : quantized_move_time 2 (1 / 10) = 2 := by
    rw [quantized_move_time, hstep]; norm_num
  have hc : MinimumJerk.new.calcCoefficient solve_singular ⟨0, 0, 0⟩ ⟨10, 0, 0⟩ 2 (1 / 10)
      = ⟨⟨0, 0, 0, 25 / 2, -75 / 8, 15 / 8⟩⟩ := by
    simp only [MinimumJerk.calcCoefficient, hT]
    norm_num [calcCoefficient_A, calcCoefficient_b, ColPivHouseholderQR_solve,
      Matrix3f.determinant, Vector3f.Zero]
  have hwf : example_scenario.well_formed := ⟨rfl, by norm_num [example_scenario]⟩
  have hinit : (JointTrajectory.new 1).init solve_singular [⟨0, 0, 0⟩] [⟨10, 0, 0⟩] 2 (1 / 10)
      = Outcome.returned example_scenario := by
    show JointTrajectory.init_loop _ _ _ _ _ (254 + 1 + 1) 0 _ = _
    rw [JointTrajectory.init_loop_step _ _ _ _ _ _ _ _ ⟨0, 0, 0⟩ ⟨10, 0, 0⟩ rfl rfl
        (by simp [JointTrajectory.new, MatrixXf_Identity6]),
      JointTrajectory.init_loop_exit _ _ _ _ _ _ _ _ (by simp)]
    simp only [JointTrajectory.new, hc, MinimumJerk.getCoefficient, MatrixXf_Identity6]
    rfl
  refine ⟨hstep, hT, hinit, ?_, ?_, ?_, ?_, ?_, ?_, ?_⟩
  · rw [(JointTrajectory.getPosition_returned _ hwf 0).1]
    norm_num [example_scenario, position_result]
  · rw [(JointTrajectory.getPosition_returned _ hwf 2).1]
    norm_num [example_scenario, position_result]
  · rw [(JointTrajectory.getPosition_returned _ hwf 0).2.1]
    norm_num [example_scenario, velocity_result]
  · rw [(JointTrajectory.getPosition_returned _ hwf 2).2.1]
    norm_num [example_scenario, velocity_result]
  · rw [(JointTrajectory.getPosition_returned _ hwf 0).2.2]
    norm_num [example_scenario, acceleration_result]
  · rw [(JointTrajectory.getPosition_returned _ hwf 2).2.2]
    norm_num [example_scenario, acceleration_result]
  · rw [(JointTrajectory.getPosition_returned _ hwf 1).1]
    norm_num [example_scenario, position_result]

/-- C5: no cross-axis coupling.  For every well-formed trajectory object
(whatever its earlier coefficients and solver state), every `start` and `goal`
of length DOF, every `move_time`, `control_time` and every index `i`, `init`
returns normally and column `i` of the coefficient matrix equals the six
coefficients `calcCoefficient` produces on a fresh solver from
`(start[i], goal[i], move_time, control_time)`; element `i` of
`getPosition`, `getVelocity` and `getAcceleration` at any `tick` is the
evaluation of that isolated solve, hence a function of `start[i]`, `goal[i]`,
the two times and `tick` only. -/
theorem C5_no_cross_axis_coupling (solve_singular : SingularSolve)
    (self : JointTrajectory) (start goal : List Trajectory)
    (move_time control_time tick : ℚ) (i : ℕ) (s g : Trajectory)
    (hwf : self.well_formed) (hs : start.length = self.joint_num_)
    (hg : goal.length = self.joint_num_)
    (his : start[i]? = some s) (hig : goal[i]? = some g) :
    ∃ t tp tv ta : JointTrajectory,
      self.init solve_singular start goal move_time control_time = Outcome.returned t ∧
      t.getCoefficient[i]?
        = some (isolated_solve solve_singular s g move_time control_time) ∧
      t.getPosition tick = Outcome.returned tp ∧
      tp.position_[i]? = some (position_result
        (isolated_solve solve_singular s g move_time control_time) tick) ∧
      t.getVelocity tick = Outcome.returned tv ∧
      tv.velocity_[i]? = some (velocity_result
        (isolated_solve solve_singular s g move_time control_time) tick) ∧
      t.getAcceleration tick = Outcome.returned ta ∧
      ta.acceleration_[i]? = some (acceleration_result
        (isolated_solve solve_singular s g move_time control_time) tick) := by
  obtain ⟨t, ht, htwf, -, hcol⟩ :=
    JointTrajectory.init_returned solve_singular self hwf start goal hs hg move_time control_time
  obtain ⟨hp, hv, ha⟩ := JointTrajectory.getPosition_returned t htwf tick
  refine ⟨t, _, _, _, ht, hcol i s g his hig, hp, ?_, hv, ?_, ha, ?_⟩
  · simp [List.getElem?_map, hcol i s g his hig]
  · simp [List.getElem?_map, hcol i s g his hig]
  · simp [List.getElem?_map, hcol i s g his hig]

/-- Witness of C5: the second of two degrees of freedom of a freshly
constructed object, evaluated at `tick = 1/2`. -/
theorem C5_no_cross_axis_coupling_witness :
    (JointTrajectory.new 2).well_formed ∧
    ([⟨0, 0, 0⟩, ⟨1, 2, 3⟩] : List Trajectory).length = (JointTrajectory.new 2).joint_num_ ∧
    ([⟨10, 0, 0⟩, ⟨4, 5, 6⟩] : List Trajectory).length = (JointTrajectory.new 2).joint_num_ ∧
    (∃ t tp tv ta : JointTrajectory,
      (JointTrajectory.new 2).init solve_singular_zero [⟨0, 0, 0⟩, ⟨1, 2, 3⟩]
          [⟨10, 0, 0⟩, ⟨4, 5, 6⟩] 2 (1 / 10)
        = Outcome.returned t ∧
      t.getCoefficient[1]?
        = some (isolated_solve solve_singular_zero ⟨1, 2, 3⟩ ⟨4, 5, 6⟩ 2 (1 / 10)) ∧
      t.getPosition (1 / 2) = Outcome.returned tp ∧
      tp.position_[1]? = some (position_result
        (isolated_solve solve_singular_zero ⟨1, 2, 3⟩ ⟨4, 5, 6⟩ 2 (1 / 10)) (1 / 2)) ∧
      t.getVelocity (1 / 2) = Outcome.returned tv ∧
      tv.velocity_[1]? = some (velocity_result
        (isolated_solve solve_singular_zero ⟨1, 2, 3⟩ ⟨4, 5, 6⟩ 2 (1 / 10)) (1 / 2)) ∧
      t.getAcceleration (1 / 2) = Outcome.returned ta ∧
      ta.acceleration_[1]? = some (acceleration_result
        (isolated_solve solve_singular_zero ⟨1, 2, 3⟩ ⟨4, 5, 6⟩ 2 (1 / 10)) (1 / 2))) :=
  ⟨JointTrajectory.new_well_formed 2, rfl, rfl,
    C5_no_cross_axis_coupling solve_singular_zero (JointTrajectory.new 2) [⟨0, 0, 0⟩, ⟨1, 2, 3⟩]
      [⟨10, 0, 0⟩, ⟨4, 5, 6⟩] 2 (1 / 10) (1 / 2) 1 ⟨1, 2, 3⟩ ⟨4, 5, 6⟩
      (JointTrajectory.new_well_formed 2) rfl rfl rfl rfl⟩

/-- C6 (as amended): `init` on vectors of length DOF is a pure function of its
inputs and fully overwrites prior coefficients.  For every well-formed prior
state of a `JointTrajectory` (any earlier coefficient matrix, any earlier solver
state) and every `start`, `goal` of length DOF, `init` returns normally and the
whole coefficient matrix is the list of the solves of `(start[i], goal[i])` on a
fresh solver, a function of `(start, goal, move_time, control_time)` alone;
calling `init` again with the same inputs leaves identical coefficients.  The
same holds for `TaskTrajectory` with vectors of length 3. -/
theorem C6_init_overwrites (solve_singular : SingularSolve)
    (self : JointTrajectory) (task : TaskTrajectory)
    (start goal task_start task_goal : List Trajectory) (move_time control_time : ℚ)
    (hwf : self.well_formed) (hs : start.length = self.joint_num_)
    (hg : goal.length = self.joint_num_)
    (htask : task.well_formed) (hts : task_start.length = 3) (htg : task_goal.length = 3) :
    (∃ t t' : JointTrajectory,
      self.init solve_singular start goal move_time control_time = Outcome.returned t ∧
      t.getCoefficient = List.zipWith
        (fun s g => isolated_solve solve_singular s g move_time control_time)
        start goal ∧
      t.init solve_singular start goal move_time control_time = Outcome.returned t' ∧
      t'.getCoefficient = t.getCoefficient) ∧
    (∃ t t' : TaskTrajectory,
      task.init solve_singular task_start task_goal move_time control_time = Outcome.returned t ∧
      t.getCoefficient = List.zipWith
        (fun s g => isolated_solve solve_singular s g move_time control_time)
        task_start task_goal ∧
      t.init solve_singular task_start task_goal move_time control_time = Outcome.returned t' ∧
      t'.getCoefficient = t.getCoefficient) := by
  constructor
  · obtain ⟨t, ht, htwf, htn, hcol⟩ :=
      JointTrajectory.init_returned solve_singular self hwf start goal hs hg move_time control_time
    obtain ⟨t', ht', htwf', htn', hcol'⟩ :=
      JointTrajectory.init_returned solve_singular t htwf start goal (by omega) (by omega)
          move_time control_time
    have e := coefficient_eq_zipWith solve_singular t.coefficient_ start goal self.joint_num_
        move_time
      control_time (by rw [htwf.1, htn]) hs hg hcol
    have e' := coefficient_eq_zipWith solve_singular t'.coefficient_ start goal self.joint_num_
        move_time
      control_time (by rw [htwf'.1, htn', htn]) hs hg hcol'
    exact ⟨t, t', ht, e, ht', e'.trans e.symm⟩
  · obtain ⟨t, ht, htwf, hcol⟩ :=
      TaskTrajectory.task_init_returned solve_singular task htask task_start task_goal hts htg
          move_time control_time
    obtain ⟨t', ht', htwf', hcol'⟩ :=
      TaskTrajectory.task_init_returned solve_singular t htwf task_start task_goal hts htg
          move_time control_time
    have e := coefficient_eq_zipWith solve_singular t.coefficient_ task_start task_goal 3 move_time
      control_time htwf.1 hts htg hcol
    have e' := coefficient_eq_zipWith solve_singular t'.coefficient_ task_start task_goal 3
        move_time
      control_time htwf'.1 hts htg hcol'
    exact ⟨t, t', ht, e, ht', e'.trans e.symm⟩

/-- Witness of C6: a freshly constructed two-joint trajectory and a freshly
constructed task trajectory. -/
theorem C6_init_overwrites_witness :
    (JointTrajectory.new 2).well_formed ∧
    ([⟨0, 0, 0⟩, ⟨1, 2, 3⟩] : List Trajectory).length = (JointTrajectory.new 2).joint_num_ ∧
    ([⟨10, 0, 0⟩, ⟨4, 5, 6⟩] : List Trajectory).length = (JointTrajectory.new 2).joint_num_ ∧
    TaskTrajectory.new.well_formed ∧
    ([⟨0, 0, 0⟩, ⟨1, 2, 3⟩, ⟨0, 0, 0⟩] : List Trajectory).length = 3 ∧
    ([⟨10, 0, 0⟩, ⟨4, 5, 6⟩, ⟨1, 0, 0⟩] : List Trajectory).length = 3 ∧
    ((∃ t t' : JointTrajectory,
      (JointTrajectory.new 2).init solve_singular_zero [⟨0, 0, 0⟩, ⟨1, 2, 3⟩]
          [⟨10, 0, 0⟩, ⟨4, 5, 6⟩] 2 (1 / 10)
        = Outcome.returned t ∧
      t.getCoefficient = List.zipWith
        (fun s g => isolated_solve solve_singular_zero s g 2 (1 / 10))
        [⟨0, 0, 0⟩, ⟨1, 2, 3⟩] [⟨10, 0, 0⟩, ⟨4, 5, 6⟩] ∧
      t.init solve_singular_zero [⟨0, 0, 0⟩, ⟨1, 2, 3⟩] [⟨10, 0, 0⟩, ⟨4, 5, 6⟩] 2 (1 / 10) =
          Outcome.returned t' ∧
      t'.getCoefficient = t.getCoefficient) ∧
    (∃ t t' : TaskTrajectory,
      TaskTrajectory.new.init solve_singular_zero [⟨0, 0, 0⟩, ⟨1, 2, 3⟩, ⟨0, 0, 0⟩]
        [⟨10, 0, 0⟩, ⟨4, 5, 6⟩, ⟨1, 0, 0⟩] 2 (1 / 10) = Outcome.returned t ∧
      t.getCoefficient = List.zipWith
        (fun s g => isolated_solve solve_singular_zero s g 2 (1 / 10))
        [⟨0, 0, 0⟩, ⟨1, 2, 3⟩, ⟨0, 0, 0⟩] [⟨10, 0, 0⟩, ⟨4, 5, 6⟩, ⟨1, 0, 0⟩] ∧
      t.init solve_singular_zero [⟨0, 0, 0⟩, ⟨1, 2, 3⟩, ⟨0, 0, 0⟩]
          [⟨10, 0, 0⟩, ⟨4, 5, 6⟩, ⟨1, 0, 0⟩] 2 (1 / 10)
        = Outcome.returned t' ∧
      t'.getCoefficient = t.getCoefficient)) :=
  ⟨JointTrajectory.new_well_formed 2, rfl, rfl, ⟨rfl, rfl⟩, rfl, rfl,
    C6_init_overwrites solve_singular_zero (JointTrajectory.new 2) TaskTrajectory.new
        [⟨0, 0, 0⟩, ⟨1, 2, 3⟩]
      [⟨10, 0, 0⟩, ⟨4, 5, 6⟩] [⟨0, 0, 0⟩, ⟨1, 2, 3⟩, ⟨0, 0, 0⟩]
      [⟨10, 0, 0⟩, ⟨4, 5, 6⟩, ⟨1, 0, 0⟩] 2 (1 / 10) (JointTrajectory.new_well_formed 2) rfl rfl
      ⟨rfl, rfl⟩ rfl rfl⟩

/-- Counterexample to C6 as stated: on a trajectory with two degrees of freedom,
`init` with one start and one goal point returns normally having overwritten
column 0 only.  Column 1 keeps its value from before the call, so two prior
states (the freshly constructed object and `earlier_trajectory`, itself reached
by an `init`) end with different coefficient matrices for identical inputs. -/
theorem C6_counterexample :
    (JointTrajectory.new 2).init solve_singular_zero [⟨7, 0, 0⟩, ⟨7, 0, 0⟩] [⟨7, 0, 0⟩, ⟨7, 0, 0⟩]
        2 (1 / 10)
      = Outcome.returned earlier_trajectory ∧
    (JointTrajectory.new 2).init solve_singular_zero [⟨0, 0, 0⟩] [⟨10, 0, 0⟩] 2 (1 / 10)
      = Outcome.returned
          { trajectory_generator_ := ⟨⟨0, 0, 0, 25 / 2, -75 / 8, 15 / 8⟩⟩, joint_num_ := 2
            coefficient_ := [⟨0, 0, 0, 25 / 2, -75 / 8, 15 / 8⟩, ⟨0, 1, 0, 0, 0, 0⟩]
            position_ := [], velocity_ := [], acceleration_ := [] } ∧
    earlier_trajectory.init solve_singular_zero [⟨0, 0, 0⟩] [⟨10, 0, 0⟩] 2 (1 / 10)
      = Outcome.returned
          { trajectory_generator_ := ⟨⟨0, 0, 0, 25 / 2, -75 / 8, 15 / 8⟩⟩, joint_num_ := 2
            coefficient_ := [⟨0, 0, 0, 25 / 2, -75 / 8, 15 / 8⟩, ⟨7, 0, 0, 0, 0, 0⟩]
            position_ := [], velocity_ := [], acceleration_ := [] } ∧
    (JointTrajectory.new 2).coefficient_[1]? = some ⟨0, 1, 0, 0, 0, 0⟩ ∧
    earlier_trajectory.coefficient_[1]? = some ⟨7, 0, 0, 0, 0, 0⟩ ∧
    ([⟨0, 0, 0, 25 / 2, -75 / 8, 15 / 8⟩, ⟨0, 1, 0, 0, 0, 0⟩] : List Vector6f)
      ≠ [⟨0, 0, 0, 25 / 2, -75 / 8, 15 / 8⟩, ⟨7, 0, 0, 0, 0, 0⟩] := by
  refine ⟨?_, ?_, ?_, rfl, rfl, by simp⟩
  · show JointTrajectory.init_loop _ _ _ _ _ (253 + 1 + 1 + 1) 0 _ = _
    rw [JointTrajectory.init_loop_step _ _ _ _ _ _ _ _ ⟨7, 0, 0⟩ ⟨7, 0, 0⟩ rfl rfl
        (by simp [JointTrajectory.new, MatrixXf_Identity6]),
      JointTrajectory.init_loop_step _ _ _ _ _ _ _ _ ⟨7, 0, 0⟩ ⟨7, 0, 0⟩ rfl rfl
        (by simp [JointTrajectory.new, MatrixXf_Identity6]),
      JointTrajectory.init_loop_exit _ _ _ _ _ _ _ _ (by simp)]
    simp only [JointTrajectory.new, calcCoefficient_rest, MinimumJerk.getCoefficient,
      MatrixXf_Identity6]
    rfl
  · show JointTrajectory.init_loop _ _ _ _ _ (254 + 1 + 1) 0 _ = _
    rw [JointTrajectory.init_loop_step _ _ _ _ _ _ _ _ ⟨0, 0, 0⟩ ⟨10, 0, 0⟩ rfl rfl
        (by simp [JointTrajectory.new, MatrixXf_Identity6]),
      JointTrajectory.init_loop_exit _ _ _ _ _ _ _ _ (by simp)]
    simp only [JointTrajectory.new, calcCoefficient_example, MinimumJerk.getCoefficient,
      MatrixXf_Identity6]
    rfl
  · show JointTrajectory.init_loop _ _ _ _ _ (254 + 1 + 1) 0 _ = _
    rw [JointTrajectory.init_loop_step _ _ _ _ _ _ _ _ ⟨0, 0, 0⟩ ⟨10, 0, 0⟩ rfl rfl
        (by simp [earlier_trajectory]),
      JointTrajectory.init_loop_exit _ _ _ _ _ _ _ _ (by simp)]
    simp only [earlier_trajectory, calcCoefficient_example, MinimumJerk.getCoefficient]
    rfl


/-- C7 (as amended): `init` makes no dimension check and is not all-or-nothing.
For every well-formed trajectory with DOF count `n` and every `start`, `goal`,
with `k` the least of `start.size()`, `goal.size()` and `n`: the columns below
`k` are overwritten with the solves of `(start[i], goal[i])`, the columns from
`k` on are as before the call, and the call returns normally (no failure is
reported) when `start.size() = k`, throws `std::out_of_range` when
`goal.size() = k < start.size()`, and stops on the column index assertion
otherwise.  `TaskTrajectory::init` acts on its members in the same way. -/
theorem C7_init_dimension_mismatch (solve_singular : SingularSolve)
    (self : JointTrajectory) (task : TaskTrajectory)
    (start goal : List Trajectory) (move_time control_time : ℚ) (hwf : self.well_formed) :
    (∃ self' : JointTrajectory,
      (∀ (i : ℕ) (s g : Trajectory), i < min start.length (min goal.length self.joint_num_) →
        start[i]? = some s → goal[i]? = some g →
        self'.getCoefficient[i]?
          = some (isolated_solve solve_singular s g move_time control_time)) ∧
      (∀ i : ℕ, min start.length (min goal.length self.joint_num_) ≤ i →
        self'.getCoefficient[i]? = self.getCoefficient[i]?) ∧
      self.init solve_singular start goal move_time control_time =
        if start.length ≤ goal.length ∧ start.length ≤ self.joint_num_ then Outcome.returned self'
        else if goal.length ≤ self.joint_num_ then Outcome.out_of_range self'
        else Outcome.index_assert) ∧
    (task.init solve_singular start goal move_time control_time).map TaskTrajectory.toJoint
      = task.toJoint.init solve_singular start goal move_time control_time := by
  refine ⟨?_,
    TaskTrajectory.init_loop_toJoint solve_singular start goal move_time control_time 256 0 task⟩
  obtain ⟨hlen, h256⟩ := hwf
  obtain ⟨self', -, -, -, -, -, h6, h7, h8⟩ :=
    JointTrajectory.init_loop_spec solve_singular start goal move_time control_time
      (min start.length (min goal.length self.joint_num_)) (by omega) 256 0 self
      (by rw [hlen]) (by omega) (by omega)
  refine ⟨self', fun i s g hi => h6 i s g (by omega) hi, fun i hi => h7 i (Or.inr hi), ?_⟩
  rw [JointTrajectory.init, h8]
  by_cases h1 : start.length ≤ goal.length ∧ start.length ≤ self.joint_num_
  · rw [if_pos h1, if_pos (by omega)]
  · rw [if_neg h1, if_neg (by omega)]
    by_cases h2 : goal.length ≤ self.joint_num_
    · rw [if_pos h2, if_pos (by omega)]
    · rw [if_neg h2, if_neg (by omega)]


/-- Witness of C7: two degrees of freedom, two start points and one goal point. -/
theorem C7_init_dimension_mismatch_witness :
    (JointTrajectory.new 2).well_formed ∧
    ((∃ self' : JointTrajectory,
      (∀ (i : ℕ) (s g : Trajectory),
        i < min ([⟨1, 0, 0⟩, ⟨0, 0, 0⟩] : List Trajectory).length
          (min ([⟨2, 0, 0⟩] : List Trajectory).length (JointTrajectory.new 2).joint_num_) →
        ([⟨1, 0, 0⟩, ⟨0, 0, 0⟩] : List Trajectory)[i]? = some s →
        ([⟨2, 0, 0⟩] : List Trajectory)[i]? = some g →
        self'.getCoefficient[i]? = some (isolated_solve solve_singular_zero s g 1 1)) ∧
      (∀ i : ℕ,
        min ([⟨1, 0, 0⟩, ⟨0, 0, 0⟩] : List Trajectory).length
          (min ([⟨2, 0, 0⟩] : List Trajectory).length (JointTrajectory.new 2).joint_num_) ≤ i →
        self'.getCoefficient[i]? = (JointTrajectory.new 2).getCoefficient[i]?) ∧
      (JointTrajectory.new 2).init solve_singular_zero [⟨1, 0, 0⟩, ⟨0, 0, 0⟩] [⟨2, 0, 0⟩] 1 1 =
        if ([⟨1, 0, 0⟩, ⟨0, 0, 0⟩] : List Trajectory).length ≤
            ([⟨2, 0, 0⟩] : List Trajectory).length ∧
            ([⟨1, 0, 0⟩, ⟨0, 0, 0⟩] : List Trajectory).length ≤ (JointTrajectory.new 2).joint_num_
        then Outcome.returned self'
        else if ([⟨2, 0, 0⟩] : List Trajectory).length ≤ (JointTrajectory.new 2).joint_num_
        then Outcome.out_of_range self'
        else Outcome.index_assert) ∧
    (TaskTrajectory.new.init solve_singular_zero [⟨1, 0, 0⟩, ⟨0, 0, 0⟩] [⟨2, 0, 0⟩] 1 1).map
        TaskTrajectory.toJoint
      = TaskTrajectory.new.toJoint.init solve_singular_zero [⟨1, 0, 0⟩, ⟨0, 0, 0⟩] [⟨2, 0, 0⟩]
          1 1) :=
  ⟨JointTrajectory.new_well_formed 2,
    C7_init_dimension_mismatch solve_singular_zero (JointTrajectory.new 2) TaskTrajectory.new
      [⟨1, 0, 0⟩, ⟨0, 0, 0⟩] [⟨2, 0, 0⟩] 1 1 (JointTrajectory.new_well_formed 2)⟩

/-- Counterexample to C7 as stated: on a trajectory with two degrees of freedom,
`init` with one start point (`start.size() = 1 != 2`) and two goal points
returns normally, no failure is reported, and the coefficient matrix after the
call differs from the one before it in column 0. -/
theorem C7_counterexample :
    ([⟨1, 0, 0⟩] : List Trajectory).length ≠ (JointTrajectory.new 2).joint_num_ ∧
    (JointTrajectory.new 2).getCoefficient = [⟨1, 0, 0, 0, 0, 0⟩, ⟨0, 1, 0, 0, 0, 0⟩] ∧
    (JointTrajectory.new 2).init solve_singular_zero [⟨1, 0, 0⟩] [⟨2, 0, 0⟩, ⟨3, 0, 0⟩] 1 1
      = Outcome.returned
          { trajectory_generator_ := ⟨⟨1, 0, 0, 10, -15, 6⟩⟩, joint_num_ := 2
            coefficient_ := [⟨1, 0, 0, 10, -15, 6⟩, ⟨0, 1, 0, 0, 0, 0⟩]
            position_ := [], velocity_ := [], acceleration_ := [] } ∧
    ([⟨1, 0, 0, 10, -15, 6⟩, ⟨0, 1, 0, 0, 0, 0⟩] : List Vector6f)
      ≠ [⟨1, 0, 0, 0, 0, 0⟩, ⟨0, 1, 0, 0, 0, 0⟩] := by
  refine ⟨by simp [JointTrajectory.new], rfl, ?_, by simp⟩
  show JointTrajectory.init_loop _ _ _ _ _ (254 + 1 + 1) 0 _ = _
  rw [JointTrajectory.init_loop_step _ _ _ _ _ _ _ _ ⟨1, 0, 0⟩ ⟨2, 0, 0⟩ rfl rfl
      (by simp [JointTrajectory.new, MatrixXf_Identity6]),
    JointTrajectory.init_loop_exit _ _ _ _ _ _ _ _ (by simp)]
  simp only [JointTrajectory.new, calcCoefficient_unit, MinimumJerk.getCoefficient,
    MatrixXf_Identity6]
  rfl


/-- C9 (as amended): dof count.  Starting from a fresh Manipulator (dof 0, no
components), after `addWorld` and, in any interleaving order, `M` `addComponent`
calls with an actuated joint id (`id != -1`) and `K` `addTool` calls, all with
pairwise distinct names, with `M <= 127` (the range of the `int8_t` returned by
`getDOF`), `getDOF()` equals exactly `M`; `M` is also the number of stored
components with an actuated joint, out of `M + K` stored components. -/
theorem C9_dof_count {Name : Type} [LinearOrder Name] (world : World Name)
    (world_name child_name : Name) (world_position : Vector3f) (world_orientation : Matrix3f)
    (calls : List (Call Name)) (M K : ℕ)
    (hkind : ∀ c ∈ calls, c.is_actuated_addComponent = true ∨ c.is_addTool = true)
    (hM : calls.countP Call.is_actuated_addComponent = M)
    (hK : calls.countP Call.is_addTool = K)
    (hnames : (calls.filterMap Call.inserted_name).Nodup)
    (hfit : M ≤ 127) :
    ((Manipulator.new world).run
        (Call.addWorld world_name child_name world_position world_orientation :: calls)).getDOF
      = M ∧
    ((Manipulator.new world).run
        (Call.addWorld world_name child_name world_position world_orientation
          :: calls)).active_joint_count = M ∧
    ((Manipulator.new world).run
        (Call.addWorld world_name child_name world_position world_orientation
          :: calls)).component_.length = M + K := by
  have hdof := Manipulator.run_dof calls
    ((Manipulator.new world).after
      (Call.addWorld world_name child_name world_position world_orientation))
  obtain ⟨hcount, hlen⟩ := Manipulator.run_construction calls
    ((Manipulator.new world).after
      (Call.addWorld world_name child_name world_position world_orientation)) hkind hnames
    (fun _ _ => rfl)
  rw [hM] at hdof hcount hlen
  rw [hK] at hlen
  refine ⟨?_, ?_, ?_⟩
  · have h0 : ((Manipulator.new world).after
        (Call.addWorld world_name child_name world_position world_orientation)).dof_ = 0 := rfl
    rw [Manipulator.run, Manipulator.getDOF, hdof, h0]
    simp only [wrap8]
    omega
  · rw [Manipulator.run, hcount]
    show 0 + M = M
    omega
  · rw [Manipulator.run, hlen]
    show 0 + M + K = M + K
    omega

/-- Witness of C9: two joints and one tool, the tool added between the joints. -/
theorem C9_dof_count_witness :
    (∀ c ∈ [chain_joint 0,
        Call.addTool 9 2 Vector3f.Zero Matrix3f.Identity 3 1 1 Matrix3f.Identity Vector3f.Zero,
        chain_joint 1],
      c.is_actuated_addComponent = true ∨ c.is_addTool = true) ∧
    [chain_joint 0,
        Call.addTool 9 2 Vector3f.Zero Matrix3f.Identity 3 1 1 Matrix3f.Identity Vector3f.Zero,
        chain_joint 1].countP Call.is_actuated_addComponent = 2 ∧
    [chain_joint 0,
        Call.addTool 9 2 Vector3f.Zero Matrix3f.Identity 3 1 1 Matrix3f.Identity Vector3f.Zero,
        chain_joint 1].countP Call.is_addTool = 1 ∧
    ([chain_joint 0,
        Call.addTool 9 2 Vector3f.Zero Matrix3f.Identity 3 1 1 Matrix3f.Identity Vector3f.Zero,
        chain_joint 1].filterMap Call.inserted_name).Nodup ∧
    2 ≤ 127 ∧
    (((Manipulator.new example_world).run
        (Call.addWorld 0 1 Vector3f.Zero Matrix3f.Identity :: [chain_joint 0,
          Call.addTool 9 2 Vector3f.Zero Matrix3f.Identity 3 1 1 Matrix3f.Identity Vector3f.Zero,
          chain_joint 1])).getDOF = (2 : ℕ) ∧
    ((Manipulator.new example_world).run
        (Call.addWorld 0 1 Vector3f.Zero Matrix3f.Identity :: [chain_joint 0,
          Call.addTool 9 2 Vector3f.Zero Matrix3f.Identity 3 1 1 Matrix3f.Identity Vector3f.Zero,
          chain_joint 1])).active_joint_count = 2 ∧
    ((Manipulator.new example_world).run
        (Call.addWorld 0 1 Vector3f.Zero Matrix3f.Identity :: [chain_joint 0,
          Call.addTool 9 2 Vector3f.Zero Matrix3f.Identity 3 1 1 Matrix3f.Identity Vector3f.Zero,
          chain_joint 1])).component_.length = 2 + 1) :=
  ⟨by decide, by decide, by decide, by decide, by decide,
    C9_dof_count example_world 0 1 Vector3f.Zero Matrix3f.Identity
      [chain_joint 0,
        Call.addTool 9 2 Vector3f.Zero Matrix3f.Identity 3 1 1 Matrix3f.Identity Vector3f.Zero,
        chain_joint 1] 2 1 (by decide) (by decide) (by decide) (by decide) (by decide)⟩

/-- Counterexample to C9 as stated: after `addWorld` and `M = 128`
`addComponent` calls with the actuated joint id 1 under the pairwise distinct
names 1 to 128 (and `K = 0` tools), `getDOF()` returns `-128`, not 128: the
counter and the value returned are `int8_t`. -/
theorem C9_counterexample :
    (∀ c ∈ (List.range 128).map chain_joint, c.is_actuated_addComponent = true) ∧
    (((List.range 128).map chain_joint).filterMap Call.inserted_name).Nodup ∧
    ((List.range 128).map chain_joint).countP Call.is_actuated_addComponent = 128 ∧
    ((List.range 128).map chain_joint).countP Call.is_addTool = 0 ∧
    ((Manipulator.new example_world).run
        (Call.addWorld 0 1 Vector3f.Zero Matrix3f.Identity
          :: (List.range 128).map chain_joint)).getDOF = -128 := by
  have hact : ∀ c ∈ (List.range 128).map chain_joint, c.is_actuated_addComponent = true := by
    intro c hc
    obtain ⟨i, -, rfl⟩ := List.mem_map.mp hc
    rfl
  have hM : ((List.range 128).map chain_joint).countP Call.is_actuated_addComponent = 128 := by
    rw [List.countP_eq_length.mpr hact]
    simp
  refine ⟨hact, ?_, hM, ?_, ?_⟩
  · have : ((List.range 128).map chain_joint).filterMap Call.inserted_name
        = (List.range 128).map (fun i => i + 1) := by
      rw [List.filterMap_map]
      show List.filterMap (some ∘ fun i => i + 1) (List.range 128) = _
      rw [List.filterMap_eq_map]
    rw [this]
    exact (List.nodup_range 128).map (fun a b h => by simpa using h)
  · rw [List.countP_eq_zero]
    intro c hc
    obtain ⟨i, -, rfl⟩ := List.mem_map.mp hc
    simp [chain_joint, Call.is_addTool]
  · rw [Manipulator.getDOF, Manipulator.run_dof, List.countP_cons, hM]
    rfl

/-- C10 (as amended): dof invariant.  In every state reached from a fresh
Manipulator by a sequence of `addWorld`, `addComponent`, `addTool`,
`addComponentChild` and setter calls in which no `addComponent` call with an
actuated joint id is made under an already present name, and in which at most
127 stored components have an actuated joint (the range of `int8_t`),
`getDOF()` equals the number of stored components whose joint id is not `-1`. -/
theorem C10_dof_invariant {Name : Type} [LinearOrder Name] (world : World Name)
    (calls : List (Call Name))
    (hfresh : (Manipulator.new world).no_actuated_reinsertion calls)
    (hfit : ((Manipulator.new world).run calls).active_joint_count ≤ 127) :
    ((Manipulator.new world).run calls).getDOF
      = ((Manipulator.new world).run calls).active_joint_count := by
  have h0 : (Manipulator.new world).dof_ = wrap8 (Manipulator.new world).active_joint_count := by
    simp [Manipulator.new, Manipulator.active_joint_count, wrap8]
  have h := Manipulator.run_invariant calls (Manipulator.new world) h0 hfresh
  rw [Manipulator.getDOF, h, wrap8_wrap8]
  simp only [wrap8]
  omega

/-- Witness of C10: a sequence with two joints, a repeated `addComponent`
without actuator, a tool, and setter calls. -/
theorem C10_dof_invariant_witness :
    (Manipulator.new example_world).no_actuated_reinsertion
      [Call.addWorld 0 1 Vector3f.Zero Matrix3f.Identity, chain_joint 0,
        Call.addComponent 1 0 2 Vector3f.Zero Matrix3f.Identity Vector3f.Zero (-1) 1 1
          Matrix3f.Identity Vector3f.Zero,
        Call.setComponentJointAngle 1 (1 / 2), chain_joint 1,
        Call.addTool 9 2 Vector3f.Zero Matrix3f.Identity 3 1 1 Matrix3f.Identity Vector3f.Zero,
        Call.addComponentChild 2 9, Call.setAllActiveJointAngle [1, 2]] ∧
    ((Manipulator.new example_world).run
        [Call.addWorld 0 1 Vector3f.Zero Matrix3f.Identity, chain_joint 0,
          Call.addComponent 1 0 2 Vector3f.Zero Matrix3f.Identity Vector3f.Zero (-1) 1 1
            Matrix3f.Identity Vector3f.Zero,
          Call.setComponentJointAngle 1 (1 / 2), chain_joint 1,
          Call.addTool 9 2 Vector3f.Zero Matrix3f.Identity 3 1 1 Matrix3f.Identity Vector3f.Zero,
          Call.addComponentChild 2 9, Call.setAllActiveJointAngle [1, 2]]).active_joint_count
      ≤ 127 ∧
    ((Manipulator.new example_world).run
        [Call.addWorld 0 1 Vector3f.Zero Matrix3f.Identity, chain_joint 0,
          Call.addComponent 1 0 2 Vector3f.Zero Matrix3f.Identity Vector3f.Zero (-1) 1 1
            Matrix3f.Identity Vector3f.Zero,
          Call.setComponentJointAngle 1 (1 / 2), chain_joint 1,
          Call.addTool 9 2 Vector3f.Zero Matrix3f.Identity 3 1 1 Matrix3f.Identity Vector3f.Zero,
          Call.addComponentChild 2 9, Call.setAllActiveJointAngle [1, 2]]).getDOF
      = ((Manipulator.new example_world).run
        [Call.addWorld 0 1 Vector3f.Zero Matrix3f.Identity, chain_joint 0,
          Call.addComponent 1 0 2 Vector3f.Zero Matrix3f.Identity Vector3f.Zero (-1) 1 1
            Matrix3f.Identity Vector3f.Zero,
          Call.setComponentJointAngle 1 (1 / 2), chain_joint 1,
          Call.addTool 9 2 Vector3f.Zero Matrix3f.Identity 3 1 1 Matrix3f.Identity Vector3f.Zero,
          Call.addComponentChild 2 9, Call.setAllActiveJointAngle [1, 2]]).active_joint_count :=
  have hfresh : (Manipulator.new example_world).no_actuated_reinsertion
      [Call.addWorld 0 1 Vector3f.Zero Matrix3f.Identity, chain_joint 0,
        Call.addComponent 1 0 2 Vector3f.Zero Matrix3f.Identity Vector3f.Zero (-1) 1 1
          Matrix3f.Identity Vector3f.Zero,
        Call.setComponentJointAngle 1 (1 / 2), chain_joint 1,
        Call.addTool 9 2 Vector3f.Zero Matrix3f.Identity 3 1 1 Matrix3f.Identity Vector3f.Zero,
        Call.addComponentChild 2 9, Call.setAllActiveJointAngle [1, 2]] := by
    simp [Manipulator.no_actuated_reinsertion, Call.is_actuated_addComponent, chain_joint,
      Call.inserted_name, Manipulator.after, Manipulator.call, Manipulator.new,
      Manipulator.addWorld, Manipulator.addComponent, Manipulator.setComponentJointAngle,
      map_insert, map_place, map_find, map_modify]
  ⟨hfresh, by decide, C10_dof_invariant example_world _ hfresh (by decide)⟩

/-- Counterexample to C10 as stated.  A second `addComponent` with an actuated
joint id under the present name 1 increments the counter although the map
insertion stores nothing: `getDOF()` is 2 with one stored joint-bearing
component.  And with 200 stored joint-bearing components the `int8_t` value
returned is `-56`. -/
theorem C10_counterexample :
    ((Manipulator.new example_world).run
        [Call.addWorld 0 1 Vector3f.Zero Matrix3f.Identity, chain_joint 0, chain_joint 0]).getDOF
      = 2 ∧
    ((Manipulator.new example_world).run
        [Call.addWorld 0 1 Vector3f.Zero Matrix3f.Identity, chain_joint 0,
          chain_joint 0]).active_joint_count = 1 ∧
    ((Manipulator.new example_world).run
        (Call.addWorld 0 1 Vector3f.Zero Matrix3f.Identity
          :: (List.range 200).map chain_joint)).getDOF = -56 ∧
    ((Manipulator.new example_world).run
        (Call.addWorld 0 1 Vector3f.Zero Matrix3f.Identity
          :: (List.range 200).map chain_joint)).active_joint_count = 200 := by
  have hact : ∀ c ∈ (List.range 200).map chain_joint, c.is_actuated_addComponent = true := by
    intro c hc
    obtain ⟨i, -, rfl⟩ := List.mem_map.mp hc
    rfl
  have hM : ((List.range 200).map chain_joint).countP Call.is_actuated_addComponent = 200 := by
    rw [List.countP_eq_length.mpr hact]
    simp
  have hnames : (((List.range 200).map chain_joint).filterMap Call.inserted_name).Nodup := by
    have : ((List.range 200).map chain_joint).filterMap Call.inserted_name
        = (List.range 200).map (fun i => i + 1) := by
      rw [List.filterMap_map]
      show List.filterMap (some ∘ fun i => i + 1) (List.range 200) = _
      rw [List.filterMap_eq_map]
    rw [this]
    exact (List.nodup_range 200).map (fun a b h => by simpa using h)
  refine ⟨by decide, by decide, ?_, ?_⟩
  · rw [Manipulator.getDOF, Manipulator.run_dof, List.countP_cons, hM]
    rfl
  · rw [Manipulator.run, (Manipulator.run_construction ((List.range 200).map chain_joint)
      ((Manipulator.new example_world).after (Call.addWorld 0 1 Vector3f.Zero Matrix3f.Identity))
      (fun c hc => Or.inl (hact c hc)) hnames (fun _ _ => rfl)).1, hM]
    rfl

/-- C11 (as amended): guarded mutation on a tool.  For every Manipulator state,
every component `name` whose stored tool id is greater than 0 (for a component
added by `addTool` under a fresh name the stored tool id is the `tool_id` of
that call) and every value, `setComponentJointAngle(name, value)` returns
normally and leaves the whole Manipulator as it was, in particular the joint
angle of the component keeps its old value; likewise for
`setComponentJointVelocity` and `setComponentJointAcceleration`. -/
theorem C11_guarded_mutation_tool {Name : Type} [LinearOrder Name] (self : Manipulator Name)
    (name : Name) (c : Component Name) (value : ℚ)
    (hc : map_find self.component_ name = some c) (hid : 0 < c.tool.id) :
    self.setComponentJointAngle name value = Outcome.returned self ∧
    self.setComponentJointVelocity name value = Outcome.returned self ∧
    self.setComponentJointAcceleration name value = Outcome.returned self ∧
    (self.after (Call.setComponentJointAngle name value)).getComponentJointAngle name
      = some c.joint.angle ∧
    (self.after (Call.setComponentJointVelocity name value)).getComponentJointVelocity name
      = some c.joint.velocity ∧
    (self.after (Call.setComponentJointAcceleration name value)).getComponentJointAcceleration name
      = some c.joint.acceleration ∧
    ∀ (base : Manipulator Name) (parent_name : Name) (relative_position : Vector3f)
      (relative_orientation : Matrix3f) (tool_id : ℤ) (coefficient mass : ℚ)
      (inertia_tensor : Matrix3f) (center_of_mass : Vector3f),
      map_find base.component_ name = none →
      self = base.addTool name parent_name relative_position relative_orientation tool_id
        coefficient mass inertia_tensor center_of_mass →
      c.tool.id = tool_id := by
  have h1 : self.setComponentJointAngle name value = Outcome.returned self := by
    simp [Manipulator.setComponentJointAngle, hc, hid]
  have h2 : self.setComponentJointVelocity name value = Outcome.returned self := by
    simp [Manipulator.setComponentJointVelocity, hc, hid]
  have h3 : self.setComponentJointAcceleration name value = Outcome.returned self := by
    simp [Manipulator.setComponentJointAcceleration, hc, hid]
  refine ⟨h1, h2, h3, ?_, ?_, ?_, ?_⟩
  · simp [Manipulator.after, Manipulator.call, h1, Manipulator.getComponentJointAngle, hc]
  · simp [Manipulator.after, Manipulator.call, h2, Manipulator.getComponentJointVelocity, hc]
  · simp [Manipulator.after, Manipulator.call, h3, Manipulator.getComponentJointAcceleration, hc]
  · intro base parent_name relative_position relative_orientation tool_id coefficient mass
      inertia_tensor center_of_mass hfresh hself
    subst hself
    simp only [Manipulator.addTool] at hc
    rw [map_find_insert_self _ _ _ hfresh] at hc
    injection hc with hc
    rw [← hc]

/-- Witness of C11: a tool added under the name 1 with tool id 2; a joint angle
of 1/2 is not stored. -/
theorem C11_guarded_mutation_tool_witness :
    map_find tool_with_id_two.component_ 1
      = some { parent := 0, child := [],
               relative_to_parent := ⟨Vector3f.Zero, Matrix3f.Identity⟩,
               pose_to_world := ⟨Vector3f.Zero, Matrix3f.Identity⟩,
               origin := ⟨VectorXf_Zero3, VectorXf_Zero3⟩,
               joint := ⟨-1, 0, Vector3f.Zero, 0, 0, 0⟩,
               tool := ⟨2, 1, false, 0⟩,
               inertia := ⟨1, Matrix3f.Identity, Vector3f.Zero⟩ } ∧
    (0 : ℤ) < 2 ∧
    tool_with_id_two.setComponentJointAngle 1 (1 / 2) = Outcome.returned tool_with_id_two :=
  ⟨rfl, by decide,
    (C11_guarded_mutation_tool tool_with_id_two 1 _ (1 / 2) rfl (by decide)).1⟩

/-- Counterexample to C11 as stated: a tool added by `addTool` under the name 1
with tool id 0, an id other than -1.  The guard of the three setters is
`tool.id > 0`, so `setComponentJointAngle(1, 1/2)` returns normally and stores
the angle 1/2 in place of 0: the state has changed.  The same happens with
`setComponentJointVelocity` and `setComponentJointAcceleration`. -/
theorem C11_counterexample :
    tool_with_id_zero.getComponentToolId 1 = some 0 ∧ (0 : ℤ) ≠ -1 ∧
    tool_with_id_zero.getComponentJointAngle 1 = some 0 ∧
    (∃ s : Manipulator ℕ,
      tool_with_id_zero.setComponentJointAngle 1 (1 / 2) = Outcome.returned s ∧
      s.getComponentJointAngle 1 = some (1 / 2) ∧ s ≠ tool_with_id_zero) ∧
    (∃ s : Manipulator ℕ,
      tool_with_id_zero.setComponentJointVelocity 1 (1 / 2) = Outcome.returned s ∧
      s.getComponentJointVelocity 1 = some (1 / 2) ∧ s ≠ tool_with_id_zero) ∧
    (∃ s : Manipulator ℕ,
      tool_with_id_zero.setComponentJointAcceleration 1 (1 / 2) = Outcome.returned s ∧
      s.getComponentJointAcceleration 1 = some (1 / 2) ∧ s ≠ tool_with_id_zero) ∧
    (1 / 2 : ℚ) ≠ 0 := by
  refine ⟨rfl, by decide, rfl, ⟨_, rfl, rfl, ?_⟩, ⟨_, rfl, rfl, ?_⟩, ⟨_, rfl, rfl, ?_⟩, by norm_num⟩
  · intro h
    have h' : (some (1 / 2) : Option ℚ) = some 0 :=
      congrArg (fun m : Manipulator ℕ => m.getComponentJointAngle 1) h
    norm_num at h'
  · intro h
    have h' : (some (1 / 2) : Option ℚ) = some 0 :=
      congrArg (fun m : Manipulator ℕ => m.getComponentJointVelocity 1) h
    norm_num at h'
  · intro h
    have h' : (some (1 / 2) : Option ℚ) = some 0 :=
      congrArg (fun m : Manipulator ℕ => m.getComponentJointAcceleration 1) h
    norm_num at h'

/-- C12: guarded mutation on an unknown name.  For every Manipulator state,
every name that is not a key of the component map and every angle,
`setComponentJointAngle(name, angle)` ends in a thrown `std::out_of_range`
(from `component_.at(name)`; it does not return normally) and the Manipulator
left behind has the same component map, World record and dof counter; the name
is still not a key. -/
theorem C12_guarded_mutation_unknown {Name : Type} [LinearOrder Name] (self : Manipulator Name)
    (name : Name) (angle : ℚ) (h : name ∉ self.component_.map Prod.fst) :
    self.setComponentJointAngle name angle = Outcome.out_of_range self ∧
    (∀ s, self.setComponentJointAngle name angle ≠ Outcome.returned s) ∧
    (self.after (Call.setComponentJointAngle name angle)).component_ = self.component_ ∧
    (self.after (Call.setComponentJointAngle name angle)).world_ = self.world_ ∧
    (self.after (Call.setComponentJointAngle name angle)).dof_ = self.dof_ ∧
    name ∉ (self.after (Call.setComponentJointAngle name angle)).component_.map Prod.fst := by
  have hnone : map_find self.component_ name = none := (map_find_eq_none _ _).2 h
  have h1 : self.setComponentJointAngle name angle = Outcome.out_of_range self := by
    simp [Manipulator.setComponentJointAngle, hnone]
  have h2 : self.after (Call.setComponentJointAngle name angle) = self := by
    simp [Manipulator.after, Manipulator.call, h1]
  refine ⟨h1, ?_, ?_, ?_, ?_, ?_⟩
  · intro s hs
    rw [h1] at hs
    cases hs
  · rw [h2]
  · rw [h2]
  · rw [h2]
  · rw [h2]; exact h

/-- Witness of C12: the name 7 on a Manipulator whose only component is 1. -/
theorem C12_guarded_mutation_unknown_witness :
    (7 : ℕ) ∉ tool_with_id_two.component_.map Prod.fst ∧
    tool_with_id_two.setComponentJointAngle 7 (1 / 2) = Outcome.out_of_range tool_with_id_two :=
  ⟨by decide, (C12_guarded_mutation_unknown tool_with_id_two 7 (1 / 2) (by decide)).1⟩

/-- C13 (as amended): bulk joint-angle round trip.  For every Manipulator
(whose component map has strictly increasing keys, as every `std::map` has)
with exactly `n` components whose joint id is not `-1`, `n <= 128`, and every
angle vector `v` of length `n`, `setAllActiveJointAngle(v)` returns normally,
changes no key, joint id, tool id, World record or dof counter, and
`getAllActiveJointAngle()` afterwards returns exactly `v`, in the same order
(the iteration order of the map). -/
theorem C13_bulk_round_trip {Name : Type} [LinearOrder Name] (self : Manipulator Name)
    (v : List ℚ) (hwf : self.well_formed) (hn : self.active_joint_count = v.length)
    (hfit : v.length ≤ 128) :
    ∃ s : Manipulator Name,
      self.setAllActiveJointAngle v = Outcome.returned s ∧
      s.getAllActiveJointAngle = some v ∧
      s.dof_ = self.dof_ ∧ s.world_ = self.world_ ∧ same_ids self.component_ s.component_ := by
  have hnd := Manipulator.well_formed_nodup self hwf
  unfold Manipulator.active_joint_count at hn
  obtain ⟨todo', hrun, hids, hang⟩ :=
    Manipulator.setAllActiveJointAngle_loop_returned v self.component_ [] 0 0 self rfl
      (by simpa using hnd) (by omega) (Or.inr ⟨rfl, by omega⟩)
  refine ⟨{ self with component_ := todo' },
    by simpa [Manipulator.setAllActiveJointAngle] using hrun, ?_, rfl, rfl, hids⟩
  have hnd' : (todo'.map Prod.fst).Nodup := by rw [same_ids_keys hids]; exact hnd
  rw [Manipulator.getAllActiveJointAngle_eq _ hnd', hang, hn]
  simp

/-- Witness of C13: `n = 3` joints and `v = [0.1, 0.2, 0.3]`. -/
theorem C13_bulk_round_trip_witness :
    (joint_chain 3).well_formed ∧
    (joint_chain 3).active_joint_count = ([0.1, 0.2, 0.3] : List ℚ).length ∧
    ([0.1, 0.2, 0.3] : List ℚ).length ≤ 128 ∧
    ∃ s : Manipulator ℕ,
      (joint_chain 3).setAllActiveJointAngle [0.1, 0.2, 0.3] = Outcome.returned s ∧
      s.getAllActiveJointAngle = some [0.1, 0.2, 0.3] ∧
      s.dof_ = (joint_chain 3).dof_ ∧ s.world_ = (joint_chain 3).world_ ∧
      same_ids (joint_chain 3).component_ s.component_ :=
  ⟨by unfold Manipulator.well_formed; decide, by decide, by decide,
    C13_bulk_round_trip (joint_chain 3) [0.1, 0.2, 0.3]
      (by unfold Manipulator.well_formed; decide) (by decide) (by decide)⟩

/-- Counterexample to C13 as stated: a Manipulator with exactly `n = 129`
components, all with the actuated joint id 1, and the angle vector `v` of 129
ones.  The index of `setAllActiveJointAngle` is an `int8_t`: after 128
assignments it holds `-128`, `angle_vector.at(index)` throws
`std::out_of_range`, and the call does not return.  In the object left at the
throw some actuated joint still has its old angle 0, so
`getAllActiveJointAngle()` does not return `v` either. -/
theorem C13_counterexample :
    (joint_chain 129).well_formed ∧
    (joint_chain 129).active_joint_count = 129 ∧
    (List.replicate 129 (1 : ℚ)).length = 129 ∧
    ∃ s : Manipulator ℕ,
      (joint_chain 129).setAllActiveJointAngle (List.replicate 129 1) = Outcome.out_of_range s ∧
      s.getAllActiveJointAngle ≠ some (List.replicate 129 1) := by
  obtain ⟨hwf, hcount, -, hzero⟩ := joint_chain_spec 129
  have hnd := Manipulator.well_formed_nodup _ hwf
  refine ⟨hwf, hcount, List.length_replicate 129 1, ?_⟩
  obtain ⟨todo', hrun, hids, e, he, he', hactive⟩ :=
    Manipulator.setAllActiveJointAngle_loop_overflow (List.replicate 129 (1 : ℚ))
      (joint_chain 129).component_ [] 0 (joint_chain 129) (List.nil_append _).symm
      (by simpa using hnd) (by omega)
      (by
        have := hcount
        unfold Manipulator.active_joint_count at this
        omega)
  refine ⟨{ joint_chain 129 with component_ := todo' },
    by simpa [Manipulator.setAllActiveJointAngle] using hrun, ?_⟩
  have hnd' : (todo'.map Prod.fst).Nodup := by rw [same_ids_keys hids]; exact hnd
  rw [Manipulator.getAllActiveJointAngle_eq _ hnd']
  intro h
  have hmem : e.2.joint.angle ∈ List.replicate 129 (1 : ℚ) := by
    rw [← Option.some.inj h]
    exact List.mem_map.2 ⟨e, List.mem_filter.2 ⟨he', by simpa using hactive⟩, rfl⟩
  rw [hzero e he] at hmem
  have h01 : (0 : ℚ) = 1 := List.eq_of_mem_replicate hmem
  norm_num at h01

/-- C14 (as amended): parent and child links.  For every Manipulator state and
every call `addComponent(name, parent, child, ...)` or `addTool(name, parent,
...)` with a fresh `name` whose `parent` is an existing component, the call
stores `parent` as the parent of `name`, gives `name` the child list `[child]`
(`addComponent`) or the empty one (`addTool`), and leaves
`getComponentChildName(parent)` as it was: `name` is an element of it after the
call exactly when it was one before.  A following
`addComponentChild(parent, name)` returns and appends `name` to that list. -/
theorem C14_parent_child {Name : Type} [LinearOrder Name] (self : Manipulator Name)
    (name parent_name child_name : Name) (p : Component Name)
    (relative_position : Vector3f) (relative_orientation : Matrix3f)
    (axis_of_rotation : Vector3f) (joint_actuator_id tool_id : ℤ) (coefficient mass : ℚ)
    (inertia_tensor : Matrix3f) (center_of_mass : Vector3f)
    (hfresh : map_find self.component_ name = none)
    (hparent : map_find self.component_ parent_name = some p) :
    (self.addComponent name parent_name child_name relative_position relative_orientation
        axis_of_rotation joint_actuator_id coefficient mass inertia_tensor
        center_of_mass).getComponentChildName parent_name = self.getComponentChildName parent_name ∧
    (self.addComponent name parent_name child_name relative_position relative_orientation
        axis_of_rotation joint_actuator_id coefficient mass inertia_tensor
        center_of_mass).getComponentParentName name = some parent_name ∧
    (self.addComponent name parent_name child_name relative_position relative_orientation
        axis_of_rotation joint_actuator_id coefficient mass inertia_tensor
        center_of_mass).getComponentChildName name = some [child_name] ∧
    (self.addTool name parent_name relative_position relative_orientation tool_id coefficient
        mass inertia_tensor center_of_mass).getComponentChildName parent_name
      = self.getComponentChildName parent_name ∧
    (self.addTool name parent_name relative_position relative_orientation tool_id coefficient
        mass inertia_tensor center_of_mass).getComponentParentName name = some parent_name ∧
    (self.addTool name parent_name relative_position relative_orientation tool_id coefficient
        mass inertia_tensor center_of_mass).getComponentChildName name = some [] ∧
    self.getComponentChildName parent_name = some p.child ∧
    (∃ s : Manipulator Name,
      (self.addComponent name parent_name child_name relative_position relative_orientation
        axis_of_rotation joint_actuator_id coefficient mass inertia_tensor
        center_of_mass).addComponentChild parent_name name = Outcome.returned s ∧
      s.getComponentChildName parent_name = some (p.child ++ [name])) ∧
    (∃ s : Manipulator Name,
      (self.addTool name parent_name relative_position relative_orientation tool_id coefficient
        mass inertia_tensor center_of_mass).addComponentChild parent_name name
        = Outcome.returned s ∧
      s.getComponentChildName parent_name = some (p.child ++ [name])) := by
  have hne : name ≠ parent_name := by
    intro h; rw [h, hparent] at hfresh; cases hfresh
  have hA : ∀ m : Manipulator Name, m.component_ = self.component_ →
      ∀ w : Component Name,
        map_find (map_insert m.component_ name w) parent_name = some p ∧
        map_find (map_insert m.component_ name w) name = some w := by
    intro m hm w
    rw [hm]
    exact ⟨by rw [map_find_insert_ne _ _ _ _ hne, hparent], map_find_insert_self _ _ _ hfresh⟩
  have hself : self.getComponentChildName parent_name = some p.child := by
    simp [Manipulator.getComponentChildName, hparent]
  have hw := Manipulator.addComponent_component_ self name parent_name child_name
    relative_position relative_orientation axis_of_rotation joint_actuator_id coefficient mass
    inertia_tensor center_of_mass
  obtain ⟨hw1, hw2⟩ := hA self rfl
    { parent := parent_name
      child := [child_name]
      relative_to_parent := { position := relative_position, orientation := relative_orientation }
      pose_to_world := { position := Vector3f.Zero, orientation := Matrix3f.Identity }
      origin := { velocity := VectorXf_Zero3, acceleration := VectorXf_Zero3 }
      joint :=
        { id := joint_actuator_id, coefficient := coefficient, axis := axis_of_rotation
          angle := 0, velocity := 0, acceleration := 0 }
      tool := { id := -1, coefficient := 0, on_off := false, value := 0 }
      inertia :=
        { mass := mass, inertia_tensor := inertia_tensor, center_of_mass := center_of_mass } }
  rw [← hw] at hw1 hw2
  have htool : ∃ w : Component Name,
      (self.addTool name parent_name relative_position relative_orientation tool_id coefficient
        mass inertia_tensor center_of_mass).component_ = map_insert self.component_ name w ∧
      w.parent = parent_name ∧ w.child = [] := ⟨_, rfl, rfl, rfl⟩
  obtain ⟨t, ht, htp, htc⟩ := htool
  obtain ⟨ht1, ht2⟩ := hA self rfl t
  rw [← ht] at ht1 ht2
  refine ⟨?_, ?_, ?_, ?_, ?_, ?_, hself, ?_, ?_⟩
  · rw [hself]; simp [Manipulator.getComponentChildName, hw1]
  · simp [Manipulator.getComponentParentName, hw2]
  · simp [Manipulator.getComponentChildName, hw2]
  · rw [hself]; simp [Manipulator.getComponentChildName, ht1]
  · simp [Manipulator.getComponentParentName, ht2, htp]
  · simp [Manipulator.getComponentChildName, ht2, htc]
  · exact Manipulator.addComponentChild_returned _ parent_name name p hw1
  · exact Manipulator.addComponentChild_returned _ parent_name name p ht1

/-- Counterexample to C14 as stated: on the Manipulator holding the component
1 (parent 0, child list `[2]`), the name 5 is fresh and the parent 1 exists;
after `addComponent(5, 1, 6, ...)`, and likewise after `addTool(5, 1, ...)`,
the parent of 5 is 1 but `getComponentChildName(1)` is still `[2]`, which does
not contain 5. -/
theorem C14_counterexample :
    map_find (joint_chain 1).component_ 5 = none ∧
    (joint_chain 1).getComponentParentName 1 = some 0 ∧
    (joint_chain 1).getComponentChildName 1 = some [2] ∧
    ((joint_chain 1).addComponent 5 1 6 Vector3f.Zero Matrix3f.Identity ⟨0, 0, 1⟩ 2 1 1
      Matrix3f.Identity Vector3f.Zero).getComponentParentName 5 = some 1 ∧
    ((joint_chain 1).addComponent 5 1 6 Vector3f.Zero Matrix3f.Identity ⟨0, 0, 1⟩ 2 1 1
      Matrix3f.Identity Vector3f.Zero).getComponentChildName 1 = some [2] ∧
    ((joint_chain 1).addTool 5 1 Vector3f.Zero Matrix3f.Identity 3 1 1
      Matrix3f.Identity Vector3f.Zero).getComponentParentName 5 = some 1 ∧
    ((joint_chain 1).addTool 5 1 Vector3f.Zero Matrix3f.Identity 3 1 1
      Matrix3f.Identity Vector3f.Zero).getComponentChildName 1 = some [2] ∧
    (5 : ℕ) ∉ [2] := by
  refine ⟨rfl, rfl, rfl, rfl, rfl, rfl, rfl, by decide⟩

/-- Witness of C14: `addComponent(2, 1, 3, ...)` on the Manipulator holding the
component 1. -/
theorem C14_parent_child_witness :
    map_find (joint_chain 1).component_ 2 = none ∧
    (∃ p, map_find (joint_chain 1).component_ 1 = some p ∧
    ((joint_chain 1).addComponent 2 1 3 Vector3f.Zero Matrix3f.Identity ⟨0, 0, 1⟩ 2 1 1
      Matrix3f.Identity Vector3f.Zero).getComponentChildName 1
      = (joint_chain 1).getComponentChildName 1) :=
  ⟨rfl, _, rfl, (C14_parent_child (joint_chain 1) 2 1 3 _ Vector3f.Zero Matrix3f.Identity
    ⟨0, 0, 1⟩ 2 3 1 1 Matrix3f.Identity Vector3f.Zero rfl rfl).1⟩

/-- C15: joint versus tool exclusivity.  In every state reached from a fresh
Manipulator by any sequence of calls of its state-changing public functions
(`addWorld`, `addComponent`, `addTool`, `addComponentChild`, `setComponent`
and all other setters), no stored component has both its joint id and its tool
id different from `-1`; in particular no component returned by `getComponent`
has. -/
theorem C15_joint_tool_exclusivity {Name : Type} [LinearOrder Name] (world : World Name)
    (calls : List (Call Name)) :
    (∀ e ∈ ((Manipulator.new world).run calls).component_,
      ¬ (e.2.joint.id ≠ -1 ∧ e.2.tool.id ≠ -1)) ∧
    ∀ (name : Name) (c : Component Name),
      ((Manipulator.new world).run calls).getComponent name = some c →
      ¬ (c.joint.id ≠ -1 ∧ c.tool.id ≠ -1) := by
  have h := Manipulator.run_exclusive calls (Manipulator.new world)
    (by intro e he; simp [Manipulator.new] at he)
  refine ⟨h, ?_⟩
  intro name c hc
  exact h (name, c) (map_find_mem _ name c hc)

/-- C16, the code at the failing inputs.  After `addComponent(1, ...)` on a
fresh Manipulator, a state reached by the calls of the claim, the stored
velocity and acceleration of component 1 are `VectorXf::Zero(3)`, vectors of
length 3 and not 6; a component added by `addTool` has the same.  After a
further `setComponentStateToWorld(1, state)` with a velocity of length 1 and an
acceleration of length 2 that state is stored, no length being checked.  The
sibling setter `setComponentVelocityToWorld` does check the length: it ignores
a vector of length 1 and stores one of length 6. -/
theorem C16_state_dimension_failing_input :
    (∀ c ∈ [chain_joint 0], c.is_state_call = true) ∧
    ((Manipulator.new example_world).run [chain_joint 0]).getComponentVelocityToWorld 1
      = some [0, 0, 0] ∧
    ((Manipulator.new example_world).run [chain_joint 0]).getComponentAccelerationToWorld 1
      = some [0, 0, 0] ∧
    ([0, 0, 0] : List ℚ).length ≠ 6 ∧
    tool_with_id_two.getComponentStateToWorld 1 = some ⟨[0, 0, 0], [0, 0, 0]⟩ ∧
    (∀ c ∈ [chain_joint 0, Call.setComponentStateToWorld 1 ⟨[1], [1, 2]⟩],
      c.is_state_call = true) ∧
    ((Manipulator.new example_world).run
      [chain_joint 0, Call.setComponentStateToWorld 1 ⟨[1], [1, 2]⟩]).getComponentStateToWorld 1
      = some ⟨[1], [1, 2]⟩ ∧
    ((Manipulator.new example_world).run
      [chain_joint 0, Call.setComponentVelocityToWorld 1 [1]]).getComponentVelocityToWorld 1
      = some [0, 0, 0] ∧
    ((Manipulator.new example_world).run
      [chain_joint 0, Call.setComponentVelocityToWorld 1 [1, 2, 3, 4, 5, 6]]
      ).getComponentVelocityToWorld 1 = some [1, 2, 3, 4, 5, 6] := by
  refine ⟨by decide, rfl, rfl, by decide, rfl, by decide, rfl, rfl, rfl⟩

/-- C17: unique solvability in exact arithmetic.  For every `control_time > 0`
and `move_time >= control_time` with `floor(move_time / control_time) < 65535`
the quantized time `T` is not zero, the system matrix has determinant
`2 * T^9`, which is not zero, the quintic of the six coefficients produced by
`calcCoefficient` meets the six boundary conditions (position, velocity and
acceleration of `start` at `0` and of `goal` at `T`), and every coefficient
vector whose quintic meets them is that one.  Conversely, for
`0 < move_time < control_time` the quantized time is 0 and the system matrix
is the zero matrix. -/
theorem C17_unique_solvability (solve_singular : SingularSolve) (self : MinimumJerk)
    (start goal : Trajectory) (move_time control_time : ℚ)
    (hcontrol : 0 < control_time) (hmove : control_time ≤ move_time)
    (hfit : ⌊move_time / control_time⌋ < 65535) :
    quantized_move_time move_time control_time ≠ 0 ∧
    (calcCoefficient_A (quantized_move_time move_time control_time)).determinant
      = 2 * quantized_move_time move_time control_time ^ 9 ∧
    2 * quantized_move_time move_time control_time ^ 9 ≠ 0 ∧
    (position_result (self.calcCoefficient solve_singular start goal move_time
        control_time).getCoefficient 0 = start.position ∧
      velocity_result (self.calcCoefficient solve_singular start goal move_time
        control_time).getCoefficient 0 = start.velocity ∧
      acceleration_result (self.calcCoefficient solve_singular start goal move_time
        control_time).getCoefficient 0 = start.acceleration ∧
      position_result (self.calcCoefficient solve_singular start goal move_time
        control_time).getCoefficient (quantized_move_time move_time control_time)
        = goal.position ∧
      velocity_result (self.calcCoefficient solve_singular start goal move_time
        control_time).getCoefficient (quantized_move_time move_time control_time)
        = goal.velocity ∧
      acceleration_result (self.calcCoefficient solve_singular start goal move_time
        control_time).getCoefficient (quantized_move_time move_time control_time)
        = goal.acceleration) ∧
    (∀ c : Vector6f,
      position_result c 0 = start.position →
      velocity_result c 0 = start.velocity →
      acceleration_result c 0 = start.acceleration →
      position_result c (quantized_move_time move_time control_time) = goal.position →
      velocity_result c (quantized_move_time move_time control_time) = goal.velocity →
      acceleration_result c (quantized_move_time move_time control_time) = goal.acceleration →
      c = (self.calcCoefficient solve_singular start goal move_time
        control_time).getCoefficient) ∧
    (∀ short_time : ℚ, 0 < short_time → short_time < control_time →
      quantized_move_time short_time control_time = 0 ∧
      calcCoefficient_A (quantized_move_time short_time control_time) = Matrix3f.Zero) := by
  have hT := quantized_move_time_ne_zero move_time control_time hcontrol hmove hfit
  obtain ⟨s0, s1, s2⟩ := calcCoefficient_start solve_singular self start goal move_time
    control_time
  obtain ⟨t0, t1, t2⟩ := calcCoefficient_terminal solve_singular self start goal move_time
    control_time hT
  refine ⟨hT, calcCoefficient_matrix_det _, mul_ne_zero (by norm_num) (pow_ne_zero _ hT),
    ⟨s0, s1, s2, t0, t1, t2⟩, ?_, ?_⟩
  · intro c hp0 hv0 ha0 hp1 hv1 ha1
    exact calcCoefficient_unique solve_singular self start goal move_time control_time hT c
      hp0 hv0 ha0 hp1 hv1 ha1
  · intro short_time hpos hlt
    have hfloor : ⌊short_time / control_time⌋ = 0 := by
      rw [Int.floor_eq_zero_iff]
      constructor
      · exact (div_pos hpos hcontrol).le
      · rw [div_lt_one hcontrol]; exact hlt
    have hq : quantized_move_time short_time control_time = 0 := by
      simp [quantized_move_time, step_time, hfloor]
    rw [hq]
    exact ⟨rfl, calcCoefficient_matrix_zero⟩

/-- Witness of C17: `move_time = 2`, `control_time = 1/10`. -/
theorem C17_unique_solvability_witness :
    (0 : ℚ) < 1 / 10 ∧ (1 / 10 : ℚ) ≤ 2 ∧ ⌊(2 : ℚ) / (1 / 10)⌋ < 65535 ∧
    quantized_move_time 2 (1 / 10) ≠ 0 ∧
    (calcCoefficient_A (quantized_move_time 2 (1 / 10))).determinant
      = 2 * quantized_move_time 2 (1 / 10) ^ 9 :=
  ⟨by norm_num, by norm_num, by norm_num,
    (C17_unique_solvability solve_singular_zero MinimumJerk.new ⟨0, 0, 0⟩ ⟨10, 0, 0⟩ 2 (1 / 10)
      (by norm_num) (by norm_num) (by norm_num)).1,
    (C17_unique_solvability solve_singular_zero MinimumJerk.new ⟨0, 0, 0⟩ ⟨10, 0, 0⟩ 2 (1 / 10)
      (by norm_num) (by norm_num) (by norm_num)).2.1⟩

/-- C18: `TaskTrajectory` is `JointTrajectory` with the DOF count fixed at 3.
For every `start`, `goal`, `move_time`, `control_time` and `tick`: a freshly
constructed `TaskTrajectory` has the members, in particular the coefficient
matrix, of `JointTrajectory(3)`; `init` with the same arguments ends the same
way on both (normal return, `std::out_of_range` or index assertion) and leaves
objects with the same members; and on the two objects after construction, or
after `init` where it leaves an object, the coefficient matrices are equal and
`getPosition`, `getVelocity` and `getAcceleration` return equal sequences of
length exactly 3. -/
theorem C18_task_is_joint_three (solve_singular : SingularSolve)
    (start goal : List Trajectory) (move_time control_time tick : ℚ) :
    TaskTrajectory.new.toJoint = JointTrajectory.new 3 ∧
    TaskTrajectory.new.getCoefficient = (JointTrajectory.new 3).getCoefficient ∧
    (TaskTrajectory.new.init solve_singular start goal move_time control_time).map
        TaskTrajectory.toJoint
      = (JointTrajectory.new 3).init solve_singular start goal move_time control_time ∧
    ∀ (task : TaskTrajectory) (joint : JointTrajectory),
      (task = TaskTrajectory.new ∧ joint = JointTrajectory.new 3) ∨
      (TaskTrajectory.new.init solve_singular start goal move_time control_time
          = Outcome.returned task ∧
        (JointTrajectory.new 3).init solve_singular start goal move_time control_time
          = Outcome.returned joint) ∨
      (TaskTrajectory.new.init solve_singular start goal move_time control_time
          = Outcome.out_of_range task ∧
        (JointTrajectory.new 3).init solve_singular start goal move_time control_time
          = Outcome.out_of_range joint) →
      task.getCoefficient = joint.getCoefficient ∧
      ∃ (tp tv ta : TaskTrajectory) (jp jv ja : JointTrajectory),
        task.getPosition tick = Outcome.returned tp ∧
        joint.getPosition tick = Outcome.returned jp ∧
        tp.position_ = jp.position_ ∧ tp.position_.length = 3 ∧
        task.getVelocity tick = Outcome.returned tv ∧
        joint.getVelocity tick = Outcome.returned jv ∧
        tv.velocity_ = jv.velocity_ ∧ tv.velocity_.length = 3 ∧
        task.getAcceleration tick = Outcome.returned ta ∧
        joint.getAcceleration tick = Outcome.returned ja ∧
        ta.acceleration_ = ja.acceleration_ ∧ ta.acceleration_.length = 3 := by
  have hnew : TaskTrajectory.new.toJoint = JointTrajectory.new 3 := rfl
  have hwfnew : TaskTrajectory.new.well_formed := ⟨rfl, rfl⟩
  have hsim : (TaskTrajectory.new.init solve_singular start goal move_time control_time).map
        TaskTrajectory.toJoint
      = (JointTrajectory.new 3).init solve_singular start goal move_time control_time := by
    rw [← hnew]
    exact TaskTrajectory.init_loop_toJoint solve_singular start goal move_time control_time 256 0
      TaskTrajectory.new
  refine ⟨hnew, rfl, hsim, ?_⟩
  intro task joint h
  have key : task.well_formed ∧ joint = task.toJoint := by
    rcases h with ⟨ht, hj⟩ | ⟨ht, hj⟩ | ⟨ht, hj⟩
    · rw [ht, hj]; exact ⟨hwfnew, rfl⟩
    · refine ⟨TaskTrajectory.init_well_formed solve_singular _ hwfnew start goal move_time
        control_time task (Or.inl ht), ?_⟩
      rw [ht, hj] at hsim
      exact (Outcome.returned.inj hsim).symm
    · refine ⟨TaskTrajectory.init_well_formed solve_singular _ hwfnew start goal move_time
        control_time task (Or.inr ht), ?_⟩
      rw [ht, hj] at hsim
      exact (Outcome.out_of_range.inj hsim).symm
  obtain ⟨hwf, hjoint⟩ := key
  rw [hjoint]
  exact ⟨rfl, TaskTrajectory.evaluators_toJoint task hwf tick⟩

/-- C19: `init` is safe and terminates under its precondition.  For every
`JointTrajectory` with DOF count `n` (an 8-bit count, `n <= 255`, with a
coefficient matrix of `n` columns) and every `start`, `goal` of size `n`:
every access `start.at(index)`, `goal.at(index)` and column `index` with
`index < n` is in range; `init` returns normally; its loop makes exactly `n`
iterations (it has left the loop at the test number `n + 1` of its condition,
and not after `n` tests); and on the object returned each of `getPosition`,
`getVelocity`, `getAcceleration` returns a sequence of length exactly `n`. -/
theorem C19_init_safe (solve_singular : SingularSolve) (self : JointTrajectory)
    (start goal : List Trajectory) (move_time control_time tick : ℚ)
    (hwf : self.well_formed) (hs : start.length = self.joint_num_)
    (hg : goal.length = self.joint_num_) :
    self.joint_num_ ≤ 255 ∧
    (∀ index : ℕ, index < self.joint_num_ →
      (∃ s, start[index]? = some s) ∧ (∃ g, goal[index]? = some g) ∧
      index < self.coefficient_.length) ∧
    ∃ self' : JointTrajectory,
      self.init solve_singular start goal move_time control_time = Outcome.returned self' ∧
      JointTrajectory.init_loop solve_singular start goal move_time control_time
        (self.joint_num_ + 1) 0 self = Outcome.returned self' ∧
      JointTrajectory.init_loop solve_singular start goal move_time control_time
        self.joint_num_ 0 self = Outcome.diverged ∧
      self'.joint_num_ = self.joint_num_ ∧ self'.coefficient_.length = self.joint_num_ ∧
      ∃ tp tv ta : JointTrajectory,
        self'.getPosition tick = Outcome.returned tp ∧
        tp.position_.length = self.joint_num_ ∧
        self'.getVelocity tick = Outcome.returned tv ∧
        tv.velocity_.length = self.joint_num_ ∧
        self'.getAcceleration tick = Outcome.returned ta ∧
        ta.acceleration_.length = self.joint_num_ := by
  obtain ⟨hlen, h256⟩ := hwf
  refine ⟨by omega, ?_, ?_⟩
  · intro index hi
    have h1 : index < start.length := by omega
    have h2 : index < goal.length := by omega
    exact ⟨⟨start[index], List.getElem?_eq_getElem h1⟩,
      ⟨goal[index], List.getElem?_eq_getElem h2⟩, by omega⟩
  · obtain ⟨self', hrun, hwf', hnum, -⟩ := JointTrajectory.init_returned solve_singular self
      ⟨hlen, h256⟩ start goal hs hg move_time control_time
    have hfuel := JointTrajectory.init_loop_fuel solve_singular start goal move_time control_time
    have hspec := JointTrajectory.init_loop_spec solve_singular start goal move_time control_time
      self.joint_num_ h256 (self.joint_num_ + 1) 0 self (by omega) (by omega) (by omega)
    obtain ⟨s1, -, -, -, -, -, -, -, hs1⟩ := hspec
    rw [if_pos (by omega)] at hs1
    have h1 : JointTrajectory.init_loop solve_singular start goal move_time control_time
        (self.joint_num_ + 1) 0 self = Outcome.returned self' := by
      have := hfuel (self.joint_num_ + 1) 256 0 self (by omega) (by rw [hs1]; simp)
      rw [← this]
      exact hrun
    obtain ⟨hp, hv, ha⟩ := JointTrajectory.getPosition_returned self' hwf' tick
    refine ⟨self', hrun, h1, ?_, hnum, by rw [hwf'.1, hnum], _, _, _, hp, ?_, hv, ?_, ha, ?_⟩
    · exact JointTrajectory.init_loop_diverged solve_singular start goal move_time control_time
        (by omega) (by omega) self.joint_num_ 0 self (by omega) (by omega)
    · simp [hwf'.1, hnum]
    · simp [hwf'.1, hnum]
    · simp [hwf'.1, hnum]

/-- Witness of C19: two degrees of freedom. -/
theorem C19_init_safe_witness :
    (JointTrajectory.new 2).well_formed ∧
    ([⟨0, 0, 0⟩, ⟨1, 2, 3⟩] : List Trajectory).length = (JointTrajectory.new 2).joint_num_ ∧
    ([⟨10, 0, 0⟩, ⟨4, 5, 6⟩] : List Trajectory).length = (JointTrajectory.new 2).joint_num_ ∧
    ∃ self' : JointTrajectory,
      (JointTrajectory.new 2).init solve_singular_zero [⟨0, 0, 0⟩, ⟨1, 2, 3⟩]
        [⟨10, 0, 0⟩, ⟨4, 5, 6⟩] 2 (1 / 10) = Outcome.returned self' ∧
      JointTrajectory.init_loop solve_singular_zero [⟨0, 0, 0⟩, ⟨1, 2, 3⟩]
        [⟨10, 0, 0⟩, ⟨4, 5, 6⟩] 2 (1 / 10) ((JointTrajectory.new 2).joint_num_ + 1) 0
        (JointTrajectory.new 2) = Outcome.returned self' ∧
      JointTrajectory.init_loop solve_singular_zero [⟨0, 0, 0⟩, ⟨1, 2, 3⟩]
        [⟨10, 0, 0⟩, ⟨4, 5, 6⟩] 2 (1 / 10) (JointTrajectory.new 2).joint_num_ 0
        (JointTrajectory.new 2) = Outcome.diverged ∧
      self'.joint_num_ = (JointTrajectory.new 2).joint_num_ ∧
      self'.coefficient_.length = (JointTrajectory.new 2).joint_num_ ∧
      ∃ tp tv ta : JointTrajectory,
        self'.getPosition 1 = Outcome.returned tp ∧
        tp.position_.length = (JointTrajectory.new 2).joint_num_ ∧
        self'.getVelocity 1 = Outcome.returned tv ∧
        tv.velocity_.length = (JointTrajectory.new 2).joint_num_ ∧
        self'.getAcceleration 1 = Outcome.returned ta ∧
        ta.acceleration_.length = (JointTrajectory.new 2).joint_num_ :=
  ⟨JointTrajectory.new_well_formed 2, rfl, rfl,
    (C19_init_safe solve_singular_zero (JointTrajectory.new 2) [⟨0, 0, 0⟩, ⟨1, 2, 3⟩]
      [⟨10, 0, 0⟩, ⟨4, 5, 6⟩] 2 (1 / 10) 1 (JointTrajectory.new_well_formed 2) rfl rfl).2.2⟩

/-- C20: rest-to-rest motion does not overshoot, in exact arithmetic.  For
every `p0`, `p1` and every quantized duration `T > 0`, with
`start = (p0, 0, 0)` and `goal = (p1, 0, 0)`, the solved position satisfies
`position(t) = p0 + (p1 - p0) * (10 s^3 - 15 s^4 + 6 s^5)` with `s = t / T`, is
monotone on `[0, T]` (non-decreasing when `p1 >= p0`, non-increasing when
`p1 <= p0`), stays between `p0` and `p1` for every `t` in `[0, T]`, and equals
`(p0 + p1) / 2` at `t = T / 2`; `getPosition` of the one-DOF trajectory
initialised with these boundary points returns this position. -/
theorem C20_rest_to_rest (solve_singular : SingularSolve) (p0 p1 move_time control_time : ℚ)
    (hT : 0 < quantized_move_time move_time control_time) :
    (∀ t : ℚ, rest_to_rest_position solve_singular p0 p1 move_time control_time t
      = p0 + (p1 - p0) *
          (10 * (t / quantized_move_time move_time control_time) ^ 3
            - 15 * (t / quantized_move_time move_time control_time) ^ 4
            + 6 * (t / quantized_move_time move_time control_time) ^ 5)) ∧
    (∀ t₁ t₂ : ℚ, 0 ≤ t₁ → t₁ ≤ t₂ → t₂ ≤ quantized_move_time move_time control_time →
      (p0 ≤ p1 →
        rest_to_rest_position solve_singular p0 p1 move_time control_time t₁
          ≤ rest_to_rest_position solve_singular p0 p1 move_time control_time t₂) ∧
      (p1 ≤ p0 →
        rest_to_rest_position solve_singular p0 p1 move_time control_time t₂
          ≤ rest_to_rest_position solve_singular p0 p1 move_time control_time t₁)) ∧
    (∀ t : ℚ, 0 ≤ t → t ≤ quantized_move_time move_time control_time →
      min p0 p1 ≤ rest_to_rest_position solve_singular p0 p1 move_time control_time t ∧
      rest_to_rest_position solve_singular p0 p1 move_time control_time t ≤ max p0 p1) ∧
    rest_to_rest_position solve_singular p0 p1 move_time control_time
      (quantized_move_time move_time control_time / 2) = (p0 + p1) / 2 ∧
    ∃ trajectory : JointTrajectory,
      (JointTrajectory.new 1).init solve_singular [⟨p0, 0, 0⟩] [⟨p1, 0, 0⟩] move_time control_time
        = Outcome.returned trajectory ∧
      ∀ t : ℚ, ∃ tp : JointTrajectory,
        trajectory.getPosition t = Outcome.returned tp ∧
        tp.position_ = [rest_to_rest_position solve_singular p0 p1 move_time control_time t] := by
  have hne : quantized_move_time move_time control_time ≠ 0 := hT.ne'
  have hform := rest_to_rest_position_eq solve_singular p0 p1 move_time control_time hne
  have hmono : ∀ t₁ t₂ : ℚ, t₁ ≤ t₂ →
      (p0 ≤ p1 →
        rest_to_rest_position solve_singular p0 p1 move_time control_time t₁
          ≤ rest_to_rest_position solve_singular p0 p1 move_time control_time t₂) ∧
      (p1 ≤ p0 →
        rest_to_rest_position solve_singular p0 p1 move_time control_time t₂
          ≤ rest_to_rest_position solve_singular p0 p1 move_time control_time t₁) := by
    intro t₁ t₂ h12
    have hdiv : t₁ / quantized_move_time move_time control_time
        ≤ t₂ / quantized_move_time move_time control_time :=
      div_le_div_of_nonneg_right h12 hT.le
    have hstep := smoothstep_mono _ _ hdiv
    rw [hform t₁, hform t₂]
    constructor
    · intro hp
      have := mul_le_mul_of_nonneg_left hstep (sub_nonneg.2 hp)
      linarith
    · intro hp
      have := mul_le_mul_of_nonneg_left hstep (sub_nonneg.2 hp)
      linarith
  have h0 : rest_to_rest_position solve_singular p0 p1 move_time control_time 0 = p0 := by
    rw [hform]; simp
  have h1 : rest_to_rest_position solve_singular p0 p1 move_time control_time
      (quantized_move_time move_time control_time) = p1 := by
    rw [hform, div_self hne]; ring
  refine ⟨hform, fun t₁ t₂ _ h12 _ => hmono t₁ t₂ h12, ?_, ?_, ?_⟩
  · intro t ht0 htT
    obtain ⟨ha, hb⟩ := hmono 0 t ht0
    obtain ⟨hc, hd⟩ := hmono t _ htT
    rw [h0] at ha hb
    rw [h1] at hc hd
    rcases le_total p0 p1 with hp | hp
    · rw [min_eq_left hp, max_eq_right hp]
      exact ⟨ha hp, hc hp⟩
    · rw [min_eq_right hp, max_eq_left hp]
      exact ⟨hd hp, hb hp⟩
  · rw [hform]
    have : quantized_move_time move_time control_time / 2
        / quantized_move_time move_time control_time = 1 / 2 := by
      field_simp
      ring
    rw [this]; ring
  · obtain ⟨trajectory, hrun, hwf, hnum, hcol⟩ := JointTrajectory.init_returned solve_singular
      (JointTrajectory.new 1) (JointTrajectory.new_well_formed 1) [⟨p0, 0, 0⟩] [⟨p1, 0, 0⟩]
      rfl rfl move_time control_time
    have hlen : trajectory.coefficient_.length = 1 := by rw [hwf.1, hnum]; rfl
    have hcoef := coefficient_eq_zipWith solve_singular trajectory.coefficient_ [⟨p0, 0, 0⟩]
      [⟨p1, 0, 0⟩] 1 move_time control_time hlen rfl rfl hcol
    refine ⟨trajectory, hrun, ?_⟩
    intro t
    refine ⟨_, (JointTrajectory.getPosition_returned trajectory hwf t).1, ?_⟩
    simp only [hcoef, List.zipWith_cons_cons, List.zipWith_nil_left, List.map_cons, List.map_nil,
      rest_to_rest_position]

/-- Witness of C20: from 0 to 10 with `move_time = 2`, `control_time = 1/10`. -/
theorem C20_rest_to_rest_witness :
    (0 : ℚ) < quantized_move_time 2 (1 / 10) ∧
    rest_to_rest_position solve_singular_zero 0 10 2 (1 / 10) (quantized_move_time 2 (1 / 10) / 2)
      = (0 + 10) / 2 :=
  ⟨by norm_num [quantized_move_time, step_time],
    (C20_rest_to_rest solve_singular_zero 0 10 2 (1 / 10)
      (by norm_num [quantized_move_time, step_time])).2.2.2.1⟩

/-- C21: `setComponent` never changes the tree.  For every Manipulator state,
every name and every component value, the object after
`setComponent(name, component, error)` is the object before the call: the
component map is identical (when the name is present the `insert` is a no-op
on the existing key and the stored component is kept, when it is absent
nothing is inserted), every lookup returns what it returned before, and the
value written to `*error` is `true` if and only if the name is not a key. -/
theorem C21_setComponent_frame {Name : Type} [LinearOrder Name] (self : Manipulator Name)
    (name : Name) (component : Component Name) :
    (self.setComponent name component).1 = self ∧
    (self.setComponent name component).1.component_ = self.component_ ∧
    (∀ x : Name, (self.setComponent name component).1.getComponent x = self.getComponent x) ∧
    ((self.setComponent name component).2 = true ↔ name ∉ self.component_.map Prod.fst) ∧
    (self.after (Call.setComponent name component)).component_ = self.component_ := by
  have h1 : (self.setComponent name component).1 = self := by
    unfold Manipulator.setComponent
    by_cases hp : (map_find self.component_ name).isSome = true
    · simp only [if_pos hp, map_insert]
    · simp only [if_neg hp]
  refine ⟨h1, by rw [h1], fun x => by rw [h1], ?_, ?_⟩
  · rw [← map_find_eq_none]
    unfold Manipulator.setComponent
    cases h : map_find self.component_ name <;> simp
  · simp only [Manipulator.after, Manipulator.call, h1]

/-- C22: tool setters take effect only for positive tool ids.  For every
Manipulator state and every stored component `name` (for a component added by
`addTool(name, ..., tool_id, ...)` under a fresh name the stored tool id is
that `tool_id`): `setComponentToolValue(name, v)` followed by
`getComponentToolValue(name)` returns `v` for every value `v`, and
`setComponentToolOnOff(name, f)` followed by `getComponentToolOnOff(name)`
returns `f` for every flag `f`, if and only if the tool id is greater than 0;
for a tool whose id is 0 or negative both setters leave the object, and so the
tool value and the on/off flag, as they were, while
`setComponentJointAngle(name, angle)` on that same tool stores the angle. -/
theorem C22_tool_setters {Name : Type} [LinearOrder Name] (self : Manipulator Name)
    (name : Name) (c : Component Name) (hc : map_find self.component_ name = some c) :
    ((∀ v : ℚ, ∃ s : Manipulator Name,
        self.setComponentToolValue name v = Outcome.returned s ∧
        s.getComponentToolValue name = some v) ↔ 0 < c.tool.id) ∧
    ((∀ f : Bool, ∃ s : Manipulator Name,
        self.setComponentToolOnOff name f = Outcome.returned s ∧
        s.getComponentToolOnOff name = some f) ↔ 0 < c.tool.id) ∧
    ((∀ (v : ℚ) (f : Bool),
        (∃ s : Manipulator Name, self.setComponentToolValue name v = Outcome.returned s ∧
          s.getComponentToolValue name = some v) ∧
        (∃ s : Manipulator Name, self.setComponentToolOnOff name f = Outcome.returned s ∧
          s.getComponentToolOnOff name = some f)) ↔ 0 < c.tool.id) ∧
    (c.tool.id ≤ 0 → ∀ (v angle : ℚ) (f : Bool),
      self.setComponentToolValue name v = Outcome.returned self ∧
      self.setComponentToolOnOff name f = Outcome.returned self ∧
      (self.after (Call.setComponentToolValue name v)).getComponentToolValue name
        = some c.tool.value ∧
      (self.after (Call.setComponentToolOnOff name f)).getComponentToolOnOff name
        = some c.tool.on_off ∧
      ∃ s : Manipulator Name, self.setComponentJointAngle name angle = Outcome.returned s ∧
        s.getComponentJointAngle name = some angle) ∧
    ∀ (base : Manipulator Name) (parent_name : Name) (relative_position : Vector3f)
      (relative_orientation : Matrix3f) (tool_id : ℤ) (coefficient mass : ℚ)
      (inertia_tensor : Matrix3f) (center_of_mass : Vector3f),
      map_find base.component_ name = none →
      self = base.addTool name parent_name relative_position relative_orientation tool_id
        coefficient mass inertia_tensor center_of_mass →
      c.tool.id = tool_id ∧ c.tool.value = 0 ∧ c.tool.on_off = false ∧ c.joint.angle = 0 := by
  have hstored := fun (v angle : ℚ) (f : Bool) =>
    Manipulator.tool_setters_stored self name c v angle f hc
  have hvalue : (∀ v : ℚ, ∃ s : Manipulator Name,
        self.setComponentToolValue name v = Outcome.returned s ∧
        s.getComponentToolValue name = some v) ↔ 0 < c.tool.id := by
    constructor
    · intro h
      rcases ((hstored (c.tool.value + 1) 0 false).2.2.1).1 (h (c.tool.value + 1)) with hid | hv
      · exact hid
      · exact absurd hv (by linarith)
    · intro hid v
      exact ((hstored v 0 false).1 hid).1
  have hflag : (∀ f : Bool, ∃ s : Manipulator Name,
        self.setComponentToolOnOff name f = Outcome.returned s ∧
        s.getComponentToolOnOff name = some f) ↔ 0 < c.tool.id := by
    constructor
    · intro h
      rcases ((hstored 0 0 (!c.tool.on_off)).2.2.2.1).1 (h (!c.tool.on_off)) with hid | hf
      · exact hid
      · exact absurd hf (by cases c.tool.on_off <;> simp)
    · intro hid f
      exact ((hstored 0 0 f).1 hid).2
  refine ⟨hvalue, hflag, ?_, ?_, (hstored 0 0 false).2.2.2.2⟩
  · constructor
    · intro h
      exact hvalue.1 (fun v => (h v false).1)
    · intro hid v f
      exact ⟨hvalue.2 hid v, hflag.2 hid f⟩
  · intro hid v angle f
    obtain ⟨h1, h2, h3, h4, h5⟩ := (hstored v angle f).2.1 hid
    refine ⟨h1, h2, ?_, ?_, h5⟩
    · simp only [Manipulator.after, Manipulator.call, h1]; exact h3
    · simp only [Manipulator.after, Manipulator.call, h2]; exact h4

/-- Witness of C22: a tool added under the name 1 with tool id 2; every value
and flag written is read back. -/
theorem C22_tool_setters_witness :
    map_find tool_with_id_two.component_ 1
      = some { parent := 0, child := [],
               relative_to_parent := ⟨Vector3f.Zero, Matrix3f.Identity⟩,
               pose_to_world := ⟨Vector3f.Zero, Matrix3f.Identity⟩,
               origin := ⟨VectorXf_Zero3, VectorXf_Zero3⟩,
               joint := ⟨-1, 0, Vector3f.Zero, 0, 0, 0⟩,
               tool := ⟨2, 1, false, 0⟩,
               inertia := ⟨1, Matrix3f.Identity, Vector3f.Zero⟩ } ∧
    ((∀ v : ℚ, ∃ s : Manipulator ℕ,
        tool_with_id_two.setComponentToolValue 1 v = Outcome.returned s ∧
        s.getComponentToolValue 1 = some v) ↔ (0 : ℤ) < 2) :=
  ⟨rfl, (C22_tool_setters tool_with_id_two 1 _ rfl).1⟩

/-- C3 (as amended): step quantization.  For every `move_time > 0` and
`control_time > 0` with `floor(q) < 65535`, where `q` is the quotient
`move_time / control_time` as computed, in double precision (so that the tick
count fits the 16-bit unsigned integer that holds it), `calcCoefficient`
computes the tick count `steps = floor(q) + 1` and uses the double-precision
product `(steps - 1) * control_time = floor(q) * control_time` as the time
variable `T` of the linear system: the matrix and the right-hand side handed
to the solver are those of `T`. -/
theorem C3_step_quantization (P : Platform) (self : MinimumJerk) (start goal : Trajectory)
    (move_time control_time : ℚ) (hmove : 0 < move_time) (hcontrol : 0 < control_time)
    (hfit : ⌊to_double (move_time / control_time)⌋ < 65535) :
    step_time_double P move_time control_time = ⌊to_double (move_time / control_time)⌋ + 1 ∧
    quantized_move_time_double P move_time control_time
      = to_double (((step_time_double P move_time control_time - 1 : ℤ) : ℚ) * control_time) ∧
    quantized_move_time_double P move_time control_time
      = to_double ((⌊to_double (move_time / control_time)⌋ : ℚ) * control_time) ∧
    (self.calcCoefficient_float P start goal move_time control_time).getCoefficient
      = ⟨to_float start.position, to_float start.velocity,
          to_float (to_double (0.5 * start.acceleration)),
          (P.solve
            (calcCoefficient_A_float P
              (to_double ((⌊to_double (move_time / control_time)⌋ : ℚ) * control_time)))
            (calcCoefficient_b_float P start goal
              (to_double ((⌊to_double (move_time / control_time)⌋ : ℚ) * control_time)))).x,
          (P.solve
            (calcCoefficient_A_float P
              (to_double ((⌊to_double (move_time / control_time)⌋ : ℚ) * control_time)))
            (calcCoefficient_b_float P start goal
              (to_double ((⌊to_double (move_time / control_time)⌋ : ℚ) * control_time)))).y,
          (P.solve
            (calcCoefficient_A_float P
              (to_double ((⌊to_double (move_time / control_time)⌋ : ℚ) * control_time)))
            (calcCoefficient_b_float P start goal
              (to_double ((⌊to_double (move_time / control_time)⌋ : ℚ) * control_time)))).z⟩ := by
  have hstep := step_time_double_eq P move_time control_time hmove hcontrol hfit
  have hT : quantized_move_time_double P move_time control_time
      = to_double ((⌊to_double (move_time / control_time)⌋ : ℚ) * control_time) := by
    rw [quantized_move_time_double, hstep]
    simp
  refine ⟨hstep, rfl, hT, ?_⟩
  rw [calcCoefficient_float_coefficient, hT]

/-- Witness of C3: `move_time = 0.5` and `control_time` the double nearest to
`0.1`.  The exact quotient is just below 5, the double-precision quotient is
5, and the tick count is 6. -/
theorem C3_step_quantization_witness :
    (0 : ℚ) < 1 / 2 ∧ (0 : ℚ) < double_one_tenth ∧
    ⌊to_double ((1 / 2) / double_one_tenth)⌋ < 65535 ∧
    step_time_double example_platform (1 / 2) double_one_tenth
      = ⌊to_double ((1 / 2) / double_one_tenth)⌋ + 1 ∧
    ⌊to_double ((1 / 2) / double_one_tenth)⌋ + 1 = 6 :=
  ⟨by norm_num, by norm_num [double_one_tenth],
    by rw [to_double_half_div_one_tenth.1]; norm_num,
    (C3_step_quantization example_platform MinimumJerk.new ⟨0, 0, 0⟩ ⟨10, 0, 0⟩ (1 / 2)
      double_one_tenth (by norm_num) (by norm_num [double_one_tenth])
      (by rw [to_double_half_div_one_tenth.1]; norm_num)).1,
    by rw [to_double_half_div_one_tenth.1]; norm_num⟩

/-- Counterexample to C3 as stated, on every platform.  For `move_time = 65535`
and `control_time = 1` the value `floor(move_time / control_time) + 1 = 65536`
(the same with the exact and with the double-precision quotient) does not fit
the 16-bit tick count, which holds a value below 65536.  For `move_time = 0.5`
and `control_time` the double nearest to `0.1` the exact quotient is below 5,
so `floor(move_time / control_time) + 1 = 5`, while the code, flooring the
double-precision quotient 5, computes 6 ticks. -/
theorem C3_counterexample :
    ((0 : ℚ) < 65535 ∧ (0 : ℚ) < 1 ∧
      ⌊(65535 : ℚ) / 1⌋ + 1 = 65536 ∧ ⌊to_double ((65535 : ℚ) / 1)⌋ + 1 = 65536 ∧
      ∀ P : Platform, step_time_double P 65535 1 < 65536 ∧
        step_time_double P 65535 1 ≠ ⌊(65535 : ℚ) / 1⌋ + 1) ∧
    ((0 : ℚ) < 1 / 2 ∧ (0 : ℚ) < double_one_tenth ∧
      ⌊(1 / 2 : ℚ) / double_one_tenth⌋ + 1 = 5 ∧
      ∀ P : Platform, step_time_double P (1 / 2) double_one_tenth = 6) := by
  have h65535 : to_double ((65535 : ℚ) / 1) = 65535 := by
    have := to_double_intCast 65535 (by norm_num)
    simpa using this
  have hfloor : ⌊(65535 : ℚ) / 1⌋ + 1 = 65536 := by norm_num
  refine ⟨⟨by norm_num, by norm_num, hfloor, ?_, fun P => ?_⟩,
    by norm_num, by norm_num [double_one_tenth], ?_, ?_⟩
  · rw [h65535]; norm_num
  · have hlt := (step_time_double_range P 65535 1).2
    exact ⟨hlt, by rw [hfloor]; omega⟩
  · norm_num [double_one_tenth]
  · intro P
    rw [step_time_double_eq P _ _ (by norm_num) (by norm_num [double_one_tenth])
      (by rw [to_double_half_div_one_tenth.1]; norm_num), to_double_half_div_one_tenth.1]
    norm_num
